import Mathlib

/-!
# luac.c (Lua 5.3 bytecode lister and chunk combiner): a shallow embedding

Text written by `printf` is modelled as a `String`; a sequence of `printf` calls is the
concatenation of their texts.  Array reads are `Option`-valued: `none` stands for a read
outside the array (undefined behaviour in C).  Sizes, registers and indexes, which are never
negative in a `Proto`, are natural numbers; values printed with a sign are integers.
-/

namespace Luac

/-! ## Formatted output -/

/-- Conversion "%d" (and "%lld") of printf. -/
def fmt_d (x : Int) : String := toString x

/-- Conversion "%03d" of printf: decimal, padded with zeros on the left to width 3. -/
def fmt_03d (x : Int) : String :=
  if x < 0 then
    "-" ++ String.mk (List.replicate (2 - (toString x.natAbs).length) (Char.ofNat 48))
      ++ toString x.natAbs
  else
    String.mk (List.replicate (3 - (toString x.natAbs).length) (Char.ofNat 48))
      ++ toString x.natAbs

/-- Conversion "%-9s" of printf: the text, padded with blanks on the right to width 9. -/
def fmt_s9 (s : String) : String :=
  s ++ String.mk (List.replicate (9 - s.length) (Char.ofNat 32))

/-- Function `isprint` of ctype.h in the "C" locale (luac.c never calls setlocale). -/
def isprint (c : Nat) : Bool := decide (32 ≤ c) && decide (c ≤ 126)

/-! ## Data model (lobject.h) -/

/-- A string object: the bytes returned by getstr, tsslen of them. -/
abbrev TString := List Nat

/-- Conversion "%s" of printf applied to getstr(ts): the bytes up to the first NUL. -/
def fmt_s (ts : TString) : String :=
  String.mk ((ts.takeWhile (fun b => b % 256 != 0)).map (fun b => Char.ofNat (b % 256)))

/-- A float constant (lua_Number, a C double), kept as its IEEE-754 binary64 bit pattern. -/
structure lua_Number where
  bits : Nat
deriving DecidableEq, Repr

/-- A constant of the pool, by type tag: LUA_TNIL, LUA_TBOOLEAN (with bvalue),
LUA_TNUMFLT (with fltvalue), LUA_TNUMINT (with ivalue), LUA_TSHRSTR and LUA_TLNGSTR
(with tsvalue), and any other tag value `ttype(o)`. -/
inductive TValue where
  | nil
  | boolean (b : Int)
  | numflt (n : lua_Number)
  | numint (i : Int)
  | shrstr (ts : TString)
  | lngstr (ts : TString)
  | other (tt : Nat)
deriving DecidableEq, Repr

/-- Description of an upvalue: `name` is `none` for a NULL name. -/
structure Upvaldesc where
  name : Option TString
  instack : Nat
  idx : Nat
deriving DecidableEq, Repr

/-- Description of a local variable (debug information). -/
structure LocVar where
  varname : TString
  startpc : Int
  endpc : Int
deriving DecidableEq, Repr

/-- An instruction word (unsigned 32-bit). -/
abbrev Instruction := Nat

/-- Function prototype.  The `size...` fields are kept apart from the arrays, as in C;
`lineinfo` and `source` are `none` when the pointer is NULL.  The field `addr` is the address
of the object, the value of the pointer `f` that "%p" prints: two prototypes that are
distinct objects have distinct addresses, also when all their other fields are equal.  It is
left at 0 where no address is printed or a single prototype is. -/
structure Proto where
  numparams : Nat
  is_vararg : Nat
  maxstacksize : Nat
  sizeupvalues : Nat
  sizek : Nat
  sizecode : Nat
  sizelineinfo : Nat
  sizep : Nat
  sizelocvars : Nat
  linedefined : Int
  lastlinedefined : Int
  k : List TValue
  code : List Instruction
  p : List Proto
  lineinfo : Option (List Int)
  locvars : List LocVar
  upvalues : List Upvaldesc
  source : Option TString
  addr : Nat := 0

/-- What the C library contributes to the listing and the source does not fix: the text
sprintf writes for a double under LUA_NUMBER_FMT, and the text that "%p" writes for an
address. -/
structure CLib where
  number_fmt : lua_Number → String
  pointer_fmt : Nat → String

/-! ## PrintString -/

/-- Body of the loop of PrintString for the byte c = (int)(unsigned char)s[i]. -/
def PrintStringChar (c : Nat) : String :=
  match c with
  | 34 => "\\\""
  | 92 => "\\\\"
  | 7 => "\\a"
  | 8 => "\\b"
  | 12 => "\\f"
  | 10 => "\\n"
  | 13 => "\\r"
  | 9 => "\\t"
  | 11 => "\\v"
  | _ => if isprint c then String.singleton (Char.ofNat c) else "\\" ++ fmt_03d c

/-- The for loop of PrintString over the remaining bytes. -/
def PrintStringLoop : List Nat → String
  | [] => ""
  | ch :: rest => PrintStringChar (ch % 256) ++ PrintStringLoop rest

/-- PrintString: an opening quote, the escaped bytes, a closing quote. -/
def PrintString (ts : TString) : String :=
  String.singleton (Char.ofNat 34) ++ PrintStringLoop ts ++ String.singleton (Char.ofNat 34)

/-! ## Un-escaping (the reader's side of the round trip, after the specification) -/

/-- Byte denoted by the character after a backslash in a one-character escape:
the quote, the backslash, and a b f n r t v. -/
def unescapeMnemonic (e : Nat) : Option Nat :=
  if e = 34 then some 34
  else if e = 92 then some 92
  else if e = 97 then some 7
  else if e = 98 then some 8
  else if e = 102 then some 12
  else if e = 110 then some 10
  else if e = 114 then some 13
  else if e = 116 then some 9
  else if e = 118 then some 11
  else none

/-- Decimal digit characters. -/
def isDecDigit (d : Nat) : Bool := decide (48 ≤ d) && decide (d ≤ 57)

/-- Where the un-escaper stands: between items, right after a backslash, or after one or
two digits of a decimal escape (with the value read so far). -/
inductive UnescState where
  | plain
  | afterBackslash
  | digit1 (acc : Nat)
  | digit2 (acc : Nat)

/-- Un-escaping of the text between the quotes, one character at a time.  A bare quote, an
unknown escape, a decimal escape of fewer than three digits or above 255, and a text that
ends inside an escape are rejected. -/
def unescapeBody : UnescState → List Char → Option (List Nat)
  | .plain, [] => some []
  | .plain, c :: rest =>
    if c.toNat = 92 then unescapeBody .afterBackslash rest
    else if c.toNat = 34 then none
    else (unescapeBody .plain rest).map (fun t => c.toNat :: t)
  | .afterBackslash, [] => none
  | .afterBackslash, e :: rest =>
    match unescapeMnemonic e.toNat with
    | some b => (unescapeBody .plain rest).map (fun t => b :: t)
    | none =>
      if isDecDigit e.toNat then unescapeBody (.digit1 (e.toNat - 48)) rest else none
  | .digit1 _, [] => none
  | .digit1 acc, d :: rest =>
    if isDecDigit d.toNat then unescapeBody (.digit2 (acc * 10 + (d.toNat - 48))) rest else none
  | .digit2 _, [] => none
  | .digit2 acc, d :: rest =>
    if isDecDigit d.toNat && decide (acc * 10 + (d.toNat - 48) ≤ 255) then
      (unescapeBody .plain rest).map (fun t => (acc * 10 + (d.toNat - 48)) :: t)
    else none

/-- Un-escaping of a rendered string: strip the surrounding double quotes, then decode. -/
def unescape (t : String) : Option (List Nat) :=
  match t.data with
  | [] => none
  | q :: r =>
    if q.toNat = 34 ∧ r.getLast? = some (Char.ofNat 34) then unescapeBody .plain r.dropLast
    else none

/-! ## Instruction layout and opcode tables (lopcodes.h, lopcodes.c) -/

/-- Modelled from the spec: macro GET_OPCODE of lopcodes.h, which is not among the sources
(Lua 5.3 layout: the opcode is the low 6 bits of the word). -/
def GET_OPCODE (i : Instruction) : Nat := i % 2 ^ 6

/-- Modelled from the spec: macro GETARG_A of lopcodes.h (8 bits from bit 6). -/
def GETARG_A (i : Instruction) : Nat := (i / 2 ^ 6) % 2 ^ 8

/-- Modelled from the spec: macro GETARG_B of lopcodes.h (9 bits from bit 23). -/
def GETARG_B (i : Instruction) : Nat := (i / 2 ^ 23) % 2 ^ 9

/-- Modelled from the spec: macro GETARG_C of lopcodes.h (9 bits from bit 14). -/
def GETARG_C (i : Instruction) : Nat := (i / 2 ^ 14) % 2 ^ 9

/-- Modelled from the spec: macro GETARG_Bx of lopcodes.h (18 bits from bit 14). -/
def GETARG_Bx (i : Instruction) : Nat := (i / 2 ^ 14) % 2 ^ 18

/-- Modelled from the spec: macro GETARG_Ax of lopcodes.h (26 bits from bit 6). -/
def GETARG_Ax (i : Instruction) : Nat := (i / 2 ^ 6) % 2 ^ 26

/-- Modelled from the spec: constant MAXARG_sBx of lopcodes.h, the excess of the signed
offset: (2^18 - 1) >> 1. -/
def MAXARG_sBx : Int := 131071

/-- Modelled from the spec: macro GETARG_sBx of lopcodes.h, the signed offset. -/
def GETARG_sBx (i : Instruction) : Int := (GETARG_Bx i : Int) - MAXARG_sBx

/-- Modelled from the spec: macro CREATE_ABC of lopcodes.h. -/
def CREATE_ABC (o a b c : Nat) : Instruction := o + a * 2 ^ 6 + b * 2 ^ 23 + c * 2 ^ 14

/-- Modelled from the spec: macro CREATE_ABx of lopcodes.h. -/
def CREATE_ABx (o a bc : Nat) : Instruction := o + a * 2 ^ 6 + bc * 2 ^ 14

/-- Modelled from the spec: the bias constant BITRK of lopcodes.h, bit 8 of a B or C
operand (1 << (SIZE_B - 1)). -/
def BITRK : Nat := 256

/-- Modelled from the spec: macro ISK of lopcodes.h, `x & BITRK` (non-zero for a constant). -/
def ISK (x : Nat) : Nat := x &&& BITRK

/-- Modelled from the spec: macro INDEXK of lopcodes.h, `(int)x & ~BITRK`; for a 32-bit int
the mask ~BITRK is 0xFFFFFEFF. -/
def INDEXK (x : Nat) : Nat := x &&& 0xFFFFFEFF

/-- Macro MYK of luac.c. -/
def MYK (x : Int) : Int := -1 - x

/-- Modelled from the spec: enum OpArgMask of lopcodes.h, argument is not used. -/
def OpArgN : Nat := 0

/-- Modelled from the spec: enum OpArgMask of lopcodes.h, argument is used. -/
def OpArgU : Nat := 1

/-- Modelled from the spec: enum OpArgMask of lopcodes.h, argument is a register or a
jump offset. -/
def OpArgR : Nat := 2

/-- Modelled from the spec: enum OpArgMask of lopcodes.h, argument is a constant or a
register/constant. -/
def OpArgK : Nat := 3

/-- Modelled from the spec: enum OpMode of lopcodes.h. -/
def iABC : Nat := 0

/-- Modelled from the spec: enum OpMode of lopcodes.h. -/
def iABx : Nat := 1

/-- Modelled from the spec: enum OpMode of lopcodes.h. -/
def iAsBx : Nat := 2

/-- Modelled from the spec: enum OpMode of lopcodes.h. -/
def iAx : Nat := 3

/-- Modelled from the spec: enum OpCode of lopcodes.h (Lua 5.3), value 0. -/
def OP_MOVE : Nat := 0
/-- Modelled from the spec: enum OpCode of lopcodes.h (Lua 5.3), value 1. -/
def OP_LOADK : Nat := 1
/-- Modelled from the spec: enum OpCode of lopcodes.h (Lua 5.3), value 2. -/
def OP_LOADKX : Nat := 2
/-- Modelled from the spec: enum OpCode of lopcodes.h (Lua 5.3), value 3. -/
def OP_LOADBOOL : Nat := 3
/-- Modelled from the spec: enum OpCode of lopcodes.h (Lua 5.3), value 4. -/
def OP_LOADNIL : Nat := 4
/-- Modelled from the spec: enum OpCode of lopcodes.h (Lua 5.3), value 5. -/
def OP_GETUPVAL : Nat := 5
/-- Modelled from the spec: enum OpCode of lopcodes.h (Lua 5.3), value 6. -/
def OP_GETTABUP : Nat := 6
/-- Modelled from the spec: enum OpCode of lopcodes.h (Lua 5.3), value 7. -/
def OP_GETTABLE : Nat := 7
/-- Modelled from the spec: enum OpCode of lopcodes.h (Lua 5.3), value 8. -/
def OP_SETTABUP : Nat := 8
/-- Modelled from the spec: enum OpCode of lopcodes.h (Lua 5.3), value 9. -/
def OP_SETUPVAL : Nat := 9
/-- Modelled from the spec: enum OpCode of lopcodes.h (Lua 5.3), value 10. -/
def OP_SETTABLE : Nat := 10
/-- Modelled from the spec: enum OpCode of lopcodes.h (Lua 5.3), value 11. -/
def OP_NEWTABLE : Nat := 11
/-- Modelled from the spec: enum OpCode of lopcodes.h (Lua 5.3), value 12. -/
def OP_SELF : Nat := 12
/-- Modelled from the spec: enum OpCode of lopcodes.h (Lua 5.3), value 13. -/
def OP_ADD : Nat := 13
/-- Modelled from the spec: enum OpCode of lopcodes.h (Lua 5.3), value 14. -/
def OP_SUB : Nat := 14
/-- Modelled from the spec: enum OpCode of lopcodes.h (Lua 5.3), value 15. -/
def OP_MUL : Nat := 15
/-- Modelled from the spec: enum OpCode of lopcodes.h (Lua 5.3), value 16. -/
def OP_MOD : Nat := 16
/-- Modelled from the spec: enum OpCode of lopcodes.h (Lua 5.3), value 17. -/
def OP_POW : Nat := 17
/-- Modelled from the spec: enum OpCode of lopcodes.h (Lua 5.3), value 18. -/
def OP_DIV : Nat := 18
/-- Modelled from the spec: enum OpCode of lopcodes.h (Lua 5.3), value 19. -/
def OP_IDIV : Nat := 19
/-- Modelled from the spec: enum OpCode of lopcodes.h (Lua 5.3), value 20. -/
def OP_BAND : Nat := 20
/-- Modelled from the spec: enum OpCode of lopcodes.h (Lua 5.3), value 21. -/
def OP_BOR : Nat := 21
/-- Modelled from the spec: enum OpCode of lopcodes.h (Lua 5.3), value 22. -/
def OP_BXOR : Nat := 22
/-- Modelled from the spec: enum OpCode of lopcodes.h (Lua 5.3), value 23. -/
def OP_SHL : Nat := 23
/-- Modelled from the spec: enum OpCode of lopcodes.h (Lua 5.3), value 24. -/
def OP_SHR : Nat := 24
/-- Modelled from the spec: enum OpCode of lopcodes.h (Lua 5.3), value 25. -/
def OP_UNM : Nat := 25
/-- Modelled from the spec: enum OpCode of lopcodes.h (Lua 5.3), value 26. -/
def OP_BNOT : Nat := 26
/-- Modelled from the spec: enum OpCode of lopcodes.h (Lua 5.3), value 27. -/
def OP_NOT : Nat := 27
/-- Modelled from the spec: enum OpCode of lopcodes.h (Lua 5.3), value 28. -/
def OP_LEN : Nat := 28
/-- Modelled from the spec: enum OpCode of lopcodes.h (Lua 5.3), value 29. -/
def OP_CONCAT : Nat := 29
/-- Modelled from the spec: enum OpCode of lopcodes.h (Lua 5.3), value 30. -/
def OP_JMP : Nat := 30
/-- Modelled from the spec: enum OpCode of lopcodes.h (Lua 5.3), value 31. -/
def OP_EQ : Nat := 31
/-- Modelled from the spec: enum OpCode of lopcodes.h (Lua 5.3), value 32. -/
def OP_LT : Nat := 32
/-- Modelled from the spec: enum OpCode of lopcodes.h (Lua 5.3), value 33. -/
def OP_LE : Nat := 33
/-- Modelled from the spec: enum OpCode of lopcodes.h (Lua 5.3), value 34. -/
def OP_TEST : Nat := 34
/-- Modelled from the spec: enum OpCode of lopcodes.h (Lua 5.3), value 35. -/
def OP_TESTSET : Nat := 35
/-- Modelled from the spec: enum OpCode of lopcodes.h (Lua 5.3), value 36. -/
def OP_CALL : Nat := 36
/-- Modelled from the spec: enum OpCode of lopcodes.h (Lua 5.3), value 37. -/
def OP_TAILCALL : Nat := 37
/-- Modelled from the spec: enum OpCode of lopcodes.h (Lua 5.3), value 38. -/
def OP_RETURN : Nat := 38
/-- Modelled from the spec: enum OpCode of lopcodes.h (Lua 5.3), value 39. -/
def OP_FORLOOP : Nat := 39
/-- Modelled from the spec: enum OpCode of lopcodes.h (Lua 5.3), value 40. -/
def OP_FORPREP : Nat := 40
/-- Modelled from the spec: enum OpCode of lopcodes.h (Lua 5.3), value 41. -/
def OP_TFORCALL : Nat := 41
/-- Modelled from the spec: enum OpCode of lopcodes.h (Lua 5.3), value 42. -/
def OP_TFORLOOP : Nat := 42
/-- Modelled from the spec: enum OpCode of lopcodes.h (Lua 5.3), value 43. -/
def OP_SETLIST : Nat := 43
/-- Modelled from the spec: enum OpCode of lopcodes.h (Lua 5.3), value 44. -/
def OP_CLOSURE : Nat := 44
/-- Modelled from the spec: enum OpCode of lopcodes.h (Lua 5.3), value 45. -/
def OP_VARARG : Nat := 45
/-- Modelled from the spec: enum OpCode of lopcodes.h (Lua 5.3), value 46. -/
def OP_EXTRAARG : Nat := 46

/-- Modelled from the spec: macro opmode of lopcodes.c, one byte of opcode properties:
test flag, sets-A flag, B mode, C mode, instruction format. -/
def opmode (t a b c m : Nat) : Nat := t * 2 ^ 7 + a * 2 ^ 6 + b * 2 ^ 4 + c * 2 ^ 2 + m

/-- Modelled from the spec: table luaP_opmodes of lopcodes.c (Lua 5.3), indexed by opcode. -/
def luaP_opmodes : List Nat :=
  [ opmode 0 1 OpArgR OpArgN iABC   -- OP_MOVE
  , opmode 0 1 OpArgK OpArgN iABx   -- OP_LOADK
  , opmode 0 1 OpArgN OpArgN iABx   -- OP_LOADKX
  , opmode 0 1 OpArgU OpArgU iABC   -- OP_LOADBOOL
  , opmode 0 1 OpArgU OpArgN iABC   -- OP_LOADNIL
  , opmode 0 1 OpArgU OpArgN iABC   -- OP_GETUPVAL
  , opmode 0 1 OpArgU OpArgK iABC   -- OP_GETTABUP
  , opmode 0 1 OpArgR OpArgK iABC   -- OP_GETTABLE
  , opmode 0 0 OpArgK OpArgK iABC   -- OP_SETTABUP
  , opmode 0 0 OpArgU OpArgN iABC   -- OP_SETUPVAL
  , opmode 0 0 OpArgK OpArgK iABC   -- OP_SETTABLE
  , opmode 0 1 OpArgU OpArgU iABC   -- OP_NEWTABLE
  , opmode 0 1 OpArgR OpArgK iABC   -- OP_SELF
  , opmode 0 1 OpArgK OpArgK iABC   -- OP_ADD
  , opmode 0 1 OpArgK OpArgK iABC   -- OP_SUB
  , opmode 0 1 OpArgK OpArgK iABC   -- OP_MUL
  , opmode 0 1 OpArgK OpArgK iABC   -- OP_MOD
  , opmode 0 1 OpArgK OpArgK iABC   -- OP_POW
  , opmode 0 1 OpArgK OpArgK iABC   -- OP_DIV
  , opmode 0 1 OpArgK OpArgK iABC   -- OP_IDIV
  , opmode 0 1 OpArgK OpArgK iABC   -- OP_BAND
  , opmode 0 1 OpArgK OpArgK iABC   -- OP_BOR
  , opmode 0 1 OpArgK OpArgK iABC   -- OP_BXOR
  , opmode 0 1 OpArgK OpArgK iABC   -- OP_SHL
  , opmode 0 1 OpArgK OpArgK iABC   -- OP_SHR
  , opmode 0 1 OpArgR OpArgN iABC   -- OP_UNM
  , opmode 0 1 OpArgR OpArgN iABC   -- OP_BNOT
  , opmode 0 1 OpArgR OpArgN iABC   -- OP_NOT
  , opmode 0 1 OpArgR OpArgN iABC   -- OP_LEN
  , opmode 0 1 OpArgR OpArgR iABC   -- OP_CONCAT
  , opmode 0 0 OpArgR OpArgN iAsBx  -- OP_JMP
  , opmode 1 0 OpArgK OpArgK iABC   -- OP_EQ
  , opmode 1 0 OpArgK OpArgK iABC   -- OP_LT
  , opmode 1 0 OpArgK OpArgK iABC   -- OP_LE
  , opmode 1 0 OpArgN OpArgU iABC   -- OP_TEST
  , opmode 1 1 OpArgR OpArgU iABC   -- OP_TESTSET
  , opmode 0 1 OpArgU OpArgU iABC   -- OP_CALL
  , opmode 0 1 OpArgU OpArgU iABC   -- OP_TAILCALL
  , opmode 0 0 OpArgU OpArgN iABC   -- OP_RETURN
  , opmode 0 1 OpArgR OpArgN iAsBx  -- OP_FORLOOP
  , opmode 0 1 OpArgR OpArgN iAsBx  -- OP_FORPREP
  , opmode 0 0 OpArgN OpArgU iABC   -- OP_TFORCALL
  , opmode 0 1 OpArgR OpArgN iAsBx  -- OP_TFORLOOP
  , opmode 0 0 OpArgU OpArgU iABC   -- OP_SETLIST
  , opmode 0 1 OpArgU OpArgN iABx   -- OP_CLOSURE
  , opmode 0 1 OpArgU OpArgN iABC   -- OP_VARARG
  , opmode 0 0 OpArgU OpArgU iAx    -- OP_EXTRAARG
  ]

/-- Modelled from the spec: macro getOpMode of lopcodes.h, `luaP_opmodes[o] & 3`. -/
def getOpMode (o : Nat) : Option Nat := (luaP_opmodes[o]?).map (fun m => m % 4)

/-- Modelled from the spec: macro getBMode of lopcodes.h, `(luaP_opmodes[o] >> 4) & 3`. -/
def getBMode (o : Nat) : Option Nat := (luaP_opmodes[o]?).map (fun m => (m / 2 ^ 4) % 4)

/-- Modelled from the spec: macro getCMode of lopcodes.h, `(luaP_opmodes[o] >> 2) & 3`. -/
def getCMode (o : Nat) : Option Nat := (luaP_opmodes[o]?).map (fun m => (m / 2 ^ 2) % 4)

/-- Modelled from the spec: table luaP_opnames of lopcodes.c (Lua 5.3), without its final
NULL entry. -/
def luaP_opnames : List String :=
  [ "MOVE", "LOADK", "LOADKX", "LOADBOOL", "LOADNIL", "GETUPVAL", "GETTABUP", "GETTABLE",
    "SETTABUP", "SETUPVAL", "SETTABLE", "NEWTABLE", "SELF", "ADD", "SUB", "MUL", "MOD",
    "POW", "DIV", "IDIV", "BAND", "BOR", "BXOR", "SHL", "SHR", "UNM", "BNOT", "NOT", "LEN",
    "CONCAT", "JMP", "EQ", "LT", "LE", "TEST", "TESTSET", "CALL", "TAILCALL", "RETURN",
    "FORLOOP", "FORPREP", "TFORCALL", "TFORLOOP", "SETLIST", "CLOSURE", "VARARG",
    "EXTRAARG" ]

/-! ## PrintConstant -/

/-- Test of PrintConstant on the text of a float, `buff[strspn(buff,"-0123456789")]=='\0'`:
every character of the text is a minus sign or a decimal digit. -/
def looksLikeInt (buff : String) : Bool :=
  buff.data.all (fun ch => "-0123456789".data.contains ch)

/-- The LUA_TNUMFLT case of PrintConstant, given the text `buff` that sprintf wrote for the
value: the text, then ".0" when the test above holds. -/
def PrintFloat (buff : String) : String :=
  buff ++ (if looksLikeInt buff then ".0" else "")

/-- PrintConstant, given the constant `o = &f->k[i]`. -/
def PrintTValue (E : CLib) (o : TValue) : String :=
  match o with
  | .nil => "nil"
  | .boolean b => if b ≠ 0 then "true" else "false"
  | .numflt n => PrintFloat (E.number_fmt n)
  | .numint i => fmt_d i
  | .shrstr ts => PrintString ts
  | .lngstr ts => PrintString ts
  | .other tt => "? type=" ++ fmt_d tt

/-- PrintConstant(f,i): `none` when `i` is outside the constant pool. -/
def PrintConstant (E : CLib) (f : Proto) (i : Nat) : Option String :=
  (f.k[i]?).map (PrintTValue E)

/-! ## PrintCode -/

/-- Macro UPVALNAME of luac.c: the name of upvalue `x`, or "-" when it has none. -/
def UPVALNAME (f : Proto) (x : Nat) : Option String :=
  (f.upvalues[x]?).map (fun u =>
    match u.name with
    | some nm => fmt_s nm
    | none => "-")

/-- Modelled from the spec: macro getfuncline of ldebug.h (Lua 5.3), the line of
instruction `pc`, or -1 when the prototype has no line information. -/
def getfuncline (f : Proto) (pc : Nat) : Option Int :=
  match f.lineinfo with
  | none => some (-1)
  | some li => li[pc]?

/-- Conversion of an instruction word to int, `(int)code[pc]`. -/
def toInt32 (w : Instruction) : Int :=
  if w % 2 ^ 32 < 2 ^ 31 then ((w % 2 ^ 32 : Nat) : Int) else ((w % 2 ^ 32 : Nat) : Int) - 2 ^ 32

/-- First three printf calls of the loop body of PrintCode: the 1-based index of the
instruction, its line (or "[-]"), and the name of the opcode. -/
def PrintCodeHead (f : Proto) (pc : Nat) (o : Nat) : Option String := do
  let line ← getfuncline f pc
  let name ← luaP_opnames[o]?
  some ("\t" ++ fmt_d ((pc : Int) + 1) ++ "\t"
    ++ (if line > 0 then "[" ++ fmt_d line ++ "]\t" else "[-]\t")
    ++ fmt_s9 name ++ "\t")

/-- One B or C operand of the iABC case: nothing when the opcode does not use it, else the
register number, or the constant index shown as MYK(INDEXK(x)). -/
def PrintRK (mode : Nat) (x : Nat) : String :=
  if mode ≠ OpArgN then " " ++ fmt_d (if ISK x ≠ 0 then MYK (INDEXK x) else x) else ""

/-- The operand column: `switch (getOpMode(o))` of PrintCode. -/
def PrintCodeArgs (o a b c ax bx : Nat) (sbx : Int) : Option String := do
  let m ← getOpMode o
  let bm ← getBMode o
  let cm ← getCMode o
  if m = iABC then
    some (fmt_d a ++ PrintRK bm b ++ PrintRK cm c)
  else if m = iABx then
    some (fmt_d a
      ++ (if bm = OpArgK then " " ++ fmt_d (MYK bx) else "")
      ++ (if bm = OpArgU then " " ++ fmt_d bx else ""))
  else if m = iAsBx then
    some (fmt_d a ++ " " ++ fmt_d sbx)
  else
    some (fmt_d (MYK ax))

/-- The constant of a B or C operand in the annotation of OP_SETTABLE, the arithmetic and
the comparison opcodes: the rendered constant, or "-" for a register. -/
def PrintKOrDash (E : CLib) (f : Proto) (x : Nat) : Option String :=
  if ISK x ≠ 0 then PrintConstant E f (INDEXK x) else some "-"

/-- The constant of a B or C operand in the annotation of OP_GETTABUP and OP_SETTABUP:
a blank and the rendered constant, or nothing for a register. -/
def PrintKOpt (E : CLib) (f : Proto) (x : Nat) : Option String :=
  if ISK x ≠ 0 then (PrintConstant E f (INDEXK x)).map (fun s => " " ++ s) else some ""

/-- The annotation: `switch (o)` of PrintCode.  Gives the text and the value of `pc` after
the switch (OP_SETLIST with C = 0 steps over the next word). -/
def PrintCodeAnnot (E : CLib) (f : Proto) (pc : Nat) (o a b c ax bx : Nat) (sbx : Int) :
    Option (String × Nat) :=
  if o = OP_LOADK then do
    let s ← PrintConstant E f bx
    some ("\t; " ++ s, pc)
  else if o = OP_GETUPVAL ∨ o = OP_SETUPVAL then do
    let u ← UPVALNAME f b
    some ("\t; " ++ u, pc)
  else if o = OP_GETTABUP then do
    let u ← UPVALNAME f b
    let kc ← PrintKOpt E f c
    some ("\t; " ++ u ++ kc, pc)
  else if o = OP_SETTABUP then do
    let u ← UPVALNAME f a
    let kb ← PrintKOpt E f b
    let kc ← PrintKOpt E f c
    some ("\t; " ++ u ++ kb ++ kc, pc)
  else if o = OP_GETTABLE ∨ o = OP_SELF then
    if ISK c ≠ 0 then do
      let s ← PrintConstant E f (INDEXK c)
      some ("\t; " ++ s, pc)
    else some ("", pc)
  else if o = OP_SETTABLE ∨ o = OP_ADD ∨ o = OP_SUB ∨ o = OP_MUL ∨ o = OP_MOD ∨ o = OP_POW
      ∨ o = OP_DIV ∨ o = OP_IDIV ∨ o = OP_BAND ∨ o = OP_BOR ∨ o = OP_BXOR ∨ o = OP_SHL
      ∨ o = OP_SHR ∨ o = OP_EQ ∨ o = OP_LT ∨ o = OP_LE then
    if ISK b ≠ 0 ∨ ISK c ≠ 0 then do
      let kb ← PrintKOrDash E f b
      let kc ← PrintKOrDash E f c
      some ("\t; " ++ kb ++ " " ++ kc, pc)
    else some ("", pc)
  else if o = OP_JMP ∨ o = OP_FORLOOP ∨ o = OP_FORPREP ∨ o = OP_TFORLOOP then
    some ("\t; to " ++ fmt_d (sbx + (pc : Int) + 2), pc)
  else if o = OP_CLOSURE then do
    let q ← f.p[bx]?
    some ("\t; " ++ E.pointer_fmt q.addr, pc)
  else if o = OP_SETLIST then
    if c = 0 then do
      let w ← f.code[pc + 1]?
      some ("\t; " ++ fmt_d (toInt32 w), pc + 1)
    else some ("\t; " ++ fmt_d c, pc)
  else if o = OP_EXTRAARG then do
    let s ← PrintConstant E f ax
    some ("\t; " ++ s, pc)
  else some ("", pc)

/-- Body of the for loop of PrintCode at `pc`: the line printed and the value of `pc` at
the end of the body (before the increment of the loop). -/
def PrintCodeStep (E : CLib) (f : Proto) (pc : Nat) : Option (String × Nat) := do
  let i ← f.code[pc]?
  let o := GET_OPCODE i
  let a := GETARG_A i
  let b := GETARG_B i
  let c := GETARG_C i
  let ax := GETARG_Ax i
  let bx := GETARG_Bx i
  let sbx := GETARG_sBx i
  let head ← PrintCodeHead f pc o
  let args ← PrintCodeArgs o a b c ax bx sbx
  let (annot, pc1) ← PrintCodeAnnot E f pc o a b c ax bx sbx
  some (head ++ args ++ annot ++ "\n", pc1)

/-- The for loop of PrintCode from `pc` on.  Every turn moves `pc` up by at least one, so
`fuel = n - pc` turns are enough; `none` is a read outside an array. -/
def PrintCodeLoop (E : CLib) (f : Proto) : Nat → Nat → Option String
  | 0, pc => if pc < f.sizecode then none else some ""
  | fuel + 1, pc =>
    if pc < f.sizecode then do
      let (line, pc1) ← PrintCodeStep E f pc
      let rest ← PrintCodeLoop E f fuel (pc1 + 1)
      some (line ++ rest)
    else some ""

/-- PrintCode(f): the listing of the instructions of `f`. -/
def PrintCode (E : CLib) (f : Proto) : Option String :=
  PrintCodeLoop E f f.sizecode 0

/-! ## combine -/

/-- A value on the Lua stack: a Lua closure with its prototype, or anything else. -/
inductive StackValue where
  | lclosure (p : Proto)
  | nonfunction

/-- The Lua state as far as luac.c looks at it: the stack, bottom first; `L->top` is the
end of the list. -/
abbrev lua_State := List StackValue

/-- Macro toproto of luac.c, `getproto(L->top+(i))`: the prototype of the closure at
offset `i` from the top; `none` when the slot is off the stack or holds no Lua closure. -/
def toproto (L : lua_State) (i : Int) : Option Proto :=
  if (L.length : Int) + i < 0 then none
  else
    match L[((L.length : Int) + i).toNat]? with
    | some (.lclosure p) => some p
    | _ => none

/-- Macro FUNCTION of luac.c. -/
def FUNCTION : String := "(function()end)();"

/-- Function reader of luac.c, on the counter `*ud`: the piece returned (`none` for NULL),
the value stored in `*size`, and the counter afterwards. -/
def reader (ud : Int) : Option String × Nat × Int :=
  if ud ≠ 0 then (some FUNCTION, FUNCTION.length, ud - 1)
  else (none, 0, ud - 1)

/-- Modelled from the spec: the input loop of lua_load (lapi.c, lzio.c, not among the
sources), which asks the reader for pieces until it returns NULL or an empty piece, and
keeps the pieces in order. -/
def readPieces : Nat → Int → Option (List String × Int)
  | 0, _ => none
  | fuel + 1, ud =>
    match reader ud with
    | (some piece, size, ud1) =>
      if size = 0 then some ([], ud1)
      else (readPieces fuel ud1).map (fun r => (piece :: r.1, r.2))
    | (none, _, ud1) => some ([], ud1)

/-- Modelled from the spec: the prototype that the front end (lparser.c, not among the
sources) produces for the text `function()end`: a single return. -/
def emptyFunction : Proto :=
  { numparams := 0, is_vararg := 0, maxstacksize := 2, sizeupvalues := 0, sizek := 0,
    sizecode := 1, sizelineinfo := 1, sizep := 0, sizelocvars := 0, linedefined := 1,
    lastlinedefined := 1, k := [], code := [CREATE_ABC OP_RETURN 0 1 0], p := [],
    lineinfo := some [1], locvars := [], upvalues := [],
    source := some ("=(luac)".data.map Char.toNat) }

/-- Modelled from the spec: the instructions of the wrapper for the nested prototypes
`i`, ..., `i + m - 1`: for each, create a closure over the nested prototype and call it
with no argument and no result; a return at the end. -/
def wrapperCode : Nat → Nat → List Instruction
  | 0, _ => [CREATE_ABC OP_RETURN 0 1 0]
  | m + 1, i => CREATE_ABx OP_CLOSURE 0 i :: CREATE_ABC OP_CALL 0 1 1 :: wrapperCode m (i + 1)

/-- Modelled from the spec: the main prototype that the front end produces for `m` copies
of FUNCTION under the chunk name "=(luac)": `m` nested prototypes, the instructions above,
no constant, no parameter, and the upvalue _ENV of every main function. -/
def wrapperProto (m : Nat) : Proto :=
  { numparams := 0, is_vararg := 1, maxstacksize := 2, sizeupvalues := 1, sizek := 0,
    sizecode := 2 * m + 1, sizelineinfo := 2 * m + 1, sizep := m, sizelocvars := 0,
    linedefined := 0, lastlinedefined := 0, k := [], code := wrapperCode m 0,
    p := List.replicate m emptyFunction,
    lineinfo := some (List.replicate (2 * m + 1) 1), locvars := [],
    upvalues := [{ name := some ("_ENV".data.map Char.toNat), instack := 1, idx := 0 }],
    source := some ("=(luac)".data.map Char.toNat) }

/-- Modelled from the spec: lua_load(L,reader,&i,"=(luac)",NULL) of lapi.c with the counter
at `n`: the pieces delivered by `reader` are compiled and the closure of the resulting main
prototype is pushed; `none` when the call does not return LUA_OK. -/
def lua_load (L : lua_State) (n : Nat) : Option lua_State :=
  (readPieces (n + 1) n).map (fun r => L ++ [.lclosure (wrapperProto r.1.length)])

/-- The assignment `f->p[i]->upvalues[0].instack=0` on the prototype `q = f->p[i]`;
`none` when `q` has no upvalue array entry 0. -/
def clearInstack (q : Proto) : Option Proto :=
  match q.upvalues with
  | [] => none
  | u :: us => some { q with upvalues := { u with instack := 0 } :: us }

/-- The statement `if (f->p[i]->sizeupvalues>0) f->p[i]->upvalues[0].instack=0;` on the
prototype `q = f->p[i]`. -/
def clearFirstInstack (q : Proto) : Option Proto :=
  if q.sizeupvalues > 0 then clearInstack q else some q

/-- The for loop of combine with `m` turns to go, at index `i`, on the wrapper `f` and the
stack `L`.  The input prototype is an object shared by the stack slot and `f->p[i]`: the
slot is rewritten together with `f->p[i]`. -/
def combineLoop (n : Nat) : Nat → Nat → Proto → lua_State → Option (Proto × lua_State)
  | 0, _, f, L => some (f, L)
  | m + 1, i, f, L => do
    let q ← toproto L ((i : Int) - n - 1)
    if i < f.p.length then
      let q1 ← clearFirstInstack q
      combineLoop n m (i + 1) { f with p := f.p.set i q1 }
        (L.set (((L.length : Int) + ((i : Int) - n - 1)).toNat) (.lclosure q1))
    else none

/-- Function combine of luac.c, on a stack whose top `n` slots hold the loaded chunks:
the prototype returned and the stack afterwards (for n > 1 the wrapper, as modified, is
the closure on top of it). -/
def combine (L : lua_State) (n : Nat) : Option (Proto × lua_State) :=
  if n = 1 then
    (toproto L (-1)).map (fun p => (p, L))
  else do
    let L1 ← lua_load L n
    let f ← toproto L1 (-1)
    let (f1, L2) ← combineLoop n n 0 f L1
    let f2 := { f1 with sizelineinfo := 0 }
    some (f2, L2.set (L2.length - 1) (.lclosure f2))

/-- What the body of the loop of combine leaves of an input prototype: the flag `instack`
of its first upvalue is cleared when it has upvalues. -/
def fixFirstUpvalue (q : Proto) : Proto :=
  if q.sizeupvalues > 0 then
    match q.upvalues with
    | [] => q
    | u :: us => { q with upvalues := { u with instack := 0 } :: us }
  else q

/-! ## Sample inputs -/

/-- A main prototype as a front end builds it for an empty chunk named "@a.lua": a single
return, and the upvalue _ENV marked as captured from the stack at index 0. -/
def sampleMain : Proto :=
  { numparams := 0, is_vararg := 1, maxstacksize := 2, sizeupvalues := 1, sizek := 0,
    sizecode := 1, sizelineinfo := 1, sizep := 0, sizelocvars := 0, linedefined := 0,
    lastlinedefined := 0, k := [], code := [CREATE_ABC OP_RETURN 0 1 0], p := [],
    lineinfo := some [1], locvars := [],
    upvalues := [{ name := some ("_ENV".data.map Char.toNat), instack := 1, idx := 0 }],
    source := some ("@a.lua".data.map Char.toNat) }

/-- A stripped prototype with two upvalues, both marked as captured from the stack. -/
def sampleTwoUpvalues : Proto :=
  { numparams := 0, is_vararg := 1, maxstacksize := 2, sizeupvalues := 2, sizek := 0,
    sizecode := 1, sizelineinfo := 0, sizep := 0, sizelocvars := 0, linedefined := 0,
    lastlinedefined := 0, k := [], code := [CREATE_ABC OP_RETURN 0 1 0], p := [],
    lineinfo := none, locvars := [],
    upvalues := [{ name := none, instack := 1, idx := 0 }, { name := none, instack := 1, idx := 1 }],
    source := none }

/-- A C library for the examples.  Its number format writes "3" for the double 3.0 and
"inf" for plus infinity; the examples use no other double.  Its pointer format writes the
address in hexadecimal after "0x". -/
def sampleLib : CLib :=
  { number_fmt := fun x => if x.bits = 0x4008000000000000 then "3" else "inf"
    pointer_fmt := fun a => "0x" ++ String.mk (Nat.toDigits 16 a) }

/-- A stripped prototype with the given instructions and constants and no upvalue. -/
def sampleProto (code : List Instruction) (k : List TValue) : Proto :=
  { numparams := 0, is_vararg := 0, maxstacksize := 2, sizeupvalues := 0, sizek := k.length,
    sizecode := code.length, sizelineinfo := 0, sizep := 0, sizelocvars := 0,
    linedefined := 1, lastlinedefined := 1, k := k, code := code, p := [],
    lineinfo := none, locvars := [], upvalues := [], source := none }

/-- The text contains a decimal point or an exponent marker. -/
def hasPointOrExponent (s : String) : Bool :=
  s.data.any (fun ch => ch == '.' || ch == 'e' || ch == 'E')

/-- Modelled from the spec: macro ttype of lobject.h with the tags of lua.h and lobject.h
(Lua 5.3), none of which is among the sources: LUA_TNIL 0, LUA_TBOOLEAN 1, LUA_TNUMFLT 3,
LUA_TNUMINT 19, LUA_TSHRSTR 4, LUA_TLNGSTR 20. -/
def ttype : TValue → Nat
  | .nil => 0
  | .boolean _ => 1
  | .numflt _ => 3
  | .numint _ => 19
  | .shrstr _ => 4
  | .lngstr _ => 20
  | .other tt => tt

/-- Calls of `reader` one after the other on the same counter, starting at `ud`: what each
of the first `m` calls returns (the piece and `*size`). -/
def readerCalls : Nat → Int → List (Option String × Nat)
  | 0, _ => []
  | m + 1, ud => ((reader ud).1, (reader ud).2.1) :: readerCalls m (reader ud).2.2

/-- A stripped prototype with the given instructions and constants and the single upvalue
_ENV. -/
def sampleProtoEnv (code : List Instruction) (k : List TValue) : Proto :=
  { numparams := 0, is_vararg := 1, maxstacksize := 2, sizeupvalues := 1, sizek := k.length,
    sizecode := code.length, sizelineinfo := 0, sizep := 0, sizelocvars := 0,
    linedefined := 0, lastlinedefined := 0, k := k, code := code, p := [],
    lineinfo := none, locvars := [],
    upvalues := [{ name := some ("_ENV".data.map Char.toNat), instack := 1, idx := 0 }],
    source := none }

/-- Macro SS of luac.c: the plural ending. -/
def SS (x : Int) : String := if x = 1 then "" else "s"

/-- A for loop `for (i=start; i<start+m; i++) body(i)` whose body prints: the texts in
order, `none` as soon as a body reads outside an array. -/
def forRange (body : Nat → Option String) : Nat → Nat → Option String
  | 0, _ => some ""
  | m + 1, i => do
    let a ← body i
    let b ← forRange body m (i + 1)
    some (a ++ b)

/-- Modelled from the spec: first byte of LUA_SIGNATURE of lua.h ("\x1bLua"), which is not
among the sources. -/
def LUA_SIGNATURE_0 : Nat := 27

/-- The source identity shown by PrintHeader for the bytes `s` of the source name: the name
without its first byte when that byte is '@' or '=', "(bstring)" when it is the first byte
of LUA_SIGNATURE, "(string)" otherwise (`*s` is NUL for an empty name). -/
def PrintHeaderSource (s : TString) : String :=
  if s.head?.getD 0 % 256 = 64 ∨ s.head?.getD 0 % 256 = 61 then fmt_s (s.drop 1)
  else if s.head?.getD 0 % 256 = LUA_SIGNATURE_0 then "(bstring)"
  else "(string)"

/-- PrintHeader(f). -/
def PrintHeader (E : CLib) (f : Proto) : String :=
  "\n" ++ (if f.linedefined = 0 then "main" else "function")
    ++ " <" ++ PrintHeaderSource (match f.source with
                                  | some ts => ts
                                  | none => "=?".data.map Char.toNat)
    ++ ":" ++ fmt_d f.linedefined ++ "," ++ fmt_d f.lastlinedefined
    ++ "> (" ++ fmt_d f.sizecode ++ " instruction" ++ SS f.sizecode
    ++ " at " ++ E.pointer_fmt f.addr ++ ")\n"
    ++ fmt_d f.numparams ++ (if f.is_vararg ≠ 0 then "+" else "")
    ++ " param" ++ SS f.numparams
    ++ ", " ++ fmt_d f.maxstacksize ++ " slot" ++ SS f.maxstacksize
    ++ ", " ++ fmt_d f.sizeupvalues ++ " upvalue" ++ SS f.sizeupvalues ++ ", "
    ++ fmt_d f.sizelocvars ++ " local" ++ SS f.sizelocvars
    ++ ", " ++ fmt_d f.sizek ++ " constant" ++ SS f.sizek
    ++ ", " ++ fmt_d f.sizep ++ " function" ++ SS f.sizep ++ "\n"

/-- PrintDebug(f): the tables of constants, of locals and of upvalues. -/
def PrintDebug (E : CLib) (f : Proto) : Option String := do
  let ks ← forRange (fun i =>
    (PrintConstant E f i).map (fun s => "\t" ++ fmt_d ((i : Int) + 1) ++ "\t" ++ s ++ "\n"))
    f.sizek 0
  let ls ← forRange (fun i =>
    (f.locvars[i]?).map (fun v => "\t" ++ fmt_d i ++ "\t" ++ fmt_s v.varname
      ++ "\t" ++ fmt_d (v.startpc + 1) ++ "\t" ++ fmt_d (v.endpc + 1) ++ "\n"))
    f.sizelocvars 0
  let us ← forRange (fun i =>
    (f.upvalues[i]?).bind (fun u => (UPVALNAME f i).map (fun nm =>
      "\t" ++ fmt_d i ++ "\t" ++ nm ++ "\t" ++ fmt_d u.instack ++ "\t" ++ fmt_d u.idx ++ "\n")))
    f.sizeupvalues 0
  some ("constants (" ++ fmt_d f.sizek ++ ") for " ++ E.pointer_fmt f.addr ++ ":\n" ++ ks
    ++ "locals (" ++ fmt_d f.sizelocvars ++ ") for " ++ E.pointer_fmt f.addr ++ ":\n" ++ ls
    ++ "upvalues (" ++ fmt_d f.sizeupvalues ++ ") for " ++ E.pointer_fmt f.addr ++ ":\n" ++ us)

/-- The first three statements of PrintFunction, what it prints for the prototype `f`
itself before it goes into the nested prototypes: the header, the listing and, when `full`,
the debug tables. -/
def PrintFunctionOwn (E : CLib) (full : Bool) (f : Proto) : Option String :=
  (PrintCode E f).bind (fun c =>
    (if full then PrintDebug E f else some "").bind (fun d =>
      some (PrintHeader E f ++ c ++ d)))

mutual
/-- PrintFunction(f,full): the header, the listing, the debug tables when `full`, then the
nested prototypes `f->p[0]`, ..., `f->p[sizep-1]`. -/
def PrintFunction (E : CLib) (full : Bool) : Proto → Option String
  | f@{ sizep := n, p := ps, .. } => do
    let own ← PrintFunctionOwn E full f
    let r ← PrintFunctionLoop E full n ps
    some (own ++ r)
/-- The for loop of PrintFunction with `m` turns to go over the rest of `f->p`; `none`
when the array ends before the loop does. -/
def PrintFunctionLoop (E : CLib) (full : Bool) : Nat → List Proto → Option String
  | 0, _ => some ""
  | _ + 1, [] => none
  | m + 1, q :: qs => do
    let a ← PrintFunction E full q
    let b ← PrintFunctionLoop E full m qs
    some (a ++ b)
end

mutual
/-- Pre-order enumeration of a prototype tree: the prototype, then the enumerations of its
nested prototypes in list order. -/
def preorder : Proto → List Proto
  | f@{ p := ps, .. } => f :: preorderList ps
/-- Pre-order enumeration of a list of prototype trees. -/
def preorderList : List Proto → List Proto
  | [] => []
  | q :: qs => preorder q ++ preorderList qs
end

mutual
/-- Number of prototypes of a tree: the root and all the transitively nested ones. -/
def protoCount : Proto → Nat
  | { p := ps, .. } => 1 + protoCountList ps
/-- Number of prototypes of a list of trees. -/
def protoCountList : List Proto → Nat
  | [] => 0
  | q :: qs => protoCount q + protoCountList qs
end

/-- The texts that PrintFunction prints for the prototypes of a list themselves, one after
the other. -/
def PrintOwnAll (E : CLib) (full : Bool) : List Proto → Option String
  | [] => some ""
  | g :: gs => do
    let a ← PrintFunctionOwn E full g
    let b ← PrintOwnAll E full gs
    some (a ++ b)

/-- The instruction is an OP_SETLIST with C = 0, whose count is in the next word. -/
def isZeroSetlist (i : Instruction) : Bool :=
  GET_OPCODE i == OP_SETLIST && GETARG_C i == 0

/-- The for loop of PrintCode from `pc` on, keeping the lines apart: for each turn of the
loop the position `pc` of the instruction and the line printed for it. -/
def PrintCodeLinesLoop (E : CLib) (f : Proto) : Nat → Nat → Option (List (Nat × String))
  | 0, pc => if pc < f.sizecode then none else some []
  | fuel + 1, pc =>
    if pc < f.sizecode then do
      let (line, pc1) ← PrintCodeStep E f pc
      let rest ← PrintCodeLinesLoop E f fuel (pc1 + 1)
      some ((pc, line) :: rest)
    else some []

/-- The lines of PrintCode(f), each with the position of its instruction. -/
def PrintCodeLines (E : CLib) (f : Proto) : Option (List (Nat × String)) :=
  PrintCodeLinesLoop E f f.sizecode 0

/-- The lines one after the other. -/
def concatLines : List (Nat × String) → String
  | [] => ""
  | (_, line) :: rest => line ++ concatLines rest

/-- The positions at which the loop of PrintCode runs its body, from `pc` on, by the code
alone: the cursor moves by two past an OP_SETLIST with C = 0 and by one past any other
instruction. -/
def PrintCodeCursor (f : Proto) : Nat → Nat → List Nat
  | 0, _ => []
  | fuel + 1, pc =>
    if pc < f.sizecode then
      match f.code[pc]? with
      | some i => pc :: PrintCodeCursor f fuel (if isZeroSetlist i then pc + 2 else pc + 1)
      | none => [pc]
    else []

/-- The operand `x` of a B or C field, if constant-flagged, indexes the constant pool
within its size. -/
def constantOperandInBounds (f : Proto) (x : Nat) : Bool :=
  decide (ISK x = 0) || decide (INDEXK x < f.sizek)

/-- Well-formedness of the instruction `i` at position `pc` as far as PrintCode follows
its operands: every constant index it uses is below the size of the constant pool, the Bx
of OP_CLOSURE is below the number of nested prototypes, the upvalue operand of
OP_GETUPVAL, OP_SETUPVAL, OP_GETTABUP, OP_SETTABUP is below the number of upvalues, and an
OP_SETLIST with C = 0 is followed by another word. -/
def operandsInBounds (f : Proto) (pc : Nat) (i : Instruction) : Bool :=
  (if GET_OPCODE i = OP_LOADK then decide (GETARG_Bx i < f.sizek) else true)
  && (if GET_OPCODE i = OP_GETUPVAL ∨ GET_OPCODE i = OP_SETUPVAL then
        decide (GETARG_B i < f.sizeupvalues) else true)
  && (if GET_OPCODE i = OP_GETTABUP then
        decide (GETARG_B i < f.sizeupvalues) && constantOperandInBounds f (GETARG_C i)
      else true)
  && (if GET_OPCODE i = OP_SETTABUP then
        decide (GETARG_A i < f.sizeupvalues) && constantOperandInBounds f (GETARG_B i)
          && constantOperandInBounds f (GETARG_C i)
      else true)
  && (if GET_OPCODE i = OP_GETTABLE ∨ GET_OPCODE i = OP_SELF then
        constantOperandInBounds f (GETARG_C i) else true)
  && (if GET_OPCODE i ∈ [OP_SETTABLE, OP_ADD, OP_SUB, OP_MUL, OP_MOD, OP_POW, OP_DIV, OP_IDIV,
          OP_BAND, OP_BOR, OP_BXOR, OP_SHL, OP_SHR, OP_EQ, OP_LT, OP_LE] then
        constantOperandInBounds f (GETARG_B i) && constantOperandInBounds f (GETARG_C i)
      else true)
  && (if GET_OPCODE i = OP_CLOSURE then decide (GETARG_Bx i < f.sizep) else true)
  && (if GET_OPCODE i = OP_SETLIST ∧ GETARG_C i = 0 then decide (pc + 1 < f.sizecode)
      else true)
  && (if GET_OPCODE i = OP_EXTRAARG then decide (GETARG_Ax i < f.sizek) else true)

/-- The loop of PrintCode from `pc` on reads the instruction array, the constant pool, the
nested-prototype list and the upvalue list within their bounds, and ends within `fuel`
turns: at each turn the word code[pc] is there and the annotation switch, which makes all
the other reads of these arrays, reads within bounds. -/
def PrintCodeReadsOk (E : CLib) (f : Proto) : Nat → Nat → Bool
  | 0, pc => !decide (pc < f.sizecode)
  | fuel + 1, pc =>
    if pc < f.sizecode then
      match f.code[pc]? with
      | none => false
      | some i =>
        match PrintCodeAnnot E f pc (GET_OPCODE i) (GETARG_A i) (GETARG_B i) (GETARG_C i)
            (GETARG_Ax i) (GETARG_Bx i) (GETARG_sBx i) with
        | none => false
        | some (_, pc1) => PrintCodeReadsOk E f fuel (pc1 + 1)
    else true
/-- The reads that PrintCode makes for the instruction `i` at `pc` outside the four arrays
of the prototype are within bounds: the opcode is one of the NUM_OPCODES opcodes of the
tables luaP_opnames and luaP_opmodes, and the line map, if any, has an entry for `pc`. -/
def headInBounds (f : Proto) (pc : Nat) (i : Instruction) : Bool :=
  decide (GET_OPCODE i < luaP_opmodes.length) && (getfuncline f pc).isSome

/-- Scanner for the text between the quotes of a rendered string.  It accepts a sequence of
items, each being a printable character other than the quote and the backslash, a
two-character escape (backslash, then quote, backslash or one of a b f n r t v) or, when
`decimal` is set, a four-character escape (backslash, then three decimal digits). -/
def wellEscaped (decimal : Bool) : UnescState → List Char → Bool
  | .plain, [] => true
  | .plain, c :: rest =>
    if c.toNat = 92 then wellEscaped decimal .afterBackslash rest
    else if c.toNat = 34 then false
    else isprint c.toNat && wellEscaped decimal .plain rest
  | .afterBackslash, [] => false
  | .afterBackslash, e :: rest =>
    if (unescapeMnemonic e.toNat).isSome then wellEscaped decimal .plain rest
    else if decimal && isDecDigit e.toNat then wellEscaped decimal (.digit1 0) rest
    else false
  | .digit1 _, [] => false
  | .digit1 _, d :: rest => isDecDigit d.toNat && wellEscaped decimal (.digit2 0) rest
  | .digit2 _, [] => false
  | .digit2 _, d :: rest => isDecDigit d.toNat && wellEscaped decimal .plain rest

/-- Decimal digit characters. -/
def isDigitChar (ch : Char) : Bool := isDecDigit ch.toNat

/-- Value of a sequence of decimal digits. -/
def digitsValue (ds : List Char) : Nat :=
  ds.foldl (fun acc ch => 10 * acc + (ch.toNat - 48)) 0

/-- Exponent part of a decimal text: nothing, or `e` (or `E`), an optional sign and at
least one digit, up to the end of the text. -/
def parseExponent (s : List Char) : Option Int :=
  match s with
  | [] => some 0
  | c :: r =>
    if c = 'e' ∨ c = 'E' then
      if (if r.head? = some '-' ∨ r.head? = some '+' then r.drop 1 else r) ≠ []
          ∧ (if r.head? = some '-' ∨ r.head? = some '+' then r.drop 1 else r).all isDigitChar
      then
        some (if r.head? = some '-' then
            -(digitsValue (if r.head? = some '-' ∨ r.head? = some '+' then r.drop 1 else r) : Int)
          else (digitsValue (if r.head? = some '-' ∨ r.head? = some '+' then r.drop 1 else r) : Int))
      else none
    else none

/-- The parts of a decimal text after its sign: at least one digit, an optional point with
fraction digits, an optional exponent.  Gives the sign handed in, the digits before the
point, the fraction digits and the exponent. -/
def decimalPartsBody (neg : Bool) (body : List Char) :
    Option (Bool × List Char × List Char × Int) :=
  if body.takeWhile isDigitChar = [] then none
  else
    (parseExponent
      (if (body.dropWhile isDigitChar).head? = some '.' then
        ((body.dropWhile isDigitChar).drop 1).dropWhile isDigitChar
      else body.dropWhile isDigitChar)).map (fun ex =>
        (neg, body.takeWhile isDigitChar,
          if (body.dropWhile isDigitChar).head? = some '.' then
            ((body.dropWhile isDigitChar).drop 1).takeWhile isDigitChar
          else [],
          ex))

/-- The parts of a decimal text as strtod reads it: an optional minus sign, then the parts
above; `none` for a text that denotes no number, such as "inf" and "nan". -/
def decimalParts (s : List Char) : Option (Bool × List Char × List Char × Int) :=
  decimalPartsBody (decide (s.head? = some '-'))
    (if s.head? = some '-' then s.drop 1 else s)

/-- The number denoted by the parts of a decimal text. -/
def partsValue (d : Bool × List Char × List Char × Int) : ℚ :=
  (if d.1 then -1 else 1)
    * ((digitsValue d.2.1 : ℚ) + (digitsValue d.2.2.1 : ℚ) / (10 : ℚ) ^ d.2.2.1.length)
    * (10 : ℚ) ^ d.2.2.2

/-- The number denoted by a decimal text. -/
def parseDecimal (s : List Char) : Option ℚ := (decimalParts s).map partsValue

/-- The parts of a finite double, from its bits: the sign, the integer significand M and
the binary exponent E; `none` for the infinities and the NaNs. -/
def doubleParts (x : lua_Number) : Option (Bool × Nat × Int) :=
  if x.bits / 2 ^ 52 % 2 ^ 11 = 2047 then none
  else if x.bits / 2 ^ 52 % 2 ^ 11 = 0 then
    some (decide (x.bits / 2 ^ 63 % 2 = 1), x.bits % 2 ^ 52, -1074)
  else
    some (decide (x.bits / 2 ^ 63 % 2 = 1), 2 ^ 52 + x.bits % 2 ^ 52,
      ((x.bits / 2 ^ 52 % 2 ^ 11 : Nat) : Int) - 1075)

/-- Value of a finite double: plus or minus M times 2^E. -/
def doubleValue (x : lua_Number) : Option ℚ :=
  (doubleParts x).map (fun d => (if d.1 then -1 else 1) * (d.2.1 : ℚ) * (2 : ℚ) ^ d.2.2)

/-- Re-parsing the text `t` as a double gives `x`: the text denotes a number, and `x` is a
finite double nearest to it (what a correctly rounding strtod returns). -/
def reparsesTo (t : String) (x : lua_Number) : Prop :=
  ∃ v vx, parseDecimal t.data = some v ∧ doubleValue x = some vx
    ∧ ∀ y vy, doubleValue y = some vy → |vx - v| ≤ |vy - v|

/-- Modelled from the spec: what the text `t` written for the double `x` under
LUA_NUMBER_FMT is.  The macro is in luaconf.h, which is not among the sources, and the text
is written by sprintf of the C library; the specification describes it as the shortest text
that, if re-parsed as the same numeric type, reproduces the identical value: `t` re-parses to
`x`, and no text that re-parses to `x` has fewer characters. -/
def shortestReparse (t : String) (x : lua_Number) : Prop :=
  reparsesTo t x ∧ ∀ t2 : String, reparsesTo t2 x → t.length ≤ t2.length

/-- The word at position `pc` of the instruction array is an OP_SETLIST with C = 0. -/
def zeroSetlistAt (f : Proto) (pc : Nat) : Bool :=
  match f.code[pc]? with
  | some i => isZeroSetlist i
  | none => false

/-- A stripped prototype of four words: an OP_SETLIST with C = 0, its count word 0xFFFFFFFF,
an OP_SETLIST with C = 2 and a return. -/
def sampleSetlists : Proto :=
  sampleProto [CREATE_ABC OP_SETLIST 0 3 0, 0xFFFFFFFF, CREATE_ABC OP_SETLIST 0 3 2,
    CREATE_ABC OP_RETURN 0 1 0] []

/-- A prototype of one instruction (sizecode is 1), an OP_SETLIST with C = 0 that no count
word follows.  The list `code` also holds the word that lies in memory behind the array,
here 0xFFFFFFFF, which is what `code[++pc]` reads. -/
def sampleSetlistLast : Proto :=
  { sampleProto [CREATE_ABC OP_SETLIST 0 3 0] [] with
    code := [CREATE_ABC OP_SETLIST 0 3 0, 0xFFFFFFFF] }

/-- Blocks of text one after the other. -/
def concatBlocks : List String → String
  | [] => ""
  | b :: bs => b ++ concatBlocks bs

/-- The innermost function of the sample tree, at address 0x30, with one parameter and one
local variable. -/
def sampleLeaf : Proto :=
  { numparams := 1, is_vararg := 0, maxstacksize := 2, sizeupvalues := 0, sizek := 0,
    sizecode := 1, sizelineinfo := 1, sizep := 0, sizelocvars := 1, linedefined := 2,
    lastlinedefined := 2, k := [], code := [CREATE_ABC OP_RETURN 0 1 0], p := [],
    lineinfo := some [2],
    locvars := [{ varname := "x".data.map Char.toNat, startpc := 0, endpc := 1 }],
    upvalues := [], source := some ("@t.lua".data.map Char.toNat), addr := 0x30 }

/-- The first nested function of the sample tree, at address 0x20: it creates the closure of
its own nested function, the leaf above. -/
def sampleInner : Proto :=
  { numparams := 0, is_vararg := 0, maxstacksize := 2, sizeupvalues := 1, sizek := 0,
    sizecode := 2, sizelineinfo := 2, sizep := 1, sizelocvars := 0, linedefined := 1,
    lastlinedefined := 3, k := [],
    code := [CREATE_ABx OP_CLOSURE 0 0, CREATE_ABC OP_RETURN 0 2 0], p := [sampleLeaf],
    lineinfo := some [2, 3], locvars := [],
    upvalues := [{ name := some ("_ENV".data.map Char.toNat), instack := 0, idx := 0 }],
    source := some ("@t.lua".data.map Char.toNat), addr := 0x20 }

/-- The second nested function of the sample tree, at address 0x40, with one constant. -/
def sampleSecond : Proto :=
  { numparams := 0, is_vararg := 0, maxstacksize := 2, sizeupvalues := 0, sizek := 1,
    sizecode := 2, sizelineinfo := 2, sizep := 0, sizelocvars := 0, linedefined := 5,
    lastlinedefined := 5, k := [.numint 7],
    code := [CREATE_ABx OP_LOADK 0 0, CREATE_ABC OP_RETURN 0 2 0], p := [],
    lineinfo := some [5, 5], locvars := [], upvalues := [],
    source := some ("@t.lua".data.map Char.toNat), addr := 0x40 }

/-- A tree of four prototypes at four addresses: the main function at 0x10 with the two
nested functions above, the first of which has a nested function of its own. -/
def sampleTree : Proto :=
  { numparams := 0, is_vararg := 1, maxstacksize := 2, sizeupvalues := 1, sizek := 0,
    sizecode := 3, sizelineinfo := 3, sizep := 2, sizelocvars := 0, linedefined := 0,
    lastlinedefined := 0, k := [],
    code := [CREATE_ABx OP_CLOSURE 0 0, CREATE_ABx OP_CLOSURE 1 1, CREATE_ABC OP_RETURN 0 1 0],
    p := [sampleInner, sampleSecond],
    lineinfo := some [3, 5, 5], locvars := [],
    upvalues := [{ name := some ("_ENV".data.map Char.toNat), instack := 1, idx := 0 }],
    source := some ("@t.lua".data.map Char.toNat), addr := 0x10 }

/-! ## Theorems -/

theorem toNat_ofNat_byte (c : Nat) (hc : c < 256) : (Char.ofNat c).toNat = c := by
  have h : c.isValidChar := Or.inl (by omega)
  simp only [Char.ofNat, h, dite_true, Char.ofNatAux, Char.toNat]
  rfl

theorem unescapeBody_PrintStringChar (c : Nat) (hc : c < 256) (rest : List Char) :
    unescapeBody .plain ((PrintStringChar c).data ++ rest)
      = (unescapeBody .plain rest).map (fun t => c :: t) := by
  by_cases hp : isprint c = true ∧ c ≠ 34 ∧ c ≠ 92
  · obtain ⟨h1, h2, h3⟩ := hp
    have : PrintStringChar c = String.singleton (Char.ofNat c) := by
      unfold PrintStringChar
      split <;> simp_all [isprint]
    rw [this]
    simp [String.singleton, unescapeBody, toNat_ofNat_byte c hc, h2, h3]
  · simp only [isprint, Bool.and_eq_true, decide_eq_true_eq, not_and_or, not_le, not_not] at hp
    interval_cases c <;> rfl

theorem unescapeBody_PrintStringLoop (s : List Nat) (hs : ∀ c ∈ s, c < 256) :
    unescapeBody .plain (PrintStringLoop s).data = some s := by
  induction s with
  | nil => rfl
  | cons c rest ih =>
    have hc : c < 256 := hs c (List.mem_cons_self _ _)
    have hrest : ∀ d ∈ rest, d < 256 := fun d hd => hs d (List.mem_cons_of_mem _ hd)
    simp only [PrintStringLoop, String.data_append, Nat.mod_eq_of_lt hc]
    rw [unescapeBody_PrintStringChar c hc, ih hrest]
    rfl

/-- C1: for every byte sequence `s` (every byte in 0..255, any length), un-escaping the text
printed by `PrintString s` (strip the two quotes, decode the one-character escapes and the
three-digit decimal escapes) gives back exactly `s`. -/
theorem PrintString_roundtrip (s : TString) (hs : ∀ c ∈ s, c < 256) :
    unescape (PrintString s) = some s := by
  have hd : (PrintString s).data
      = Char.ofNat 34 :: ((PrintStringLoop s).data ++ [Char.ofNat 34]) := by
    simp [PrintString, String.singleton]
  unfold unescape
  rw [hd]
  have hq : (Char.ofNat 34).toNat = 34 := toNat_ofNat_byte 34 (by decide)
  simp [hq, unescapeBody_PrintStringLoop s hs]

/-- Witness of C1 at the bytes A, quote, NUL, 255, newline, backslash, DEL, digit 1. -/
theorem PrintString_roundtrip_witness :
    (∀ c ∈ [65, 34, 0, 255, 10, 92, 127, 49], c < 256)
      ∧ PrintString [65, 34, 0, 255, 10, 92, 127, 49] = "\"A\\\"\\000\\255\\n\\\\\\1271\""
      ∧ unescape (PrintString [65, 34, 0, 255, 10, 92, 127, 49])
          = some [65, 34, 0, 255, 10, 92, 127, 49] :=
  ⟨by decide, by decide, PrintString_roundtrip [65, 34, 0, 255, 10, 92, 127, 49] (by decide)⟩

/-! ### combine -/

theorem readPieces_counter (n : Nat) :
    readPieces (n + 1) n = some (List.replicate n FUNCTION, -1) := by
  induction n with
  | zero => rfl
  | succ m ih =>
    have h1 : ((m + 1 : Nat) : Int) ≠ 0 := by omega
    have h2 : ((m + 1 : Nat) : Int) - 1 = (m : Int) := by omega
    have h3 : FUNCTION.length ≠ 0 := by decide
    rw [readPieces]
    simp only [reader, h1, ne_eq, not_false_eq_true, if_true, h2, h3, if_false, ih]
    rfl

theorem lua_load_eq (L : lua_State) (n : Nat) :
    lua_load L n = some (L ++ [.lclosure (wrapperProto n)]) := by
  simp [lua_load, readPieces_counter]

theorem toproto_top (L : lua_State) (p : Proto) :
    toproto (L ++ [.lclosure p]) (-1) = some p := by
  have h : ((↑(L ++ [StackValue.lclosure p]).length : Int) + -1).toNat = L.length := by
    simp
  unfold toproto
  rw [h]
  simp

theorem clearFirstInstack_eq (q : Proto) (h : q.sizeupvalues = q.upvalues.length) :
    clearFirstInstack q = some (fixFirstUpvalue q) := by
  unfold clearFirstInstack fixFirstUpvalue clearInstack
  cases hq : q.upvalues with
  | nil => simp [h, hq]
  | cons u us => simp [h, hq]

theorem combineLoop_eq (n : Nat) (B : lua_State) (top : StackValue) :
    ∀ (T : List Proto) (D : lua_State) (P R : List Proto) (f : Proto),
      D.length + T.length = n → P.length = D.length → R.length = T.length →
      f.p = P ++ R → (∀ q ∈ T, q.sizeupvalues = q.upvalues.length) →
      combineLoop n T.length D.length f (B ++ D ++ T.map .lclosure ++ [top])
        = some ({ f with p := P ++ T.map fixFirstUpvalue },
                B ++ D ++ (T.map fixFirstUpvalue).map .lclosure ++ [top]) := by
  intro T
  induction T with
  | nil =>
    intro D P R f _ _ hR hf _
    have : R = [] := List.length_eq_zero.mp hR
    subst this
    cases f
    simp_all [combineLoop]
  | cons q T ih =>
    intro D P R f hn hP hR hf hwf
    obtain ⟨r, R1, rfl⟩ : ∃ r R1, R = r :: R1 := by
      cases R with
      | nil => simp at hR
      | cons r R1 => exact ⟨r, R1, rfl⟩
    have hlen : (B ++ D ++ (q :: T).map StackValue.lclosure ++ [top]).length
        = B.length + n + 1 := by
      simp only [List.length_append, List.length_map, List.length_cons, List.length_nil]
      simp only [List.length_cons] at hn
      omega
    have hidx : (((B ++ D ++ (q :: T).map StackValue.lclosure ++ [top]).length : Int)
        + ((D.length : Int) - n - 1)).toNat = (B ++ D).length := by
      rw [hlen, List.length_append]
      push_cast
      omega
    have hnn : ¬ (((B ++ D ++ (q :: T).map StackValue.lclosure ++ [top]).length : Int)
        + ((D.length : Int) - n - 1) < 0) := by
      rw [hlen]
      push_cast
      omega
    have hget : toproto (B ++ D ++ (q :: T).map StackValue.lclosure ++ [top])
        ((D.length : Int) - n - 1) = some q := by
      unfold toproto
      rw [if_neg hnn, hidx]
      have hL : B ++ D ++ (q :: T).map StackValue.lclosure ++ [top]
          = (B ++ D) ++ (StackValue.lclosure q :: (T.map StackValue.lclosure ++ [top])) := by
        simp
      rw [hL, List.getElem?_append_right (le_refl _)]
      simp
    have hlt : D.length < f.p.length := by
      rw [hf, List.length_append, hP]
      simp
    have hq : q.sizeupvalues = q.upvalues.length := hwf q (List.mem_cons_self _ _)
    rw [List.length_cons, combineLoop, hget]
    simp only [Option.bind_eq_bind, Option.some_bind, hlt, if_true, clearFirstInstack_eq q hq]
    rw [hidx]
    have hset : (B ++ D ++ (q :: T).map StackValue.lclosure ++ [top]).set (B ++ D).length
        (StackValue.lclosure (fixFirstUpvalue q))
        = B ++ (D ++ [StackValue.lclosure (fixFirstUpvalue q)]) ++ T.map StackValue.lclosure
            ++ [top] := by
      simp [List.set_append]
    have hpset : f.p.set D.length (fixFirstUpvalue q) = (P ++ [fixFirstUpvalue q]) ++ R1 := by
      rw [hf, ← hP]
      simp [List.set_append]
    rw [hset]
    have := ih (D ++ [StackValue.lclosure (fixFirstUpvalue q)]) (P ++ [fixFirstUpvalue q]) R1
      { f with p := f.p.set D.length (fixFirstUpvalue q) }
      (by simp only [List.length_append, List.length_cons, List.length_nil] at hn ⊢; omega)
      (by simp [hP]) (by simpa using hR) hpset
      (fun x hx => hwf x (List.mem_cons_of_mem _ hx))
    simp only [List.length_append, List.length_cons, List.length_nil, zero_add] at this
    rw [this]
    simp

theorem combine_eq (B : lua_State) (ps : List Proto) (n : Nat) (hn : n ≠ 1)
    (hlen : ps.length = n) (hwf : ∀ q ∈ ps, q.sizeupvalues = q.upvalues.length) :
    combine (B ++ ps.map .lclosure) n
      = some ({ wrapperProto n with p := ps.map fixFirstUpvalue, sizelineinfo := 0 },
          B ++ (ps.map fixFirstUpvalue).map .lclosure
            ++ [.lclosure { wrapperProto n with p := ps.map fixFirstUpvalue,
                                                sizelineinfo := 0 }]) := by
  have hloop := combineLoop_eq n B (.lclosure (wrapperProto n)) ps [] []
    (List.replicate n emptyFunction) (wrapperProto n) (by simpa using hlen) rfl
    (by simp [hlen]) (by simp [wrapperProto]) hwf
  simp only [List.append_nil, List.length_nil, List.nil_append, hlen] at hloop
  unfold combine
  rw [if_neg hn, lua_load_eq]
  simp only [Option.bind_eq_bind, Option.some_bind, toproto_top, hloop]
  rw [List.length_append, List.length_singleton, Nat.add_sub_cancel]
  simp [List.set_append]

theorem toproto_input (B : lua_State) (ps : List Proto) (top : StackValue) (n i : Nat)
    (hlen : ps.length = n) (hi : i < n) :
    toproto (B ++ ps.map .lclosure ++ [top]) ((i : Int) - n - 1) = ps[i]? := by
  have hnn : ¬ (((B ++ ps.map StackValue.lclosure ++ [top]).length : Int)
      + ((i : Int) - n - 1) < 0) := by
    simp only [List.length_append, List.length_map, List.length_cons, List.length_nil, hlen]
    push_cast
    omega
  have hidx : (((B ++ ps.map StackValue.lclosure ++ [top]).length : Int)
      + ((i : Int) - n - 1)).toNat = B.length + i := by
    simp only [List.length_append, List.length_map, List.length_cons, List.length_nil, hlen]
    push_cast
    omega
  unfold toproto
  rw [if_neg hnn, hidx, List.append_assoc,
    List.getElem?_append_right (Nat.le_add_right _ _), Nat.add_sub_cancel_left,
    List.getElem?_append_left (by simpa [hlen] using hi)]
  have hi2 : i < ps.length := by omega
  simp [List.getElem?_map, List.getElem?_eq_getElem hi2]

theorem wrapperCode_length (m s : Nat) : (wrapperCode m s).length = 2 * m + 1 := by
  induction m generalizing s with
  | zero => rfl
  | succ m ih => simp only [wrapperCode, List.length_cons, ih]; omega

theorem wrapperCode_pair (m : Nat) : ∀ (s j : Nat), j < m →
    (wrapperCode m s)[2 * j]? = some (CREATE_ABx OP_CLOSURE 0 (s + j))
      ∧ (wrapperCode m s)[2 * j + 1]? = some (CREATE_ABC OP_CALL 0 1 1) := by
  induction m with
  | zero => intro s j hj; omega
  | succ m ih =>
    intro s j hj
    cases j with
    | zero => simp [wrapperCode]
    | succ j =>
      have h := ih (s + 1) j (by omega)
      have e1 : 2 * (j + 1) = 2 * j + 1 + 1 := by omega
      have e3 : s + (j + 1) = s + 1 + j := by omega
      rw [e1, e3]
      simpa [wrapperCode] using h

theorem wrapperCode_last (m : Nat) : ∀ s : Nat,
    (wrapperCode m s)[2 * m]? = some (CREATE_ABC OP_RETURN 0 1 0) := by
  induction m with
  | zero => intro s; rfl
  | succ m ih =>
    intro s
    have e1 : 2 * (m + 1) = 2 * m + 1 + 1 := by omega
    rw [e1]
    simpa [wrapperCode] using ih (s + 1)

theorem fixFirstUpvalue_head (q : Proto) (u : Upvaldesc) (us : List Upvaldesc)
    (hwf : q.sizeupvalues = q.upvalues.length) (hu : q.upvalues = u :: us) :
    (fixFirstUpvalue q).upvalues = { name := u.name, instack := 0, idx := u.idx } :: us := by
  simp [fixFirstUpvalue, hwf, hu]

theorem fixFirstUpvalue_frame (q : Proto) :
    (fixFirstUpvalue q).upvalues.tail = q.upvalues.tail
      ∧ (fixFirstUpvalue q).upvalues.map (fun u => (u.name, u.idx))
          = q.upvalues.map (fun u => (u.name, u.idx))
      ∧ (fixFirstUpvalue q).code = q.code ∧ (fixFirstUpvalue q).k = q.k
      ∧ (fixFirstUpvalue q).p = q.p ∧ (fixFirstUpvalue q).locvars = q.locvars
      ∧ (fixFirstUpvalue q).lineinfo = q.lineinfo ∧ (fixFirstUpvalue q).source = q.source
      ∧ (fixFirstUpvalue q).numparams = q.numparams
      ∧ (fixFirstUpvalue q).is_vararg = q.is_vararg
      ∧ (fixFirstUpvalue q).maxstacksize = q.maxstacksize
      ∧ (fixFirstUpvalue q).linedefined = q.linedefined
      ∧ (fixFirstUpvalue q).lastlinedefined = q.lastlinedefined
      ∧ (fixFirstUpvalue q).sizeupvalues = q.sizeupvalues
      ∧ (fixFirstUpvalue q).sizek = q.sizek ∧ (fixFirstUpvalue q).sizecode = q.sizecode
      ∧ (fixFirstUpvalue q).sizelineinfo = q.sizelineinfo
      ∧ (fixFirstUpvalue q).sizep = q.sizep
      ∧ (fixFirstUpvalue q).sizelocvars = q.sizelocvars := by
  unfold fixFirstUpvalue
  split
  · split
    · simp
    · rename_i u us hu
      simp [hu]
  · simp

/-- C2: combine with n = 1 returns the single loaded prototype itself: the prototype of the
closure on top of the stack, with every field as it was (no wrapper is built, the flag of
its first upvalue is not touched), and the stack is left as it was. -/
theorem combine_single (B : lua_State) (p : Proto) :
    combine (B ++ [.lclosure p]) 1 = some (p, B ++ [.lclosure p]) := by
  simp [combine, toproto_top]

/-- C3: for n > 1 inputs `ps` on top of the stack (in load order), combine returns a wrapper
whose nested-prototype list has exactly n entries, entry i being the i-th input (the very
prototype that stack slot i holds after the call), and whose instructions are exactly n
pairs closure-create (over nested prototype i) + call (no argument, no result) followed by
a return. -/
theorem combine_wrapper (B : lua_State) (ps : List Proto) (n : Nat) (hn : 1 < n)
    (hlen : ps.length = n) (hwf : ∀ q ∈ ps, q.sizeupvalues = q.upvalues.length) :
    ∃ f L1, combine (B ++ ps.map .lclosure) n = some (f, L1)
      ∧ f.p = ps.map fixFirstUpvalue ∧ f.p.length = n ∧ f.sizep = n
      ∧ (∀ i, i < n → (f.p[i]?).isSome ∧ toproto L1 ((i : Int) - n - 1) = f.p[i]?)
      ∧ f.code.length = 2 * n + 1 ∧ f.sizecode = 2 * n + 1
      ∧ (∀ i, i < n → f.code[2 * i]? = some (CREATE_ABx OP_CLOSURE 0 i)
          ∧ f.code[2 * i + 1]? = some (CREATE_ABC OP_CALL 0 1 1))
      ∧ f.code[2 * n]? = some (CREATE_ABC OP_RETURN 0 1 0) := by
  refine ⟨_, _, combine_eq B ps n (by omega) hlen hwf, rfl, by simp [hlen], rfl, ?_,
    wrapperCode_length n 0, rfl, ?_, wrapperCode_last n 0⟩
  · intro i hi
    have hi2 : i < (ps.map fixFirstUpvalue).length := by simp [hlen, hi]
    refine ⟨by simp [List.getElem?_eq_getElem hi2], ?_⟩
    exact toproto_input B (ps.map fixFirstUpvalue) _ n i (by simp [hlen]) hi
  · intro i hi
    have h := wrapperCode_pair n 0 i hi
    simpa using h

/-- Witness of C3: two inputs above two other stack values. -/
theorem combine_wrapper_witness :
    ∃ f L1, combine ([.nonfunction, .nonfunction]
        ++ [sampleMain, sampleTwoUpvalues].map .lclosure) 2 = some (f, L1)
      ∧ f.p = [sampleMain, sampleTwoUpvalues].map fixFirstUpvalue ∧ f.p.length = 2
      ∧ f.sizep = 2
      ∧ (∀ i : Nat, i < 2 → (f.p[i]?).isSome ∧ toproto L1 ((i : Int) - ((2 : Nat) : Int) - 1) = f.p[i]?)
      ∧ f.code.length = 2 * 2 + 1 ∧ f.sizecode = 2 * 2 + 1
      ∧ (∀ i : Nat, i < 2 → f.code[2 * i]? = some (CREATE_ABx OP_CLOSURE 0 i)
          ∧ f.code[2 * i + 1]? = some (CREATE_ABC OP_CALL 0 1 1))
      ∧ f.code[2 * 2]? = some (CREATE_ABC OP_RETURN 0 1 0) :=
  combine_wrapper [.nonfunction, .nonfunction] [sampleMain, sampleTwoUpvalues] 2
    (by decide) rfl (by simp [sampleMain, sampleTwoUpvalues])

/-- C4: for n > 1 and every input prototype `q` (the i-th) that has at least one upvalue
descriptor `u`: after combine the first descriptor of that prototype (in the wrapper and in
its stack slot alike) has instack = 0 and the idx and name of `u`; the other descriptors
follow as before. -/
theorem combine_clears_instack (B : lua_State) (ps : List Proto) (n : Nat) (hn : 1 < n)
    (hlen : ps.length = n) (hwf : ∀ q ∈ ps, q.sizeupvalues = q.upvalues.length)
    (i : Nat) (q : Proto) (u : Upvaldesc) (us : List Upvaldesc)
    (hq : ps[i]? = some q) (hu : q.upvalues = u :: us) :
    ∃ f L1 q1, combine (B ++ ps.map .lclosure) n = some (f, L1)
      ∧ f.p[i]? = some q1 ∧ toproto L1 ((i : Int) - n - 1) = some q1
      ∧ q1.upvalues = { name := u.name, instack := 0, idx := u.idx } :: us := by
  have hi : i < ps.length := by
    by_contra hc
    rw [List.getElem?_eq_none (by omega)] at hq
    exact absurd hq (by simp)
  have hmem : q ∈ ps := List.getElem?_mem hq
  refine ⟨_, _, fixFirstUpvalue q, combine_eq B ps n (by omega) hlen hwf, ?_, ?_,
    fixFirstUpvalue_head q u us (hwf q hmem) hu⟩
  · simp [List.getElem?_map, hq]
  · rw [toproto_input B (ps.map fixFirstUpvalue) _ n i (by simp [hlen]) (by omega)]
    simp [List.getElem?_map, hq]

/-- Witness of C4: the second of two inputs, whose two upvalues are both marked instack. -/
theorem combine_clears_instack_witness :
    ∃ f L1 q1, combine ([] ++ [sampleMain, sampleTwoUpvalues].map .lclosure) 2 = some (f, L1)
      ∧ f.p[1]? = some q1 ∧ toproto L1 (((1 : Nat) : Int) - ((2 : Nat) : Int) - 1) = some q1
      ∧ q1.upvalues = { name := none, instack := 0, idx := 0 }
          :: [{ name := none, instack := 1, idx := 1 }] :=
  combine_clears_instack [] [sampleMain, sampleTwoUpvalues] 2 (by decide) rfl
    (by simp [sampleMain, sampleTwoUpvalues]) 1 sampleTwoUpvalues
    { name := none, instack := 1, idx := 0 } [{ name := none, instack := 1, idx := 1 }]
    rfl rfl

/-- C5, as stated, fails: combining `sampleMain` with the sibling `sampleTwoUpvalues`
changes the sibling too; its first descriptor goes from instack = 1 to instack = 0. -/
theorem combine_sibling_changed :
    sampleTwoUpvalues.upvalues
        = [{ name := none, instack := 1, idx := 0 }, { name := none, instack := 1, idx := 1 }]
      ∧ (combine [.lclosure sampleMain, .lclosure sampleTwoUpvalues] 2).bind
          (fun r => (r.1.p[1]?).map (fun q => q.upvalues))
        = some [{ name := none, instack := 0, idx := 0 },
                { name := none, instack := 1, idx := 1 }]
      ∧ (combine [.lclosure sampleMain, .lclosure sampleTwoUpvalues] 2).bind
          (fun r => (r.1.p[1]?).map (fun q => q.upvalues))
        ≠ some sampleTwoUpvalues.upvalues := by
  decide

/-- C5, amended: combining a prototype `p` whose one upvalue is marked instack at index 0
with one sibling `q` (n = 2): afterwards the upvalue of `p` has instack = 0 at index 0 and
its name, and every descriptor of `q` keeps its index and its name; all descriptors of `q`
after the first keep their flag as well, while the first descriptor of `q`, if any, has
its flag cleared like that of `p`. -/
theorem combine_sibling (B : lua_State) (p q : Proto) (nm : Option TString)
    (hp : p.upvalues = [{ name := nm, instack := 1, idx := 0 }]) (hps : p.sizeupvalues = 1)
    (hq : q.sizeupvalues = q.upvalues.length) :
    ∃ f L1 p1 q1, combine (B ++ [.lclosure p, .lclosure q]) 2 = some (f, L1)
      ∧ f.p = [p1, q1]
      ∧ p1.upvalues = [{ name := nm, instack := 0, idx := 0 }]
      ∧ q1.upvalues.map (fun u => (u.name, u.idx)) = q.upvalues.map (fun u => (u.name, u.idx))
      ∧ q1.upvalues.tail = q.upvalues.tail
      ∧ (∀ u us, q.upvalues = u :: us →
          q1.upvalues = { name := u.name, instack := 0, idx := u.idx } :: us) := by
  have hwf : ∀ x ∈ [p, q], x.sizeupvalues = x.upvalues.length := by
    intro x hx
    simp only [List.mem_cons, List.mem_singleton, List.not_mem_nil, or_false] at hx
    rcases hx with rfl | rfl
    · simp [hp, hps]
    · exact hq
  have hfr := fixFirstUpvalue_frame q
  refine ⟨_, _, fixFirstUpvalue p, fixFirstUpvalue q,
    combine_eq B [p, q] 2 (by decide) rfl hwf, rfl, ?_, hfr.2.1, hfr.1, ?_⟩
  · simpa using fixFirstUpvalue_head p _ [] (by simp [hp, hps]) hp
  · intro u us hu
    exact fixFirstUpvalue_head q u us hq hu

/-- Witness of C5, amended. -/
theorem combine_sibling_witness :
    ∃ f L1 p1 q1, combine ([] ++ [.lclosure sampleMain, .lclosure sampleTwoUpvalues]) 2
        = some (f, L1)
      ∧ f.p = [p1, q1]
      ∧ p1.upvalues = [{ name := some ("_ENV".data.map Char.toNat), instack := 0, idx := 0 }]
      ∧ q1.upvalues.map (fun u => (u.name, u.idx))
          = sampleTwoUpvalues.upvalues.map (fun u => (u.name, u.idx))
      ∧ q1.upvalues.tail = sampleTwoUpvalues.upvalues.tail
      ∧ (∀ u us, sampleTwoUpvalues.upvalues = u :: us →
          q1.upvalues = { name := u.name, instack := 0, idx := u.idx } :: us) :=
  combine_sibling [] sampleMain sampleTwoUpvalues (some ("_ENV".data.map Char.toNat)) rfl rfl rfl

/-- C6: for n > 1 and every input prototype `q` (the i-th), what combine leaves of it (in
the wrapper and in its stack slot alike) differs from `q` at most in the flag of the first
upvalue descriptor: the descriptors after the first are the same, every descriptor keeps
its name and index, and the instructions, constants, nested prototypes, local variables,
line map, source and all header attributes and sizes are the same. -/
theorem combine_frame (B : lua_State) (ps : List Proto) (n : Nat) (hn : 1 < n)
    (hlen : ps.length = n) (hwf : ∀ q ∈ ps, q.sizeupvalues = q.upvalues.length)
    (i : Nat) (q : Proto) (hq : ps[i]? = some q) :
    ∃ f L1 q1, combine (B ++ ps.map .lclosure) n = some (f, L1)
      ∧ f.p[i]? = some q1 ∧ toproto L1 ((i : Int) - n - 1) = some q1
      ∧ q1.upvalues.tail = q.upvalues.tail
      ∧ q1.upvalues.map (fun u => (u.name, u.idx)) = q.upvalues.map (fun u => (u.name, u.idx))
      ∧ q1.code = q.code ∧ q1.k = q.k ∧ q1.p = q.p ∧ q1.locvars = q.locvars
      ∧ q1.lineinfo = q.lineinfo ∧ q1.source = q.source
      ∧ q1.numparams = q.numparams ∧ q1.is_vararg = q.is_vararg
      ∧ q1.maxstacksize = q.maxstacksize ∧ q1.linedefined = q.linedefined
      ∧ q1.lastlinedefined = q.lastlinedefined ∧ q1.sizeupvalues = q.sizeupvalues
      ∧ q1.sizek = q.sizek ∧ q1.sizecode = q.sizecode
      ∧ q1.sizelineinfo = q.sizelineinfo ∧ q1.sizep = q.sizep
      ∧ q1.sizelocvars = q.sizelocvars := by
  have hi : i < ps.length := by
    by_contra hc
    rw [List.getElem?_eq_none (by omega)] at hq
    exact absurd hq (by simp)
  refine ⟨_, _, fixFirstUpvalue q, combine_eq B ps n (by omega) hlen hwf, ?_, ?_,
    fixFirstUpvalue_frame q⟩
  · simp [List.getElem?_map, hq]
  · rw [toproto_input B (ps.map fixFirstUpvalue) _ n i (by simp [hlen]) (by omega)]
    simp [List.getElem?_map, hq]

/-- Witness of C6: the second of two inputs. -/
theorem combine_frame_witness :
    ∃ f L1 q1, combine ([] ++ [sampleMain, sampleTwoUpvalues].map .lclosure) 2 = some (f, L1)
      ∧ f.p[1]? = some q1 ∧ toproto L1 (((1 : Nat) : Int) - ((2 : Nat) : Int) - 1) = some q1
      ∧ q1.upvalues.tail = sampleTwoUpvalues.upvalues.tail
      ∧ q1.upvalues.map (fun u => (u.name, u.idx))
          = sampleTwoUpvalues.upvalues.map (fun u => (u.name, u.idx))
      ∧ q1.code = sampleTwoUpvalues.code ∧ q1.k = sampleTwoUpvalues.k
      ∧ q1.p = sampleTwoUpvalues.p ∧ q1.locvars = sampleTwoUpvalues.locvars
      ∧ q1.lineinfo = sampleTwoUpvalues.lineinfo ∧ q1.source = sampleTwoUpvalues.source
      ∧ q1.numparams = sampleTwoUpvalues.numparams
      ∧ q1.is_vararg = sampleTwoUpvalues.is_vararg
      ∧ q1.maxstacksize = sampleTwoUpvalues.maxstacksize
      ∧ q1.linedefined = sampleTwoUpvalues.linedefined
      ∧ q1.lastlinedefined = sampleTwoUpvalues.lastlinedefined
      ∧ q1.sizeupvalues = sampleTwoUpvalues.sizeupvalues
      ∧ q1.sizek = sampleTwoUpvalues.sizek ∧ q1.sizecode = sampleTwoUpvalues.sizecode
      ∧ q1.sizelineinfo = sampleTwoUpvalues.sizelineinfo
      ∧ q1.sizep = sampleTwoUpvalues.sizep
      ∧ q1.sizelocvars = sampleTwoUpvalues.sizelocvars :=
  combine_frame [] [sampleMain, sampleTwoUpvalues] 2 (by decide) rfl
    (by simp [sampleMain, sampleTwoUpvalues]) 1 sampleTwoUpvalues rfl

/-! ### PrintCode -/

/-- C7, as stated, fails: a jump with offset 0 at the first instruction (index 1 in the
listing) is annotated "to 2", whereas index + offset + 2 is 3. -/
theorem PrintCode_jump_target_off_by_one :
    GET_OPCODE (CREATE_ABx OP_JMP 0 131071) = OP_JMP
      ∧ GETARG_sBx (CREATE_ABx OP_JMP 0 131071) = 0
      ∧ PrintCode sampleLib (sampleProto [CREATE_ABx OP_JMP 0 131071] [])
          = some "\t1\t[-]\tJMP      \t0 0\t; to 2\n"
      ∧ PrintCodeAnnot sampleLib (sampleProto [CREATE_ABx OP_JMP 0 131071] []) 0 OP_JMP 0 0 0 0
          131071 0 = some ("\t; to 2", 0)
      ∧ "\t; to 2" ≠ "\t; to " ++ fmt_d (((0 : Nat) : Int) + 1 + 0 + 2) := by
  decide

/-- C7, amended: for every jump-family instruction (OP_JMP, OP_FORLOOP, OP_FORPREP,
OP_TFORLOOP) at 0-based position `pc` with signed offset `o`, the line printed starts with
the 1-based index p = pc + 1 and its annotation is "; to N" with N = p + o + 1
(that is pc + o + 2). -/
theorem PrintCode_jump_target (E : CLib) (f : Proto) (pc : Nat) (i : Instruction) (line : Int)
    (hi : f.code[pc]? = some i) (hl : getfuncline f pc = some line)
    (ho : GET_OPCODE i = OP_JMP ∨ GET_OPCODE i = OP_FORLOOP ∨ GET_OPCODE i = OP_FORPREP
      ∨ GET_OPCODE i = OP_TFORLOOP) :
    ∃ name, luaP_opnames[GET_OPCODE i]? = some name
      ∧ PrintCodeStep E f pc
        = some ("\t" ++ fmt_d ((pc : Int) + 1) ++ "\t"
            ++ (if line > 0 then "[" ++ fmt_d line ++ "]\t" else "[-]\t")
            ++ fmt_s9 name ++ "\t"
            ++ (fmt_d (GETARG_A i) ++ " " ++ fmt_d (GETARG_sBx i))
            ++ ("\t; to " ++ fmt_d (((pc : Int) + 1) + GETARG_sBx i + 1))
            ++ "\n", pc) := by
  have e : GETARG_sBx i + (pc : Int) + 2 = ((pc : Int) + 1) + GETARG_sBx i + 1 := by omega
  rcases ho with h | h | h | h
  · refine ⟨"JMP", by rw [h]; rfl, ?_⟩
    simp only [PrintCodeStep, hi, Option.bind_eq_bind, Option.some_bind, h, PrintCodeHead, hl]
    rw [← e]
    rfl
  · refine ⟨"FORLOOP", by rw [h]; rfl, ?_⟩
    simp only [PrintCodeStep, hi, Option.bind_eq_bind, Option.some_bind, h, PrintCodeHead, hl]
    rw [← e]
    rfl
  · refine ⟨"FORPREP", by rw [h]; rfl, ?_⟩
    simp only [PrintCodeStep, hi, Option.bind_eq_bind, Option.some_bind, h, PrintCodeHead, hl]
    rw [← e]
    rfl
  · refine ⟨"TFORLOOP", by rw [h]; rfl, ?_⟩
    simp only [PrintCodeStep, hi, Option.bind_eq_bind, Option.some_bind, h, PrintCodeHead, hl]
    rw [← e]
    rfl

/-- Witness of C7, amended: a FORLOOP with offset -2 at position 3 (index 4) goes to 3. -/
theorem PrintCode_jump_target_witness :
    ∃ name, luaP_opnames[GET_OPCODE (CREATE_ABx OP_FORLOOP 0 131069)]? = some name
      ∧ PrintCodeStep sampleLib
          (sampleProto [0, 0, 0, CREATE_ABx OP_FORLOOP 0 131069] []) 3
        = some ("\t" ++ fmt_d (((3 : Nat) : Int) + 1) ++ "\t"
            ++ (if (-1 : Int) > 0 then "[" ++ fmt_d (-1) ++ "]\t" else "[-]\t")
            ++ fmt_s9 name ++ "\t"
            ++ (fmt_d (GETARG_A (CREATE_ABx OP_FORLOOP 0 131069)) ++ " "
                ++ fmt_d (GETARG_sBx (CREATE_ABx OP_FORLOOP 0 131069)))
            ++ ("\t; to " ++ fmt_d ((((3 : Nat) : Int) + 1)
                + GETARG_sBx (CREATE_ABx OP_FORLOOP 0 131069) + 1))
            ++ "\n", 3) :=
  PrintCode_jump_target sampleLib (sampleProto [0, 0, 0, CREATE_ABx OP_FORLOOP 0 131069] []) 3
    (CREATE_ABx OP_FORLOOP 0 131069) (-1) rfl rfl (Or.inr (Or.inl (by decide)))

/-- C8, as stated, fails: for OP_LOADK with A = 0 and Bx = 2 the operand column is "0 -3"
(the pool index is shown as MYK(2) = -3), not "0 2"; the annotation is "; 3.0". -/
theorem PrintCode_loadk_column :
    GET_OPCODE (CREATE_ABx OP_LOADK 0 2) = OP_LOADK
      ∧ getOpMode OP_LOADK = some iABx
      ∧ GETARG_A (CREATE_ABx OP_LOADK 0 2) = 0
      ∧ GETARG_Bx (CREATE_ABx OP_LOADK 0 2) = 2
      ∧ PrintCode sampleLib (sampleProto [CREATE_ABx OP_LOADK 0 2]
            [.nil, .nil, .numflt { bits := 0x4008000000000000 }])
          = some "\t1\t[-]\tLOADK    \t0 -3\t; 3.0\n"
      ∧ PrintCodeArgs OP_LOADK 0 (GETARG_B (CREATE_ABx OP_LOADK 0 2))
            (GETARG_C (CREATE_ABx OP_LOADK 0 2)) (GETARG_Ax (CREATE_ABx OP_LOADK 0 2)) 2
            (GETARG_sBx (CREATE_ABx OP_LOADK 0 2)) = some "0 -3"
      ∧ some "0 -3" ≠ some "0 2" := by
  decide

/-- C8, amended: for OP_LOADK with A = 0 and Bx = 2 in a prototype whose constant 2 is a
float that the number format writes as "3" (as it does 3.0), PrintCode prints the operand
column "0 -3" and the annotation "; 3.0". -/
theorem PrintCode_loadk (E : CLib) (f : Proto) (pc : Nat) (i : Instruction) (line : Int)
    (x : lua_Number) (hi : f.code[pc]? = some i) (hl : getfuncline f pc = some line)
    (ho : GET_OPCODE i = OP_LOADK) (ha : GETARG_A i = 0) (hbx : GETARG_Bx i = 2)
    (hk : f.k[2]? = some (.numflt x)) (hfmt : E.number_fmt x = "3") :
    PrintCodeArgs (GET_OPCODE i) (GETARG_A i) (GETARG_B i) (GETARG_C i) (GETARG_Ax i)
        (GETARG_Bx i) (GETARG_sBx i) = some "0 -3"
      ∧ PrintCodeAnnot E f pc (GET_OPCODE i) (GETARG_A i) (GETARG_B i) (GETARG_C i)
          (GETARG_Ax i) (GETARG_Bx i) (GETARG_sBx i) = some ("\t; 3.0", pc)
      ∧ PrintCodeStep E f pc
        = some ("\t" ++ fmt_d ((pc : Int) + 1) ++ "\t"
            ++ (if line > 0 then "[" ++ fmt_d line ++ "]\t" else "[-]\t")
            ++ fmt_s9 "LOADK" ++ "\t" ++ "0 -3" ++ "\t; 3.0" ++ "\n", pc) := by
  have h1 : PrintCodeArgs (GET_OPCODE i) (GETARG_A i) (GETARG_B i) (GETARG_C i) (GETARG_Ax i)
      (GETARG_Bx i) (GETARG_sBx i) = some "0 -3" := by
    rw [ho, ha, hbx]
    rfl
  have h2 : PrintCodeAnnot E f pc (GET_OPCODE i) (GETARG_A i) (GETARG_B i) (GETARG_C i)
      (GETARG_Ax i) (GETARG_Bx i) (GETARG_sBx i) = some ("\t; 3.0", pc) := by
    rw [ho, hbx]
    simp only [PrintCodeAnnot, if_true, PrintConstant, hk, Option.map_some', PrintTValue, hfmt,
      Option.bind_eq_bind, Option.some_bind]
    rfl
  refine ⟨h1, h2, ?_⟩
  simp only [PrintCodeStep, hi, Option.bind_eq_bind, Option.some_bind, h1, h2]
  have hn : luaP_opnames[OP_LOADK]? = some "LOADK" := rfl
  simp only [ho, PrintCodeHead, hl, hn, Option.bind_eq_bind, Option.some_bind]

/-- Witness of C8, amended. -/
theorem PrintCode_loadk_witness :
    PrintCodeArgs (GET_OPCODE (CREATE_ABx OP_LOADK 0 2)) (GETARG_A (CREATE_ABx OP_LOADK 0 2))
        (GETARG_B (CREATE_ABx OP_LOADK 0 2)) (GETARG_C (CREATE_ABx OP_LOADK 0 2))
        (GETARG_Ax (CREATE_ABx OP_LOADK 0 2)) (GETARG_Bx (CREATE_ABx OP_LOADK 0 2))
        (GETARG_sBx (CREATE_ABx OP_LOADK 0 2)) = some "0 -3"
      ∧ PrintCodeAnnot sampleLib
          (sampleProto [CREATE_ABx OP_LOADK 0 2]
            [.nil, .nil, .numflt { bits := 0x4008000000000000 }]) 0
          (GET_OPCODE (CREATE_ABx OP_LOADK 0 2)) (GETARG_A (CREATE_ABx OP_LOADK 0 2))
          (GETARG_B (CREATE_ABx OP_LOADK 0 2)) (GETARG_C (CREATE_ABx OP_LOADK 0 2))
          (GETARG_Ax (CREATE_ABx OP_LOADK 0 2)) (GETARG_Bx (CREATE_ABx OP_LOADK 0 2))
          (GETARG_sBx (CREATE_ABx OP_LOADK 0 2)) = some ("\t; 3.0", 0)
      ∧ PrintCodeStep sampleLib
          (sampleProto [CREATE_ABx OP_LOADK 0 2]
            [.nil, .nil, .numflt { bits := 0x4008000000000000 }]) 0
        = some ("\t" ++ fmt_d (((0 : Nat) : Int) + 1) ++ "\t"
            ++ (if (-1 : Int) > 0 then "[" ++ fmt_d (-1) ++ "]\t" else "[-]\t")
            ++ fmt_s9 "LOADK" ++ "\t" ++ "0 -3" ++ "\t; 3.0" ++ "\n", 0) :=
  PrintCode_loadk sampleLib
    (sampleProto [CREATE_ABx OP_LOADK 0 2] [.nil, .nil, .numflt { bits := 0x4008000000000000 }])
    0 (CREATE_ABx OP_LOADK 0 2) (-1) { bits := 0x4008000000000000 } rfl rfl (by decide)
    (by decide) (by decide) rfl rfl

theorem ISK_INDEXK_of_flagged (x : Nat) (h1 : 256 ≤ x) (h2 : x < 512) :
    ISK x ≠ 0 ∧ INDEXK x = x - 256 := by
  interval_cases x <;> decide

theorem PrintRK_flagged (mode x : Nat) (hm : mode ≠ OpArgN) (h1 : 256 ≤ x) (h2 : x < 512) :
    PrintRK mode x = " " ++ fmt_d (-1 - ((x : Int) - 256)) := by
  obtain ⟨hk, hx⟩ := ISK_INDEXK_of_flagged x h1 h2
  simp only [PrintRK, hm, ne_eq, not_false_eq_true, if_true, hk, hx, MYK]
  rw [Nat.cast_sub h1]
  rfl

theorem PrintKOrDash_flagged (E : CLib) (f : Proto) (x : Nat) (h1 : 256 ≤ x) (h2 : x < 512) :
    PrintKOrDash E f x = PrintConstant E f (x - 256) := by
  obtain ⟨hk, hx⟩ := ISK_INDEXK_of_flagged x h1 h2
  simp [PrintKOrDash, hk, hx]

theorem PrintKOpt_flagged (E : CLib) (f : Proto) (x : Nat) (h1 : 256 ≤ x) (h2 : x < 512) :
    PrintKOpt E f x = (PrintConstant E f (x - 256)).map (fun s => " " ++ s) := by
  obtain ⟨hk, hx⟩ := ISK_INDEXK_of_flagged x h1 h2
  simp [PrintKOpt, hk, hx]

theorem PrintCodeAnnot_binary (E : CLib) (f : Proto) (pc o a b c ax bx : Nat) (sbx : Int)
    (ho : o ∈ [OP_SETTABLE, OP_ADD, OP_SUB, OP_MUL, OP_MOD, OP_POW, OP_DIV, OP_IDIV, OP_BAND,
      OP_BOR, OP_BXOR, OP_SHL, OP_SHR, OP_EQ, OP_LT, OP_LE])
    (hk : ISK b ≠ 0 ∨ ISK c ≠ 0) :
    PrintCodeAnnot E f pc o a b c ax bx sbx
      = (PrintKOrDash E f b).bind (fun kb =>
          (PrintKOrDash E f c).bind (fun kc => some ("\t; " ++ kb ++ " " ++ kc, pc))) := by
  simp only [List.mem_cons, List.mem_singleton, List.not_mem_nil, or_false] at ho
  rcases ho with rfl | rfl | rfl | rfl | rfl | rfl | rfl | rfl | rfl | rfl | rfl | rfl | rfl
    | rfl | rfl | rfl <;>
  · simp only [PrintCodeAnnot, OP_SETTABLE, OP_ADD, OP_SUB, OP_MUL, OP_MOD, OP_POW, OP_DIV,
      OP_IDIV, OP_BAND, OP_BOR, OP_BXOR, OP_SHL, OP_SHR, OP_EQ, OP_LT, OP_LE, OP_LOADK,
      OP_GETUPVAL, OP_SETUPVAL, OP_GETTABUP, OP_SETTABUP, OP_GETTABLE, OP_SELF]
    simp [hk]

theorem PrintCodeArgs_iABC (o a b c ax bx : Nat) (sbx : Int) (bm cm : Nat)
    (hm : getOpMode o = some iABC) (hbm : getBMode o = some bm) (hcm : getCMode o = some cm) :
    PrintCodeArgs o a b c ax bx sbx = some (fmt_d a ++ PrintRK bm b ++ PrintRK cm c) := by
  simp [PrintCodeArgs, hm, hbm, hcm]

theorem PrintCodeAnnot_gettabup (E : CLib) (f : Proto) (pc a b c ax bx : Nat) (sbx : Int) :
    PrintCodeAnnot E f pc OP_GETTABUP a b c ax bx sbx
      = (UPVALNAME f b).bind (fun u =>
          (PrintKOpt E f c).bind (fun kc => some ("\t; " ++ u ++ kc, pc))) := by
  simp [PrintCodeAnnot, OP_GETTABUP, OP_LOADK, OP_GETUPVAL, OP_SETUPVAL]

theorem PrintCodeAnnot_settabup (E : CLib) (f : Proto) (pc a b c ax bx : Nat) (sbx : Int) :
    PrintCodeAnnot E f pc OP_SETTABUP a b c ax bx sbx
      = (UPVALNAME f a).bind (fun u =>
          (PrintKOpt E f b).bind (fun kb =>
            (PrintKOpt E f c).bind (fun kc => some ("\t; " ++ u ++ kb ++ kc, pc)))) := by
  simp [PrintCodeAnnot, OP_SETTABUP, OP_GETTABUP, OP_LOADK, OP_GETUPVAL, OP_SETUPVAL]

theorem PrintCodeAnnot_gettable (E : CLib) (f : Proto) (pc o a b c ax bx : Nat) (sbx : Int)
    (ho : o = OP_GETTABLE ∨ o = OP_SELF) (hk : ISK c ≠ 0) :
    PrintCodeAnnot E f pc o a b c ax bx sbx
      = (PrintConstant E f (INDEXK c)).bind (fun s => some ("\t; " ++ s, pc)) := by
  rcases ho with rfl | rfl <;>
  simp [PrintCodeAnnot, OP_GETTABLE, OP_SELF, OP_SETTABUP, OP_GETTABUP, OP_LOADK, OP_GETUPVAL,
    OP_SETUPVAL, hk]

/-- C9, as stated, fails: OP_SETLIST is an ABC-mode instruction and its C operand 300 is at
or above BITRK; the operand column shows it as -1 - (300 - 256) = -45, but the annotation
is the raw operand "; 300", not the constant at pool index 44 (which is 7 here). -/
theorem PrintCode_setlist_flagged :
    GET_OPCODE (CREATE_ABC OP_SETLIST 0 3 300) = OP_SETLIST
      ∧ getOpMode OP_SETLIST = some iABC
      ∧ GETARG_C (CREATE_ABC OP_SETLIST 0 3 300) = 300
      ∧ BITRK ≤ 300 ∧ INDEXK 300 = 300 - BITRK
      ∧ PrintConstant sampleLib
          (sampleProto [CREATE_ABC OP_SETLIST 0 3 300] (List.replicate 44 .nil ++ [.numint 7]))
          (300 - BITRK) = some "7"
      ∧ PrintCode sampleLib
          (sampleProto [CREATE_ABC OP_SETLIST 0 3 300] (List.replicate 44 .nil ++ [.numint 7]))
        = some "\t1\t[-]\tSETLIST  \t0 3 -45\t; 300\n"
      ∧ PrintCodeAnnot sampleLib
          (sampleProto [CREATE_ABC OP_SETLIST 0 3 300] (List.replicate 44 .nil ++ [.numint 7]))
          0 OP_SETLIST 0 3 300 0 0 0 = some ("\t; 300", 0)
      ∧ some ("\t; 300", 0) ≠ some ("\t; 7", 0) := by
  decide

/-- C9, amended: for an ABC-mode instruction with opcode `o` and operands `a`, `b`, `c`, and
for each of `b` and `c` that is constant-flagged (at or above BITRK = 256): ISK holds and
INDEXK gives the operand minus 256; when the opcode uses that operand position (its mode is
not OpArgN) the operand column shows it as -1 - (operand - 256); and for the opcodes that
annotate that operand with a constant (OP_SETTABUP, OP_SETTABLE, the arithmetic and the
comparison opcodes for B and C; OP_GETTABUP, OP_GETTABLE and OP_SELF for C) the constant in
the annotation is PrintConstant of the pool entry at index operand - 256. -/
theorem PrintCode_constant_operand (E : CLib) (f : Proto) (pc : Nat) (i : Instruction)
    (o a b c bm cm : Nat) (ho : o = GET_OPCODE i) (ha : a = GETARG_A i) (hb : b = GETARG_B i)
    (hc : c = GETARG_C i) (hm : getOpMode o = some iABC) (hbm : getBMode o = some bm)
    (hcm : getCMode o = some cm) :
    (BITRK ≤ b →
        ISK b ≠ 0 ∧ INDEXK b = b - BITRK
        ∧ (bm ≠ OpArgN →
            PrintCodeArgs o a b c (GETARG_Ax i) (GETARG_Bx i) (GETARG_sBx i)
              = some (fmt_d a ++ (" " ++ fmt_d (-1 - ((b : Int) - BITRK))) ++ PrintRK cm c))
        ∧ (o = OP_SETTABUP →
            PrintCodeAnnot E f pc o a b c (GETARG_Ax i) (GETARG_Bx i) (GETARG_sBx i)
              = (UPVALNAME f a).bind (fun u =>
                  (PrintConstant E f (b - BITRK)).bind (fun kb =>
                    (PrintKOpt E f c).bind (fun kc =>
                      some ("\t; " ++ u ++ (" " ++ kb) ++ kc, pc)))))
        ∧ (o ∈ [OP_SETTABLE, OP_ADD, OP_SUB, OP_MUL, OP_MOD, OP_POW, OP_DIV, OP_IDIV, OP_BAND,
              OP_BOR, OP_BXOR, OP_SHL, OP_SHR, OP_EQ, OP_LT, OP_LE] →
            PrintCodeAnnot E f pc o a b c (GETARG_Ax i) (GETARG_Bx i) (GETARG_sBx i)
              = (PrintConstant E f (b - BITRK)).bind (fun kb =>
                  (PrintKOrDash E f c).bind (fun kc =>
                    some ("\t; " ++ kb ++ " " ++ kc, pc)))))
      ∧ (BITRK ≤ c →
        ISK c ≠ 0 ∧ INDEXK c = c - BITRK
        ∧ (cm ≠ OpArgN →
            PrintCodeArgs o a b c (GETARG_Ax i) (GETARG_Bx i) (GETARG_sBx i)
              = some (fmt_d a ++ PrintRK bm b ++ (" " ++ fmt_d (-1 - ((c : Int) - BITRK)))))
        ∧ (o = OP_GETTABUP →
            PrintCodeAnnot E f pc o a b c (GETARG_Ax i) (GETARG_Bx i) (GETARG_sBx i)
              = (UPVALNAME f b).bind (fun u =>
                  (PrintConstant E f (c - BITRK)).bind (fun kc =>
                    some ("\t; " ++ u ++ (" " ++ kc), pc))))
        ∧ (o = OP_SETTABUP →
            PrintCodeAnnot E f pc o a b c (GETARG_Ax i) (GETARG_Bx i) (GETARG_sBx i)
              = (UPVALNAME f a).bind (fun u =>
                  (PrintKOpt E f b).bind (fun kb =>
                    (PrintConstant E f (c - BITRK)).bind (fun kc =>
                      some ("\t; " ++ u ++ kb ++ (" " ++ kc), pc)))))
        ∧ (o = OP_GETTABLE ∨ o = OP_SELF →
            PrintCodeAnnot E f pc o a b c (GETARG_Ax i) (GETARG_Bx i) (GETARG_sBx i)
              = (PrintConstant E f (c - BITRK)).bind (fun kc => some ("\t; " ++ kc, pc)))
        ∧ (o ∈ [OP_SETTABLE, OP_ADD, OP_SUB, OP_MUL, OP_MOD, OP_POW, OP_DIV, OP_IDIV, OP_BAND,
              OP_BOR, OP_BXOR, OP_SHL, OP_SHR, OP_EQ, OP_LT, OP_LE] →
            PrintCodeAnnot E f pc o a b c (GETARG_Ax i) (GETARG_Bx i) (GETARG_sBx i)
              = (PrintKOrDash E f b).bind (fun kb =>
                  (PrintConstant E f (c - BITRK)).bind (fun kc =>
                    some ("\t; " ++ kb ++ " " ++ kc, pc))))) := by
  have hb2 : b < 512 := by rw [hb]; exact Nat.mod_lt _ (by decide)
  have hc2 : c < 512 := by rw [hc]; exact Nat.mod_lt _ (by decide)
  have hargs := PrintCodeArgs_iABC o a b c (GETARG_Ax i) (GETARG_Bx i) (GETARG_sBx i) bm cm
    hm hbm hcm
  constructor
  · intro hb1
    have hb1 : 256 ≤ b := hb1
    obtain ⟨hk, hx⟩ := ISK_INDEXK_of_flagged b hb1 hb2
    refine ⟨hk, hx, ?_, ?_, ?_⟩
    · intro hn
      rw [hargs, PrintRK_flagged bm b hn hb1 hb2]
      rfl
    · intro h
      rw [h, PrintCodeAnnot_settabup, PrintKOpt_flagged E f b hb1 hb2,
        show b - BITRK = b - 256 from rfl]
      cases UPVALNAME f a <;> cases PrintConstant E f (b - 256) <;> rfl
    · intro h
      rw [PrintCodeAnnot_binary E f pc o a b c _ _ _ h (Or.inl hk),
        PrintKOrDash_flagged E f b hb1 hb2]
      rfl
  · intro hc1
    have hc1 : 256 ≤ c := hc1
    obtain ⟨hk, hx⟩ := ISK_INDEXK_of_flagged c hc1 hc2
    refine ⟨hk, hx, ?_, ?_, ?_, ?_, ?_⟩
    · intro hn
      rw [hargs, PrintRK_flagged cm c hn hc1 hc2]
      rfl
    · intro h
      rw [h, PrintCodeAnnot_gettabup, PrintKOpt_flagged E f c hc1 hc2,
        show c - BITRK = c - 256 from rfl]
      cases UPVALNAME f b <;> cases PrintConstant E f (c - 256) <;> rfl
    · intro h
      rw [h, PrintCodeAnnot_settabup, PrintKOpt_flagged E f c hc1 hc2,
        show c - BITRK = c - 256 from rfl]
      cases UPVALNAME f a <;> cases PrintKOpt E f b <;> cases PrintConstant E f (c - 256) <;> rfl
    · intro h
      rw [PrintCodeAnnot_gettable E f pc o a b c _ _ _ h hk, hx]
      rfl
    · intro h
      rw [PrintCodeAnnot_binary E f pc o a b c _ _ _ h (Or.inr hk),
        PrintKOrDash_flagged E f c hc1 hc2]
      rfl

/-- Witness of C9, amended: OP_ADD with A = 1, B = 256 (constant 0) and C = 258
(constant 2). -/
theorem PrintCode_constant_operand_witness :
    getOpMode OP_ADD = some iABC ∧ BITRK ≤ 256 ∧ BITRK ≤ 258
      ∧ PrintCodeArgs OP_ADD 1 256 258 (GETARG_Ax (CREATE_ABC OP_ADD 1 256 258))
          (GETARG_Bx (CREATE_ABC OP_ADD 1 256 258)) (GETARG_sBx (CREATE_ABC OP_ADD 1 256 258))
        = some (fmt_d ((1 : Nat) : Int) ++ (" " ++ fmt_d (-1 - (((256 : Nat) : Int) - BITRK)))
            ++ PrintRK OpArgK 258)
      ∧ PrintCodeAnnot sampleLib
          (sampleProto [CREATE_ABC OP_ADD 1 256 258] [.numint 7, .nil, .boolean 1]) 0 OP_ADD 1
          256 258 (GETARG_Ax (CREATE_ABC OP_ADD 1 256 258))
          (GETARG_Bx (CREATE_ABC OP_ADD 1 256 258)) (GETARG_sBx (CREATE_ABC OP_ADD 1 256 258))
        = (PrintKOrDash sampleLib
            (sampleProto [CREATE_ABC OP_ADD 1 256 258] [.numint 7, .nil, .boolean 1]) 256).bind
            (fun kb =>
              (PrintConstant sampleLib
                (sampleProto [CREATE_ABC OP_ADD 1 256 258] [.numint 7, .nil, .boolean 1])
                (258 - BITRK)).bind (fun kc => some ("\t; " ++ kb ++ " " ++ kc, 0)))
      ∧ PrintCode sampleLib
          (sampleProto [CREATE_ABC OP_ADD 1 256 258] [.numint 7, .nil, .boolean 1])
        = some "\t1\t[-]\tADD      \t1 -1 -3\t; 7 true\n" :=
  have h := PrintCode_constant_operand sampleLib
    (sampleProto [CREATE_ABC OP_ADD 1 256 258] [.numint 7, .nil, .boolean 1]) 0
    (CREATE_ABC OP_ADD 1 256 258) OP_ADD 1 256 258 OpArgK OpArgK (by decide) (by decide)
    (by decide) (by decide) (by decide) (by decide) (by decide)
  ⟨by decide, by decide, by decide, (h.1 (by decide)).2.2.1 (by decide),
    (h.2 (by decide)).2.2.2.2.2.2 (by simp), by decide⟩

/-! ### PrintConstant -/

theorem digitChar_mem (d : Nat) (hd : d < 10) : Nat.digitChar d ∈ "-0123456789".data := by
  interval_cases d <;> decide

theorem toDigitsCore_mem (fuel : Nat) : ∀ (n : Nat) (acc : List Char),
    (∀ ch ∈ acc, ch ∈ "-0123456789".data) →
    ∀ ch ∈ Nat.toDigitsCore 10 fuel n acc, ch ∈ "-0123456789".data := by
  induction fuel with
  | zero => intro n acc hacc; simpa [Nat.toDigitsCore] using hacc
  | succ fuel ih =>
    intro n acc hacc
    have hcons : ∀ ch ∈ Nat.digitChar (n % 10) :: acc, ch ∈ "-0123456789".data := by
      intro ch hch
      rcases List.mem_cons.mp hch with rfl | h
      · exact digitChar_mem _ (Nat.mod_lt _ (by decide))
      · exact hacc ch h
    unfold Nat.toDigitsCore
    dsimp only
    by_cases h0 : n / 10 = 0
    · rw [if_pos h0]
      exact hcons
    · rw [if_neg h0]
      exact ih _ _ hcons

theorem looksLikeInt_toString_nat (n : Nat) : looksLikeInt (toString n) = true := by
  have h := toDigitsCore_mem (n + 1) n [] (by simp)
  simp only [looksLikeInt, List.all_eq_true]
  intro ch hch
  exact List.elem_iff.mpr (h ch hch)

theorem looksLikeInt_fmt_d (i : Int) : looksLikeInt (fmt_d i) = true := by
  cases i with
  | ofNat n => exact looksLikeInt_toString_nat n
  | negSucc n =>
    have h := looksLikeInt_toString_nat (n + 1)
    simp only [looksLikeInt, List.all_eq_true] at h ⊢
    intro ch hch
    have hd : (fmt_d (Int.negSucc n)).data = '-' :: (toString (n + 1)).data := rfl
    rw [hd] at hch
    rcases List.mem_cons.mp hch with rfl | h1
    · decide
    · exact h ch h1

theorem looksLikeInt_PrintFloat (t : String) : looksLikeInt (PrintFloat t) = false := by
  unfold PrintFloat
  cases h : looksLikeInt t with
  | false => simpa using h
  | true =>
    simp only [if_true, looksLikeInt, String.data_append, List.all_append, Bool.and_eq_false_iff]
    right
    decide

/-- C10, as stated, fails: for plus infinity the number format writes "inf"; the text is
not made of characters of "-0123456789" only, so nothing is appended and the output "inf"
contains neither a decimal point nor an exponent marker. -/
theorem PrintConstant_float_inf :
    sampleLib.number_fmt { bits := 0x7FF0000000000000 } = "inf"
      ∧ looksLikeInt "inf" = false
      ∧ PrintTValue sampleLib (.numflt { bits := 0x7FF0000000000000 }) = "inf"
      ∧ hasPointOrExponent (PrintTValue sampleLib (.numflt { bits := 0x7FF0000000000000 }))
          = false := by
  decide

/-- C10, amended: with `t` the text produced by the number format for a float constant,
PrintConstant emits `t` followed by ".0" exactly when `t` consists only of characters of
"-0123456789", and `t` alone otherwise; in the first case the output contains a decimal
point; in every case (for every `t`) the output has a character outside "-0123456789", so
it is never equal to the rendering of any integer constant.  A float that the format writes
as "3" renders as "3.0", and the integer 3 renders as "3". -/
theorem PrintConstant_float (E : CLib) (x : lua_Number) :
    (looksLikeInt (E.number_fmt x) = true →
        PrintTValue E (.numflt x) = E.number_fmt x ++ ".0"
          ∧ hasPointOrExponent (PrintTValue E (.numflt x)) = true)
      ∧ (looksLikeInt (E.number_fmt x) = false → PrintTValue E (.numflt x) = E.number_fmt x)
      ∧ looksLikeInt (PrintTValue E (.numflt x)) = false
      ∧ (∀ i : Int, PrintTValue E (.numflt x) ≠ PrintTValue E (.numint i))
      ∧ (E.number_fmt x = "3" → PrintTValue E (.numflt x) = "3.0")
      ∧ PrintTValue E (.numint 3) = "3" := by
  refine ⟨?_, ?_, looksLikeInt_PrintFloat _, ?_, ?_, rfl⟩
  · intro h
    have e : PrintTValue E (.numflt x) = E.number_fmt x ++ ".0" := by
      simp [PrintTValue, PrintFloat, h]
    refine ⟨e, ?_⟩
    rw [e]
    simp [hasPointOrExponent]
  · intro h
    simp [PrintTValue, PrintFloat, h]
  · intro i hi
    have h1 := looksLikeInt_PrintFloat (E.number_fmt x)
    have h2 := looksLikeInt_fmt_d i
    have h3 : PrintFloat (E.number_fmt x) = fmt_d i := hi
    rw [h3, h2] at h1
    exact absurd h1 (by simp)
  · intro h
    simp only [PrintTValue, h]
    decide

/-- Witness of C10, amended, at the double 3.0 of the sample library. -/
theorem PrintConstant_float_witness :
    looksLikeInt (sampleLib.number_fmt { bits := 0x4008000000000000 }) = true
      ∧ sampleLib.number_fmt { bits := 0x4008000000000000 } = "3"
      ∧ PrintTValue sampleLib (.numflt { bits := 0x4008000000000000 }) = "3.0"
      ∧ hasPointOrExponent (PrintTValue sampleLib (.numflt { bits := 0x4008000000000000 }))
          = true
      ∧ PrintTValue sampleLib (.numflt { bits := 0x4008000000000000 })
          ≠ PrintTValue sampleLib (.numint 3) :=
  have h := PrintConstant_float sampleLib { bits := 0x4008000000000000 }
  ⟨by decide, by decide, h.2.2.2.2.1 (by decide), (h.1 (by decide)).2, h.2.2.2.1 3⟩

/-! ### PrintConstant on the tags -/

/-- C13, as stated, fails on the text of the fallback: for a constant with tag 9 (none of
the six tags) PrintConstant prints "? type=9", not "unknown tag 9". -/
theorem PrintConstant_fallback_text :
    ttype (.other 9) = 9
      ∧ PrintConstant sampleLib (sampleProto [] [.other 9]) 0 = some "? type=9"
      ∧ some "? type=9" ≠ some ("unknown tag " ++ fmt_d 9) := by
  decide

/-- C13, amended: PrintConstant is total over the tags.  For a constant whose tag N is none
of nil, boolean, float, integer, short string, long string it prints the fallback text
"? type=N"; for the six tags it prints the rendering of that tag: "nil", "true" or "false",
the float text, the decimal integer, the quoted string. -/
theorem PrintConstant_tags (E : CLib) (o : TValue) :
    (ttype o ∉ [0, 1, 3, 19, 4, 20] → PrintTValue E o = "? type=" ++ fmt_d (ttype o))
      ∧ (∀ b, o = .boolean b → PrintTValue E o = if b ≠ 0 then "true" else "false")
      ∧ (o = .nil → PrintTValue E o = "nil")
      ∧ (∀ x, o = .numflt x → PrintTValue E o = PrintFloat (E.number_fmt x))
      ∧ (∀ i, o = .numint i → PrintTValue E o = fmt_d i)
      ∧ (∀ ts, o = .shrstr ts ∨ o = .lngstr ts → PrintTValue E o = PrintString ts)
      ∧ (∀ (f : Proto) (i : Nat), i < f.k.length → f.k[i]? = some o →
          PrintConstant E f i = some (PrintTValue E o)) := by
  refine ⟨?_, ?_, ?_, ?_, ?_, ?_, ?_⟩
  · intro h
    cases o <;> simp [ttype] at h ⊢
    rfl
  · intro b h; subst h; rfl
  · intro h; subst h; rfl
  · intro x h; subst h; rfl
  · intro i h; subst h; rfl
  · intro ts h
    rcases h with h | h <;> subst h <;> rfl
  · intro f i _ h
    simp [PrintConstant, h]

/-- Witness of C13, amended: a constant with tag 9. -/
theorem PrintConstant_tags_witness :
    ttype (.other 9) ∉ [0, 1, 3, 19, 4, 20]
      ∧ PrintTValue sampleLib (.other 9) = "? type=" ++ fmt_d (ttype (.other 9))
      ∧ PrintConstant sampleLib (sampleProto [] [.other 9]) 0
          = some (PrintTValue sampleLib (.other 9)) :=
  have h := PrintConstant_tags sampleLib (.other 9)
  ⟨by decide, h.1 (by decide),
    h.2.2.2.2.2.2 (sampleProto [] [.other 9]) 0 (by decide) rfl⟩

/-! ### Annotations of PrintCode -/

theorem PrintCodeAnnot_binary_plain (E : CLib) (f : Proto) (pc o a b c ax bx : Nat)
    (sbx : Int)
    (ho : o ∈ [OP_SETTABLE, OP_ADD, OP_SUB, OP_MUL, OP_MOD, OP_POW, OP_DIV, OP_IDIV, OP_BAND,
      OP_BOR, OP_BXOR, OP_SHL, OP_SHR, OP_EQ, OP_LT, OP_LE])
    (hk : ¬ (ISK b ≠ 0 ∨ ISK c ≠ 0)) :
    PrintCodeAnnot E f pc o a b c ax bx sbx = some ("", pc) := by
  simp only [List.mem_cons, List.mem_singleton, List.not_mem_nil, or_false] at ho
  rcases ho with rfl | rfl | rfl | rfl | rfl | rfl | rfl | rfl | rfl | rfl | rfl | rfl | rfl
    | rfl | rfl | rfl <;>
  · simp only [PrintCodeAnnot, OP_SETTABLE, OP_ADD, OP_SUB, OP_MUL, OP_MOD, OP_POW, OP_DIV,
      OP_IDIV, OP_BAND, OP_BOR, OP_BXOR, OP_SHL, OP_SHR, OP_EQ, OP_LT, OP_LE, OP_LOADK,
      OP_GETUPVAL, OP_SETUPVAL, OP_GETTABUP, OP_SETTABUP, OP_GETTABLE, OP_SELF]
    simp [hk]

theorem PrintCodeAnnot_gettable_plain (E : CLib) (f : Proto) (pc o a b c ax bx : Nat)
    (sbx : Int) (ho : o = OP_GETTABLE ∨ o = OP_SELF) (hk : ¬ ISK c ≠ 0) :
    PrintCodeAnnot E f pc o a b c ax bx sbx = some ("", pc) := by
  rcases ho with rfl | rfl <;>
  simp [PrintCodeAnnot, OP_GETTABLE, OP_SELF, OP_SETTABUP, OP_GETTABUP, OP_LOADK, OP_GETUPVAL,
    OP_SETUPVAL, hk]

/-- C14, as stated, fails for OP_GETTABLE (and OP_SELF): with B a register and C the
constant 0, the annotation is the constant alone ("; 7"); it has no entry "-" for B. -/
theorem PrintCode_gettable_annot_alone :
    GET_OPCODE (CREATE_ABC OP_GETTABLE 0 1 256) = OP_GETTABLE
      ∧ GETARG_B (CREATE_ABC OP_GETTABLE 0 1 256) = 1
      ∧ GETARG_C (CREATE_ABC OP_GETTABLE 0 1 256) = 256
      ∧ ISK 1 = 0 ∧ ISK 256 ≠ 0
      ∧ PrintCode sampleLib (sampleProto [CREATE_ABC OP_GETTABLE 0 1 256] [.numint 7])
          = some "\t1\t[-]\tGETTABLE \t0 1 -1\t; 7\n"
      ∧ PrintCodeAnnot sampleLib (sampleProto [CREATE_ABC OP_GETTABLE 0 1 256] [.numint 7])
          0 OP_GETTABLE 0 1 256 0 0 0 = some ("\t; 7", 0)
      ∧ some ("\t; 7", 0) ≠ some ("\t; - 7", 0) := by
  decide

/-- C14, amended: for OP_SETTABLE, the arithmetic opcodes OP_ADD..OP_SHR and the
comparisons OP_EQ, OP_LT, OP_LE, PrintCode emits an annotation if and only if at least one
of B, C is constant-flagged, and the annotation then has one entry for B and one for C, in
that order, each the rendered constant if the operand is constant-flagged and "-" if not.
For OP_GETTABLE and OP_SELF it emits an annotation if and only if C is constant-flagged,
and the annotation is then the rendered constant of C alone. -/
theorem PrintCode_operand_annot (E : CLib) (f : Proto) (pc o a b c ax bx : Nat)
    (sbx : Int) :
    (o ∈ [OP_SETTABLE, OP_ADD, OP_SUB, OP_MUL, OP_MOD, OP_POW, OP_DIV, OP_IDIV, OP_BAND,
          OP_BOR, OP_BXOR, OP_SHL, OP_SHR, OP_EQ, OP_LT, OP_LE] →
        PrintCodeAnnot E f pc o a b c ax bx sbx
          = if ISK b ≠ 0 ∨ ISK c ≠ 0 then
              (if ISK b ≠ 0 then PrintConstant E f (INDEXK b) else some "-").bind (fun kb =>
                (if ISK c ≠ 0 then PrintConstant E f (INDEXK c) else some "-").bind (fun kc =>
                  some ("\t; " ++ kb ++ " " ++ kc, pc)))
            else some ("", pc))
      ∧ (o = OP_GETTABLE ∨ o = OP_SELF →
        PrintCodeAnnot E f pc o a b c ax bx sbx
          = if ISK c ≠ 0 then
              (PrintConstant E f (INDEXK c)).bind (fun kc => some ("\t; " ++ kc, pc))
            else some ("", pc)) := by
  constructor
  · intro ho
    by_cases hk : ISK b ≠ 0 ∨ ISK c ≠ 0
    · rw [if_pos hk, PrintCodeAnnot_binary E f pc o a b c ax bx sbx ho hk]
      rfl
    · rw [if_neg hk, PrintCodeAnnot_binary_plain E f pc o a b c ax bx sbx ho hk]
  · intro ho
    by_cases hk : ISK c ≠ 0
    · rw [if_pos hk, PrintCodeAnnot_gettable E f pc o a b c ax bx sbx ho hk]
    · rw [if_neg hk, PrintCodeAnnot_gettable_plain E f pc o a b c ax bx sbx ho hk]

/-- Witness of C14, amended: OP_EQ with B the constant 1 and C the register 2, and
OP_SELF with C the constant 0. -/
theorem PrintCode_operand_annot_witness :
    OP_EQ ∈ [OP_SETTABLE, OP_ADD, OP_SUB, OP_MUL, OP_MOD, OP_POW, OP_DIV, OP_IDIV, OP_BAND,
          OP_BOR, OP_BXOR, OP_SHL, OP_SHR, OP_EQ, OP_LT, OP_LE]
      ∧ PrintCodeAnnot sampleLib (sampleProto [] [.numint 7, .nil]) 0 OP_EQ 0 257 2 0 0 0
          = (if ISK 257 ≠ 0 ∨ ISK 2 ≠ 0 then
              (if ISK 257 ≠ 0 then PrintConstant sampleLib (sampleProto [] [.numint 7, .nil])
                  (INDEXK 257) else some "-").bind (fun kb =>
                (if ISK 2 ≠ 0 then PrintConstant sampleLib (sampleProto [] [.numint 7, .nil])
                    (INDEXK 2) else some "-").bind (fun kc =>
                  some ("\t; " ++ kb ++ " " ++ kc, 0)))
            else some ("", 0))
      ∧ PrintCodeAnnot sampleLib (sampleProto [] [.numint 7, .nil]) 0 OP_EQ 0 257 2 0 0 0
          = some ("\t; nil -", 0)
      ∧ PrintCodeAnnot sampleLib (sampleProto [] [.numint 7, .nil]) 0 OP_SELF 0 1 256 0 0 0
          = (if ISK 256 ≠ 0 then
              (PrintConstant sampleLib (sampleProto [] [.numint 7, .nil]) (INDEXK 256)).bind
                (fun kc => some ("\t; " ++ kc, 0))
            else some ("", 0)) :=
  ⟨by decide,
    (PrintCode_operand_annot sampleLib (sampleProto [] [.numint 7, .nil]) 0 OP_EQ 0 257 2
      0 0 0).1 (by decide),
    by decide,
    (PrintCode_operand_annot sampleLib (sampleProto [] [.numint 7, .nil]) 0 OP_SELF 0 1
      256 0 0 0).2 (Or.inr rfl)⟩

/-- C15, as stated, fails for OP_SETTABUP: with the key B and the value C both constants,
the annotation is the upvalue name, the key and also the value constant
("; _ENV \"x\" 5"). -/
theorem PrintCode_settabup_annot_value :
    GET_OPCODE (CREATE_ABC OP_SETTABUP 0 256 257) = OP_SETTABUP
      ∧ GETARG_B (CREATE_ABC OP_SETTABUP 0 256 257) = 256
      ∧ GETARG_C (CREATE_ABC OP_SETTABUP 0 256 257) = 257
      ∧ PrintCode sampleLib
          (sampleProtoEnv [CREATE_ABC OP_SETTABUP 0 256 257] [.shrstr [120], .numint 5])
        = some "\t1\t[-]\tSETTABUP \t0 -1 -2\t; _ENV \"x\" 5\n"
      ∧ PrintCodeAnnot sampleLib
          (sampleProtoEnv [CREATE_ABC OP_SETTABUP 0 256 257] [.shrstr [120], .numint 5])
          0 OP_SETTABUP 0 256 257 0 0 0 = some ("\t; _ENV \"x\" 5", 0)
      ∧ some ("\t; _ENV \"x\" 5", 0) ≠ some ("\t; _ENV \"x\"", 0) := by
  decide

/-- C15, amended: for OP_GETTABUP the annotation is the name of upvalue B ("-" if the
descriptor has no name), followed by a blank and the rendered key constant if and only if
the key operand C is constant-flagged, and nothing else.  For OP_SETTABUP it is the name of
upvalue A ("-" if it has none), followed by the rendered key constant if and only if the
key operand B is constant-flagged, and then by the rendered value constant if and only if
the value operand C is constant-flagged. -/
theorem PrintCode_tabup_annot (E : CLib) (f : Proto) (pc a b c ax bx : Nat) (sbx : Int)
    (u : Upvaldesc) :
    (f.upvalues[b]? = some u →
        PrintCodeAnnot E f pc OP_GETTABUP a b c ax bx sbx
          = (if ISK c ≠ 0 then (PrintConstant E f (INDEXK c)).map (fun s => " " ++ s)
              else some "").bind (fun kc =>
              some ("\t; " ++ (match u.name with
                                | some nm => fmt_s nm
                                | none => "-") ++ kc, pc)))
      ∧ (f.upvalues[a]? = some u →
        PrintCodeAnnot E f pc OP_SETTABUP a b c ax bx sbx
          = (if ISK b ≠ 0 then (PrintConstant E f (INDEXK b)).map (fun s => " " ++ s)
              else some "").bind (fun kb =>
              (if ISK c ≠ 0 then (PrintConstant E f (INDEXK c)).map (fun s => " " ++ s)
                else some "").bind (fun kc =>
                some ("\t; " ++ (match u.name with
                                  | some nm => fmt_s nm
                                  | none => "-") ++ kb ++ kc, pc)))) := by
  constructor
  · intro hu
    rw [PrintCodeAnnot_gettabup]
    simp only [UPVALNAME, hu, Option.map_some', Option.some_bind]
    rfl
  · intro hu
    rw [PrintCodeAnnot_settabup]
    simp only [UPVALNAME, hu, Option.map_some', Option.some_bind]
    rfl

/-- Witness of C15, amended: OP_GETTABUP on _ENV with the constant key 0. -/
theorem PrintCode_tabup_annot_witness :
    (sampleProtoEnv [] [.shrstr [120], .numint 5]).upvalues[0]?
        = some { name := some ("_ENV".data.map Char.toNat), instack := 1, idx := 0 }
      ∧ PrintCodeAnnot sampleLib (sampleProtoEnv [] [.shrstr [120], .numint 5]) 0 OP_GETTABUP 0
          0 256 0 0 0 = some ("\t; _ENV \"x\"", 0)
      ∧ PrintCodeAnnot sampleLib (sampleProtoEnv [] [.shrstr [120], .numint 5]) 0 OP_GETTABUP 0
          0 256 0 0 0
        = (if ISK 256 ≠ 0 then
              (PrintConstant sampleLib (sampleProtoEnv [] [.shrstr [120], .numint 5])
                (INDEXK 256)).map (fun s => " " ++ s)
            else some "").bind (fun kc =>
              some ("\t; " ++ (match (some ("_ENV".data.map Char.toNat) : Option TString) with
                                | some nm => fmt_s nm
                                | none => "-") ++ kc, 0)) :=
  ⟨rfl, by decide,
    (PrintCode_tabup_annot sampleLib (sampleProtoEnv [] [.shrstr [120], .numint 5]) 0 0 0
      256 0 0 0 { name := some ("_ENV".data.map Char.toNat), instack := 1, idx := 0 }).1 rfl⟩

/-! ### reader -/

theorem readerCalls_succ (m n : Nat) :
    readerCalls (m + 1) ((n + 1 : Nat) : Int)
      = (some FUNCTION, FUNCTION.length) :: readerCalls m (n : Int) := by
  have h1 : ((n + 1 : Nat) : Int) ≠ 0 := by omega
  have h2 : ((n + 1 : Nat) : Int) - 1 = (n : Int) := by omega
  have hr : reader ((n + 1 : Nat) : Int) = (some FUNCTION, FUNCTION.length, (n : Int)) := by
    unfold reader
    rw [if_pos h1, h2]
  rw [readerCalls, hr]

/-- C18: for every n ≥ 0, the reader started with its counter at n delivers the text
"(function()end)();" (with its length as size) on each of its first n calls and signals the
end of the input (NULL, size 0) on call n + 1, so that the pieces lua_load reads are exactly
n copies of that text; the end call decrements the counter too (it is left at -1), and a
further call delivers the text again. -/
theorem reader_counter (n : Nat) :
    FUNCTION = "(function()end)();"
      ∧ readerCalls (n + 2) (n : Int)
          = List.replicate n (some FUNCTION, FUNCTION.length)
              ++ [(none, 0), (some FUNCTION, FUNCTION.length)]
      ∧ readPieces (n + 1) (n : Int) = some (List.replicate n FUNCTION, -1)
      ∧ reader (-1) = (some FUNCTION, FUNCTION.length, -2) := by
  refine ⟨rfl, ?_, readPieces_counter n, by decide⟩
  induction n with
  | zero => decide
  | succ m ih =>
    rw [show m + 1 + 2 = (m + 2) + 1 from rfl, readerCalls_succ, ih]
    rfl

/-! ### PrintHeader -/

/-- C16, as stated, fails for the two kinds of unnamed source: for a precompiled chunk
(name starting with the signature byte 27) the header shows "(bstring)", and for a string
chunk it shows "(string)", not the name without its first byte. -/
theorem PrintHeader_unnamed_source :
    PrintHeaderSource [27, 76, 117, 97] = "(bstring)"
      ∧ fmt_s [76, 117, 97] = "Lua"
      ∧ PrintHeaderSource ("x=1".data.map Char.toNat) = "(string)"
      ∧ fmt_s ("=1".data.map Char.toNat) = "=1"
      ∧ PrintHeader sampleLib { sampleMain with source := some [27, 76, 117, 97] }
          = "\nmain <(bstring):0,0> (1 instruction at 0x0)\n"
            ++ "0+ params, 2 slots, 1 upvalue, 0 locals, 0 constants, 0 functions\n"
      ∧ "(bstring)" ≠ "Lua" ∧ "(string)" ≠ "=1" := by
  decide

theorem PrintHeader_split (E : CLib) (f : Proto) :
    ∃ tail, PrintHeader E f
      = "\n" ++ (if f.linedefined = 0 then "main" else "function") ++ " <"
          ++ PrintHeaderSource (match f.source with
                                | some ts => ts
                                | none => "=?".data.map Char.toNat)
          ++ ":" ++ tail := by
  refine ⟨fmt_d f.linedefined ++ "," ++ fmt_d f.lastlinedefined
    ++ "> (" ++ fmt_d f.sizecode ++ " instruction" ++ SS f.sizecode
    ++ " at " ++ E.pointer_fmt f.addr ++ ")\n"
    ++ fmt_d f.numparams ++ (if f.is_vararg ≠ 0 then "+" else "")
    ++ " param" ++ SS f.numparams
    ++ ", " ++ fmt_d f.maxstacksize ++ " slot" ++ SS f.maxstacksize
    ++ ", " ++ fmt_d f.sizeupvalues ++ " upvalue" ++ SS f.sizeupvalues ++ ", "
    ++ fmt_d f.sizelocvars ++ " local" ++ SS f.sizelocvars
    ++ ", " ++ fmt_d f.sizek ++ " constant" ++ SS f.sizek
    ++ ", " ++ fmt_d f.sizep ++ " function" ++ SS f.sizep ++ "\n", ?_⟩
  simp only [PrintHeader, String.append_assoc]

/-- C16, amended: in the header printed by PrintHeader the role shown is "main" exactly
when the defining line is 0, otherwise "function"; the source identity shown is the source
name with its single leading marker byte removed when that byte is '@' or '=' (a named
source), the fixed text "(bstring)" when the name starts with the binary signature byte,
the fixed text "(string)" for any other name, and "?" when the prototype has no source. -/
theorem PrintHeader_source_and_role (E : CLib) (f : Proto) :
    (∃ tail, PrintHeader E f
        = "\n" ++ (if f.linedefined = 0 then "main" else "function") ++ " <"
            ++ PrintHeaderSource (match f.source with
                                  | some ts => ts
                                  | none => "=?".data.map Char.toNat)
            ++ ":" ++ tail)
      ∧ (∀ (m : Nat) (rest : TString), m % 256 = 64 ∨ m % 256 = 61 →
          PrintHeaderSource (m :: rest) = fmt_s rest)
      ∧ (∀ (m : Nat) (rest : TString), m % 256 = LUA_SIGNATURE_0 →
          PrintHeaderSource (m :: rest) = "(bstring)")
      ∧ (∀ (m : Nat) (rest : TString), m % 256 ≠ 64 → m % 256 ≠ 61 →
          m % 256 ≠ LUA_SIGNATURE_0 → PrintHeaderSource (m :: rest) = "(string)")
      ∧ PrintHeaderSource [] = "(string)"
      ∧ PrintHeaderSource ("=?".data.map Char.toNat) = "?" := by
  refine ⟨PrintHeader_split E f, ?_, ?_, ?_, by decide, by decide⟩
  · intro m rest h
    simp [PrintHeaderSource, h]
  · intro m rest h
    have h1 : ¬ (m % 256 = 64 ∨ m % 256 = 61) := by
      rw [h]; decide
    unfold PrintHeaderSource
    simp only [List.head?_cons, Option.getD_some]
    rw [if_neg h1, if_pos h]
  · intro m rest h1 h2 h3
    simp [PrintHeaderSource, h1, h2, h3]

/-- Witness of C16, amended: the source "@a.lua" of the sample main prototype. -/
theorem PrintHeader_source_and_role_witness :
    (64 % 256 = 64 ∨ 64 % 256 = 61)
      ∧ PrintHeaderSource (64 :: "a.lua".data.map Char.toNat)
          = fmt_s ("a.lua".data.map Char.toNat)
      ∧ PrintHeader sampleLib sampleMain
          = "\nmain <a.lua:0,0> (1 instruction at 0x0)\n"
            ++ "0+ params, 2 slots, 1 upvalue, 0 locals, 0 constants, 0 functions\n" :=
  ⟨by decide,
    (PrintHeader_source_and_role sampleLib sampleMain).2.1 64 ("a.lua".data.map Char.toNat)
      (by decide),
    by decide⟩

/-! ### PrintFunction -/

theorem PrintFunction_eq (E : CLib) (full : Bool) (f : Proto) :
    PrintFunction E full f
      = (PrintFunctionOwn E full f).bind (fun own =>
          (PrintFunctionLoop E full f.sizep f.p).bind (fun r => some (own ++ r))) := by
  cases f
  rw [PrintFunction]
  rfl

theorem preorder_eq (f : Proto) : preorder f = f :: preorderList f.p := by
  cases f
  rw [preorder]

theorem protoCount_eq (f : Proto) : protoCount f = 1 + protoCountList f.p := by
  cases f
  rw [protoCount]

theorem PrintOwnAll_append (E : CLib) (full : Bool) (l1 l2 : List Proto) :
    PrintOwnAll E full (l1 ++ l2)
      = (PrintOwnAll E full l1).bind (fun a =>
          (PrintOwnAll E full l2).bind (fun b => some (a ++ b))) := by
  induction l1 with
  | nil =>
    simp only [List.nil_append, PrintOwnAll, Option.some_bind]
    cases PrintOwnAll E full l2 <;> simp
  | cons g gs ih =>
    rw [List.cons_append, PrintOwnAll, PrintOwnAll, ih]
    cases PrintFunctionOwn E full g <;> cases PrintOwnAll E full gs <;>
      cases PrintOwnAll E full l2 <;> simp [String.append_assoc]
theorem PrintFunction_preorder_aux (E : CLib) (full : Bool) (f : Proto) :
    (∀ g ∈ preorder f, g.sizep = g.p.length) →
        PrintFunction E full f = PrintOwnAll E full (preorder f) := by
  refine Proto.rec
      (motive_1 := fun f => (∀ g ∈ preorder f, g.sizep = g.p.length) →
        PrintFunction E full f = PrintOwnAll E full (preorder f))
      (motive_2 := fun qs => (∀ g ∈ preorderList qs, g.sizep = g.p.length) →
        PrintFunctionLoop E full qs.length qs = PrintOwnAll E full (preorderList qs))
      ?_ ?_ ?_ f
  · intro numparams is_vararg maxstacksize sizeupvalues sizek sizecode sizelineinfo sizep
      sizelocvars linedefined lastlinedefined k code p lineinfo locvars upvalues source addr ih h
    rw [preorder_eq] at h ⊢
    have hroot := h _ (List.mem_cons_self _ _)
    have hsub := ih (fun g hg => h g (List.mem_cons_of_mem _ hg))
    simp only at hroot hsub
    rw [PrintFunction_eq, PrintOwnAll]
    simp only [hroot, hsub, Option.bind_eq_bind]
  · intro _
    rfl
  · intro q qs ihq ihqs h
    rw [preorderList] at h ⊢
    have h1 := ihq (fun g hg => h g (List.mem_append_left _ hg))
    have h2 := ihqs (fun g hg => h g (List.mem_append_right _ hg))
    rw [List.length_cons, PrintFunctionLoop, h1, h2, PrintOwnAll_append]
    rfl

theorem preorder_length (f : Proto) : (preorder f).length = protoCount f := by
  refine Proto.rec
      (motive_1 := fun f => (preorder f).length = protoCount f)
      (motive_2 := fun qs => (preorderList qs).length = protoCountList qs)
      ?_ ?_ ?_ f
  · intro numparams is_vararg maxstacksize sizeupvalues sizek sizecode sizelineinfo sizep
      sizelocvars linedefined lastlinedefined k code p lineinfo locvars upvalues source addr ih
    rw [preorder_eq, protoCount_eq, List.length_cons]
    simp only at ih ⊢
    omega
  · rfl
  · intro q qs ihq ihqs
    rw [preorderList, protoCountList, List.length_append, ihq, ihqs]

theorem preorderList_eq_join (qs : List Proto) :
    preorderList qs = (qs.map preorder).flatten := by
  induction qs with
  | nil => rfl
  | cons q qs ih => rw [preorderList, ih]; rfl

theorem PrintOwnAll_isSome (E : CLib) (full : Bool) (l : List Proto)
    (h : ∀ g ∈ l, (PrintFunctionOwn E full g).isSome = true) :
    (PrintOwnAll E full l).isSome = true := by
  induction l with
  | nil => rfl
  | cons g gs ih =>
    have h1 := h g (List.mem_cons_self _ _)
    have h2 := ih (fun x hx => h x (List.mem_cons_of_mem _ hx))
    rw [PrintOwnAll]
    cases hg : PrintFunctionOwn E full g with
    | none => rw [hg] at h1; exact absurd h1 (by simp)
    | some a =>
      cases hs : PrintOwnAll E full gs with
      | none => rw [hs] at h2; exact absurd h2 (by simp)
      | some b => rfl
theorem PrintFunctionOwn_eq_some (E : CLib) (full : Bool) (g : Proto) (a : String) :
    PrintFunctionOwn E full g = some a
      ↔ ∃ c d, PrintCode E g = some c
          ∧ (if full = true then PrintDebug E g else some "") = some d
          ∧ a = PrintHeader E g ++ c ++ d := by
  unfold PrintFunctionOwn
  cases hc : PrintCode E g with
  | none => simp
  | some c =>
    cases hd : (if full = true then PrintDebug E g else some "") with
    | none => simp
    | some d =>
      simp only [Option.some_bind, Option.some.injEq]
      constructor
      · intro h
        exact ⟨c, d, rfl, rfl, h.symm⟩
      · rintro ⟨c2, d2, h1, h2, h3⟩
        subst h1 h2
        exact h3.symm

theorem PrintOwnAll_blocks (E : CLib) (full : Bool) (l : List Proto) :
    ∀ out, PrintOwnAll E full l = some out
      ↔ ∃ bs, List.Forall₂ (fun g b => ∃ c d, PrintCode E g = some c
                  ∧ (if full = true then PrintDebug E g else some "") = some d
                  ∧ b = PrintHeader E g ++ c ++ d) l bs
            ∧ out = concatBlocks bs := by
  induction l with
  | nil =>
    intro out
    rw [PrintOwnAll]
    constructor
    · intro h
      simp only [Option.some.injEq] at h
      exact ⟨[], List.Forall₂.nil, h.symm⟩
    · rintro ⟨bs, hbs, hout⟩
      cases hbs
      rw [hout]
      rfl
  | cons g gs ih =>
    intro out
    rw [PrintOwnAll]
    constructor
    · intro h
      cases ha : PrintFunctionOwn E full g with
      | none => rw [ha] at h; exact absurd h (by simp)
      | some a =>
        cases hb : PrintOwnAll E full gs with
        | none => rw [ha, hb] at h; exact absurd h (by simp)
        | some b =>
          rw [ha, hb] at h
          simp only [Option.bind_eq_bind, Option.some_bind, Option.some.injEq] at h
          obtain ⟨bs, hbs, hbo⟩ := (ih b).mp hb
          refine ⟨a :: bs, List.Forall₂.cons ((PrintFunctionOwn_eq_some E full g a).mp ha) hbs,
            ?_⟩
          rw [← h, hbo]
          rfl
    · rintro ⟨bs, hbs, hout⟩
      cases hbs with
      | cons hab hrest =>
        rename_i b bs2
        have ha := (PrintFunctionOwn_eq_some E full g b).mpr hab
        have hb := (ih (concatBlocks bs2)).mpr ⟨bs2, hrest, rfl⟩
        rw [ha, hb, hout]
        rfl

theorem PrintHeader_addr (E : CLib) (g : Proto) :
    ∃ pre post, PrintHeader E g
      = "\n" ++ (if g.linedefined = 0 then "main" else "function") ++ " <" ++ pre
          ++ " at " ++ E.pointer_fmt g.addr ++ ")\n" ++ post := by
  refine ⟨PrintHeaderSource (match g.source with
                              | some ts => ts
                              | none => "=?".data.map Char.toNat)
      ++ ":" ++ fmt_d g.linedefined ++ "," ++ fmt_d g.lastlinedefined
      ++ "> (" ++ fmt_d g.sizecode ++ " instruction" ++ SS g.sizecode,
    fmt_d g.numparams ++ (if g.is_vararg ≠ 0 then "+" else "")
      ++ " param" ++ SS g.numparams
      ++ ", " ++ fmt_d g.maxstacksize ++ " slot" ++ SS g.maxstacksize
      ++ ", " ++ fmt_d g.sizeupvalues ++ " upvalue" ++ SS g.sizeupvalues ++ ", "
      ++ fmt_d g.sizelocvars ++ " local" ++ SS g.sizelocvars
      ++ ", " ++ fmt_d g.sizek ++ " constant" ++ SS g.sizek
      ++ ", " ++ fmt_d g.sizep ++ " function" ++ SS g.sizep ++ "\n", ?_⟩
  simp only [PrintHeader, String.append_assoc]

theorem PrintDebug_tables (E : CLib) (g : Proto) (d : String) (h : PrintDebug E g = some d) :
    ∃ ks ls us, d
      = "constants (" ++ fmt_d g.sizek ++ ") for " ++ E.pointer_fmt g.addr ++ ":\n" ++ ks
          ++ "locals (" ++ fmt_d g.sizelocvars ++ ") for " ++ E.pointer_fmt g.addr ++ ":\n" ++ ls
          ++ "upvalues (" ++ fmt_d g.sizeupvalues ++ ") for " ++ E.pointer_fmt g.addr ++ ":\n"
          ++ us := by
  unfold PrintDebug at h
  simp only [Option.bind_eq_bind] at h
  cases hk : forRange (fun i =>
      (PrintConstant E g i).map (fun s => "\t" ++ fmt_d ((i : Int) + 1) ++ "\t" ++ s ++ "\n"))
      g.sizek 0 with
  | none => rw [hk] at h; exact absurd h (by simp)
  | some ks =>
    rw [hk] at h
    simp only [Option.some_bind] at h
    cases hl : forRange (fun i =>
        (g.locvars[i]?).map (fun v => "\t" ++ fmt_d i ++ "\t" ++ fmt_s v.varname
          ++ "\t" ++ fmt_d (v.startpc + 1) ++ "\t" ++ fmt_d (v.endpc + 1) ++ "\n"))
        g.sizelocvars 0 with
    | none => rw [hl] at h; exact absurd h (by simp)
    | some ls =>
      rw [hl] at h
      simp only [Option.some_bind] at h
      cases hu : forRange (fun i =>
          (g.upvalues[i]?).bind (fun u => (UPVALNAME g i).map (fun nm =>
            "\t" ++ fmt_d i ++ "\t" ++ nm ++ "\t" ++ fmt_d u.instack ++ "\t" ++ fmt_d u.idx
              ++ "\n")))
          g.sizeupvalues 0 with
      | none => rw [hu] at h; exact absurd h (by simp)
      | some us =>
        rw [hu] at h
        simp only [Option.some_bind, Option.some.injEq] at h
        exact ⟨ks, ls, us, h.symm⟩

/-- C12: for every prototype tree `f` (each `sizep` being the size of its array `p`),
PrintFunction(f, full) is defined by recursion on the tree, hence terminates, and it prints
a text exactly when every prototype of the tree, taken in pre-order, prints its own block;
the text is then these blocks one after the other, one block for each prototype of the
pre-order enumeration.  The block of a prototype is its header, then its whole listing, then
(if `full`) its debug tables and nothing otherwise; the header starts with a newline and the
role and carries the address of the prototype, and the debug tables are the three tables of
constants, locals and upvalues under their title lines.  The pre-order enumeration is the
prototype followed by the enumerations of its nested prototypes in list order; its length,
the number of blocks and of headers, is the number of prototypes of the tree. -/
theorem PrintFunction_preorder (E : CLib) (full : Bool) (f : Proto)
    (hsize : ∀ g ∈ preorder f, g.sizep = g.p.length) :
    (∀ out, PrintFunction E full f = some out
        ↔ ∃ bs, List.Forall₂ (fun g b => ∃ c d, PrintCode E g = some c
                    ∧ (if full = true then PrintDebug E g else some "") = some d
                    ∧ b = PrintHeader E g ++ c ++ d) (preorder f) bs
              ∧ out = concatBlocks bs)
      ∧ (∀ bs, List.Forall₂ (fun g b => ∃ c d, PrintCode E g = some c
                    ∧ (if full = true then PrintDebug E g else some "") = some d
                    ∧ b = PrintHeader E g ++ c ++ d) (preorder f) bs →
            bs.length = protoCount f)
      ∧ preorder f = f :: (f.p.map preorder).flatten
      ∧ (preorder f).length = protoCount f
      ∧ protoCount f = 1 + (f.p.map protoCount).sum
      ∧ (∀ g, ∃ pre post, PrintHeader E g
          = "\n" ++ (if g.linedefined = 0 then "main" else "function") ++ " <" ++ pre
              ++ " at " ++ E.pointer_fmt g.addr ++ ")\n" ++ post)
      ∧ (∀ g d, PrintDebug E g = some d → ∃ ks ls us, d
          = "constants (" ++ fmt_d g.sizek ++ ") for " ++ E.pointer_fmt g.addr ++ ":\n" ++ ks
              ++ "locals (" ++ fmt_d g.sizelocvars ++ ") for " ++ E.pointer_fmt g.addr ++ ":\n"
              ++ ls
              ++ "upvalues (" ++ fmt_d g.sizeupvalues ++ ") for " ++ E.pointer_fmt g.addr
              ++ ":\n" ++ us)
      ∧ ((∀ g ∈ preorder f, (PrintCode E g).isSome = true
            ∧ (full = true → (PrintDebug E g).isSome = true)) →
          (PrintFunction E full f).isSome = true) := by
  have haux := PrintFunction_preorder_aux E full f hsize
  refine ⟨?_, ?_, ?_, preorder_length f, ?_, PrintHeader_addr E, PrintDebug_tables E, ?_⟩
  · intro out
    rw [haux]
    exact PrintOwnAll_blocks E full (preorder f) out
  · intro bs h
    rw [← h.length_eq, preorder_length]
  · rw [preorder_eq, preorderList_eq_join]
  · rw [protoCount_eq]
    congr 1
    generalize f.p = qs
    induction qs with
    | nil => rfl
    | cons q qs ih => rw [protoCountList, ih]; rfl
  · intro h
    rw [haux]
    apply PrintOwnAll_isSome
    intro g hg
    obtain ⟨h1, h2⟩ := h g hg
    unfold PrintFunctionOwn
    cases hc : PrintCode E g with
    | none => rw [hc] at h1; exact absurd h1 (by simp)
    | some c =>
      cases full with
      | false => rfl
      | true =>
        have h3 := h2 rfl
        cases hd : PrintDebug E g with
        | none => rw [hd] at h3; exact absurd h3 (by simp)
        | some d => rfl

theorem preorder_sampleTree :
    preorder sampleTree = [sampleTree, sampleInner, sampleLeaf, sampleSecond] := rfl

set_option maxRecDepth 10000 in
/-- Witness of C12: a tree of four distinct prototypes at four addresses, a main function
with two nested functions of which the first has a nested function of its own.  In full mode
the text is four blocks in pre-order, each with its header, its listing and its debug
tables. -/
theorem PrintFunction_preorder_witness :
    (∀ g ∈ preorder sampleTree, g.sizep = g.p.length)
      ∧ (preorder sampleTree).map (fun g => g.addr) = [0x10, 0x20, 0x30, 0x40]
      ∧ protoCount sampleTree = 4
      ∧ PrintFunction sampleLib true sampleTree
        = some (concatBlocks
            ["\nmain <t.lua:0,0> (3 instructions at 0x10)\n"
              ++ "0+ params, 2 slots, 1 upvalue, 0 locals, 0 constants, 2 functions\n"
              ++ "\t1\t[3]\tCLOSURE  \t0 0\t; 0x20\n"
              ++ "\t2\t[5]\tCLOSURE  \t1 1\t; 0x40\n"
              ++ "\t3\t[5]\tRETURN   \t0 1\n"
              ++ "constants (0) for 0x10:\n"
              ++ "locals (0) for 0x10:\n"
              ++ "upvalues (1) for 0x10:\n"
              ++ "\t0\t_ENV\t1\t0\n",
             "\nfunction <t.lua:1,3> (2 instructions at 0x20)\n"
              ++ "0 params, 2 slots, 1 upvalue, 0 locals, 0 constants, 1 function\n"
              ++ "\t1\t[2]\tCLOSURE  \t0 0\t; 0x30\n"
              ++ "\t2\t[3]\tRETURN   \t0 2\n"
              ++ "constants (0) for 0x20:\n"
              ++ "locals (0) for 0x20:\n"
              ++ "upvalues (1) for 0x20:\n"
              ++ "\t0\t_ENV\t0\t0\n",
             "\nfunction <t.lua:2,2> (1 instruction at 0x30)\n"
              ++ "1 param, 2 slots, 0 upvalues, 1 local, 0 constants, 0 functions\n"
              ++ "\t1\t[2]\tRETURN   \t0 1\n"
              ++ "constants (0) for 0x30:\n"
              ++ "locals (1) for 0x30:\n"
              ++ "\t0\tx\t1\t2\n"
              ++ "upvalues (0) for 0x30:\n",
             "\nfunction <t.lua:5,5> (2 instructions at 0x40)\n"
              ++ "0 params, 2 slots, 0 upvalues, 0 locals, 1 constant, 0 functions\n"
              ++ "\t1\t[5]\tLOADK    \t0 -1\t; 7\n"
              ++ "\t2\t[5]\tRETURN   \t0 2\n"
              ++ "constants (1) for 0x40:\n"
              ++ "\t1\t7\n"
              ++ "locals (0) for 0x40:\n"
              ++ "upvalues (0) for 0x40:\n"])
      ∧ (PrintFunction sampleLib false sampleTree).isSome = true :=
  have h := PrintFunction_preorder sampleLib true sampleTree (by decide)
  have h2 := PrintFunction_preorder sampleLib false sampleTree (by decide)
  ⟨by decide, by decide, by decide,
    (h.1 _).mpr ⟨_, by
      rw [preorder_sampleTree]
      exact List.Forall₂.cons
        ((PrintFunctionOwn_eq_some sampleLib true sampleTree _).mp (by decide))
        (List.Forall₂.cons
          ((PrintFunctionOwn_eq_some sampleLib true sampleInner _).mp (by decide))
          (List.Forall₂.cons
            ((PrintFunctionOwn_eq_some sampleLib true sampleLeaf _).mp (by decide))
            (List.Forall₂.cons
              ((PrintFunctionOwn_eq_some sampleLib true sampleSecond _).mp (by decide))
              List.Forall₂.nil))), rfl⟩,
    h2.2.2.2.2.2.2.2 (by decide)⟩

/-! ### The cursor of PrintCode -/

theorem PrintCodeLoop_eq_lines (E : CLib) (f : Proto) (fuel : Nat) :
    ∀ pc, PrintCodeLoop E f fuel pc = (PrintCodeLinesLoop E f fuel pc).map concatLines := by
  induction fuel with
  | zero =>
    intro pc
    simp only [PrintCodeLoop, PrintCodeLinesLoop]
    split <;> rfl
  | succ fuel ih =>
    intro pc
    simp only [PrintCodeLoop, PrintCodeLinesLoop]
    split
    · cases PrintCodeStep E f pc with
      | none => rfl
      | some r =>
        obtain ⟨line, pc1⟩ := r
        simp only [Option.bind_eq_bind, Option.some_bind, ih]
        cases PrintCodeLinesLoop E f fuel (pc1 + 1) <;> rfl
    · rfl

theorem PrintCodeAnnot_setlist (E : CLib) (f : Proto) (pc a b c ax bx : Nat) (sbx : Int) :
    PrintCodeAnnot E f pc OP_SETLIST a b c ax bx sbx
      = if c = 0 then (f.code[pc + 1]?).bind (fun w => some ("\t; " ++ fmt_d (toInt32 w), pc + 1))
        else some ("\t; " ++ fmt_d c, pc) := by
  simp [PrintCodeAnnot, OP_SETLIST, OP_LOADK, OP_GETUPVAL, OP_SETUPVAL, OP_GETTABUP,
    OP_SETTABUP, OP_GETTABLE, OP_SELF, OP_SETTABLE, OP_ADD, OP_SUB, OP_MUL, OP_MOD, OP_POW,
    OP_DIV, OP_IDIV, OP_BAND, OP_BOR, OP_BXOR, OP_SHL, OP_SHR, OP_EQ, OP_LT, OP_LE, OP_JMP,
    OP_FORLOOP, OP_FORPREP, OP_TFORLOOP, OP_CLOSURE]

theorem PrintCodeAnnot_pc (E : CLib) (f : Proto) (pc o a b c ax bx : Nat) (sbx : Int)
    (s : String) (pc1 : Nat) (h : PrintCodeAnnot E f pc o a b c ax bx sbx = some (s, pc1)) :
    pc1 = if o = OP_SETLIST ∧ c = 0 then pc + 1 else pc := by
  by_cases ho : o = OP_SETLIST
  · subst ho
    rw [PrintCodeAnnot_setlist] at h
    by_cases hc : c = 0
    · rw [if_pos hc] at h
      rw [if_pos ⟨rfl, hc⟩]
      cases hw : f.code[pc + 1]? with
      | none => rw [hw] at h; exact absurd h (by simp)
      | some w =>
        rw [hw] at h
        simp only [Option.some_bind, Option.some.injEq, Prod.mk.injEq] at h
        exact h.2.symm
    · rw [if_neg hc] at h
      rw [if_neg (fun hh => hc hh.2)]
      simp only [Option.some.injEq, Prod.mk.injEq] at h
      exact h.2.symm
  · rw [if_neg (fun hh => ho hh.1)]
    have hb1 : ∀ {α : Type} (x : Option α) (g : α → String),
        x.bind (fun v => some (g v, pc)) = some (s, pc1) → pc1 = pc := by
      intro α x g hx
      cases x with
      | none => exact absurd hx (by simp)
      | some v =>
        simp only [Option.some_bind, Option.some.injEq, Prod.mk.injEq] at hx
        exact hx.2.symm
    have hb2 : ∀ {α β : Type} (x : Option α) (y : Option β) (g : α → β → String),
        x.bind (fun v => y.bind (fun w => some (g v w, pc))) = some (s, pc1) → pc1 = pc := by
      intro α β x y g hx
      cases x with
      | none => exact absurd hx (by simp)
      | some v => exact hb1 y (g v) hx
    have hb3 : ∀ {α β γ : Type} (x : Option α) (y : Option β) (z : Option γ)
        (g : α → β → γ → String),
        x.bind (fun v => y.bind (fun w => z.bind (fun u => some (g v w u, pc))))
          = some (s, pc1) → pc1 = pc := by
      intro α β γ x y z g hx
      cases x with
      | none => exact absurd hx (by simp)
      | some v => exact hb2 y z (g v) hx
    have hs : ∀ (t : String), some (t, pc) = some (s, pc1) → pc1 = pc := by
      intro t ht
      simp only [Option.some.injEq, Prod.mk.injEq] at ht
      exact ht.2.symm
    unfold PrintCodeAnnot at h
    by_cases h1 : o = OP_LOADK
    · rw [if_pos h1] at h
      exact hb1 _ _ h
    rw [if_neg h1] at h
    by_cases h2 : o = OP_GETUPVAL ∨ o = OP_SETUPVAL
    · rw [if_pos h2] at h
      exact hb1 _ _ h
    rw [if_neg h2] at h
    by_cases h3 : o = OP_GETTABUP
    · rw [if_pos h3] at h
      exact hb2 _ _ _ h
    rw [if_neg h3] at h
    by_cases h4 : o = OP_SETTABUP
    · rw [if_pos h4] at h
      exact hb3 _ _ _ _ h
    rw [if_neg h4] at h
    by_cases h5 : o = OP_GETTABLE ∨ o = OP_SELF
    · rw [if_pos h5] at h
      by_cases hk : ISK c ≠ 0
      · rw [if_pos hk] at h
        exact hb1 _ _ h
      · rw [if_neg hk] at h
        exact hs _ h
    rw [if_neg h5] at h
    by_cases h6 : o = OP_SETTABLE ∨ o = OP_ADD ∨ o = OP_SUB ∨ o = OP_MUL ∨ o = OP_MOD
        ∨ o = OP_POW ∨ o = OP_DIV ∨ o = OP_IDIV ∨ o = OP_BAND ∨ o = OP_BOR ∨ o = OP_BXOR
        ∨ o = OP_SHL ∨ o = OP_SHR ∨ o = OP_EQ ∨ o = OP_LT ∨ o = OP_LE
    · rw [if_pos h6] at h
      by_cases hk : ISK b ≠ 0 ∨ ISK c ≠ 0
      · rw [if_pos hk] at h
        exact hb2 _ _ _ h
      · rw [if_neg hk] at h
        exact hs _ h
    rw [if_neg h6] at h
    by_cases h7 : o = OP_JMP ∨ o = OP_FORLOOP ∨ o = OP_FORPREP ∨ o = OP_TFORLOOP
    · rw [if_pos h7] at h
      exact hs _ h
    rw [if_neg h7] at h
    by_cases h8 : o = OP_CLOSURE
    · rw [if_pos h8] at h
      exact hb1 _ _ h
    rw [if_neg h8, if_neg ho] at h
    by_cases h9 : o = OP_EXTRAARG
    · rw [if_pos h9] at h
      exact hb1 _ _ h
    rw [if_neg h9] at h
    exact hs _ h
theorem PrintCodeStep_some (E : CLib) (f : Proto) (pc : Nat) (line : String) (pc1 : Nat)
    (h : PrintCodeStep E f pc = some (line, pc1)) :
    ∃ i annot, f.code[pc]? = some i
      ∧ PrintCodeAnnot E f pc (GET_OPCODE i) (GETARG_A i) (GETARG_B i) (GETARG_C i)
          (GETARG_Ax i) (GETARG_Bx i) (GETARG_sBx i) = some (annot, pc1) := by
  unfold PrintCodeStep at h
  cases hi : f.code[pc]? with
  | none => rw [hi] at h; exact absurd h (by simp)
  | some i =>
    rw [hi] at h
    simp only [Option.bind_eq_bind, Option.some_bind] at h
    cases hh : PrintCodeHead f pc (GET_OPCODE i) with
    | none => rw [hh] at h; exact absurd h (by simp)
    | some head =>
      rw [hh] at h
      simp only [Option.some_bind] at h
      cases ha : PrintCodeArgs (GET_OPCODE i) (GETARG_A i) (GETARG_B i) (GETARG_C i)
          (GETARG_Ax i) (GETARG_Bx i) (GETARG_sBx i) with
      | none => rw [ha] at h; exact absurd h (by simp)
      | some args =>
        rw [ha] at h
        simp only [Option.some_bind] at h
        cases hn : PrintCodeAnnot E f pc (GET_OPCODE i) (GETARG_A i) (GETARG_B i)
            (GETARG_C i) (GETARG_Ax i) (GETARG_Bx i) (GETARG_sBx i) with
        | none => rw [hn] at h; exact absurd h (by simp)
        | some r =>
          obtain ⟨annot, p1⟩ := r
          rw [hn] at h
          simp only [Option.some_bind, Option.some.injEq, Prod.mk.injEq] at h
          exact ⟨i, annot, rfl, by rw [hn, h.2]⟩

theorem isZeroSetlist_iff (i : Instruction) :
    isZeroSetlist i = true ↔ GET_OPCODE i = OP_SETLIST ∧ GETARG_C i = 0 := by
  simp [isZeroSetlist]

theorem PrintCodeStep_next (E : CLib) (f : Proto) (pc : Nat) (line : String) (pc1 : Nat)
    (h : PrintCodeStep E f pc = some (line, pc1)) :
    ∃ i, f.code[pc]? = some i
      ∧ pc1 + 1 = (if isZeroSetlist i then pc + 2 else pc + 1)
      ∧ (isZeroSetlist i = true → pc + 1 < f.code.length) := by
  obtain ⟨i, annot, hi, ha⟩ := PrintCodeStep_some E f pc line pc1 h
  have hpc := PrintCodeAnnot_pc E f pc _ _ _ _ _ _ _ annot pc1 ha
  refine ⟨i, hi, ?_, ?_⟩
  · by_cases hz : isZeroSetlist i = true
    · rw [if_pos hz]
      rw [if_pos ((isZeroSetlist_iff i).mp hz)] at hpc
      omega
    · rw [if_neg hz]
      rw [if_neg (fun hh => hz ((isZeroSetlist_iff i).mpr hh))] at hpc
      omega
  · intro hz
    obtain ⟨ho, hc⟩ := (isZeroSetlist_iff i).mp hz
    rw [ho, PrintCodeAnnot_setlist, if_pos hc] at ha
    cases hw : f.code[pc + 1]? with
    | none => rw [hw] at ha; exact absurd ha (by simp)
    | some w =>
      by_contra hlt
      rw [List.getElem?_eq_none (by omega)] at hw
      exact absurd hw (by simp)

theorem PrintCodeLines_cursor (E : CLib) (f : Proto) (fuel : Nat) :
    ∀ pc ls, PrintCodeLinesLoop E f fuel pc = some ls →
      ls.map Prod.fst = PrintCodeCursor f fuel pc := by
  induction fuel with
  | zero =>
    intro pc ls h
    simp only [PrintCodeLinesLoop] at h
    split at h
    · exact absurd h (by simp)
    · simp only [Option.some.injEq] at h
      subst h
      rfl
  | succ fuel ih =>
    intro pc ls h
    simp only [PrintCodeLinesLoop] at h
    simp only [PrintCodeCursor]
    split at h
    · rename_i hlt
      rw [if_pos hlt]
      cases hs : PrintCodeStep E f pc with
      | none => rw [hs] at h; exact absurd h (by simp)
      | some r =>
        obtain ⟨line, pc1⟩ := r
        rw [hs] at h
        simp only [Option.bind_eq_bind, Option.some_bind] at h
        cases hr : PrintCodeLinesLoop E f fuel (pc1 + 1) with
        | none => rw [hr] at h; exact absurd h (by simp)
        | some rest =>
          rw [hr] at h
          simp only [Option.some_bind, Option.some.injEq] at h
          subst h
          obtain ⟨i, hi, hn, _⟩ := PrintCodeStep_next E f pc line pc1 hs
          rw [hi]
          simp only [List.map_cons]
          rw [← hn, ih _ _ hr]
    · rename_i hlt
      rw [if_neg hlt]
      simp only [Option.some.injEq] at h
      subst h
      rfl

theorem PrintCodeLines_count (E : CLib) (f : Proto) (hlen : f.code.length = f.sizecode)
    (fuel : Nat) :
    ∀ pc ls, pc ≤ f.sizecode → PrintCodeLinesLoop E f fuel pc = some ls →
      ls.length
        + (ls.filter (fun e => match f.code[e.1]? with
                                | some i => isZeroSetlist i
                                | none => false)).length
        = f.sizecode - pc := by
  induction fuel with
  | zero =>
    intro pc ls hpc h
    simp only [PrintCodeLinesLoop] at h
    split at h
    · exact absurd h (by simp)
    · simp only [Option.some.injEq] at h
      subst h
      simp only [List.length_nil, List.filter_nil]
      omega
  | succ fuel ih =>
    intro pc ls hpc h
    simp only [PrintCodeLinesLoop] at h
    split at h
    · rename_i hlt
      cases hs : PrintCodeStep E f pc with
      | none => rw [hs] at h; exact absurd h (by simp)
      | some r =>
        obtain ⟨line, pc1⟩ := r
        rw [hs] at h
        simp only [Option.bind_eq_bind, Option.some_bind] at h
        cases hr : PrintCodeLinesLoop E f fuel (pc1 + 1) with
        | none => rw [hr] at h; exact absurd h (by simp)
        | some rest =>
          rw [hr] at h
          simp only [Option.some_bind, Option.some.injEq] at h
          subst h
          obtain ⟨i, hi, hn, hz⟩ := PrintCodeStep_next E f pc line pc1 hs
          by_cases hzz : isZeroSetlist i = true
          · rw [if_pos hzz] at hn
            have hb := hz hzz
            have := ih (pc1 + 1) rest (by omega) hr
            simp only [List.length_cons, List.filter_cons, hi, hzz, if_true]
            omega
          · rw [if_neg hzz] at hn
            have := ih (pc1 + 1) rest (by omega) hr
            simp only [List.length_cons, List.filter_cons, hi, hzz]
            simp only [Bool.false_eq_true, if_false]
            omega
    · rename_i hlt
      simp only [Option.some.injEq] at h
      subst h
      simp only [List.length_nil, List.filter_nil]
      omega
/-! ### Reads of PrintCode -/

theorem PrintConstant_isSome (E : CLib) (f : Proto) (i : Nat) (h : i < f.k.length) :
    ∃ s, PrintConstant E f i = some s := by
  simp [PrintConstant, List.getElem?_eq_getElem h]

theorem UPVALNAME_isSome (f : Proto) (x : Nat) (h : x < f.upvalues.length) :
    ∃ s, UPVALNAME f x = some s := by
  simp [UPVALNAME, List.getElem?_eq_getElem h]

theorem PrintKOpt_isSome (E : CLib) (f : Proto) (x : Nat) (hk : f.sizek = f.k.length)
    (h : constantOperandInBounds f x = true) : ∃ s, PrintKOpt E f x = some s := by
  unfold PrintKOpt
  by_cases hx : ISK x ≠ 0
  · rw [if_pos hx]
    have : INDEXK x < f.k.length := by
      simp only [constantOperandInBounds, Bool.or_eq_true, decide_eq_true_eq] at h
      rcases h with h | h
      · exact absurd h hx
      · omega
    obtain ⟨s, hs⟩ := PrintConstant_isSome E f _ this
    exact ⟨" " ++ s, by rw [hs]; rfl⟩
  · rw [if_neg hx]
    exact ⟨"", rfl⟩

theorem PrintKOrDash_isSome (E : CLib) (f : Proto) (x : Nat) (hk : f.sizek = f.k.length)
    (h : constantOperandInBounds f x = true) : ∃ s, PrintKOrDash E f x = some s := by
  unfold PrintKOrDash
  by_cases hx : ISK x ≠ 0
  · rw [if_pos hx]
    have : INDEXK x < f.k.length := by
      simp only [constantOperandInBounds, Bool.or_eq_true, decide_eq_true_eq] at h
      rcases h with h | h
      · exact absurd h hx
      · omega
    exact PrintConstant_isSome E f _ this
  · rw [if_neg hx]
    exact ⟨"-", rfl⟩

theorem PrintCodeAnnot_isSome (E : CLib) (f : Proto) (pc : Nat) (i : Instruction)
    (hk : f.sizek = f.k.length) (hu : f.sizeupvalues = f.upvalues.length)
    (hp : f.sizep = f.p.length) (hc : f.sizecode = f.code.length)
    (h : operandsInBounds f pc i = true) :
    ∃ r, PrintCodeAnnot E f pc (GET_OPCODE i) (GETARG_A i) (GETARG_B i) (GETARG_C i)
      (GETARG_Ax i) (GETARG_Bx i) (GETARG_sBx i) = some r := by
  simp only [operandsInBounds, Bool.and_eq_true] at h
  obtain ⟨⟨⟨⟨⟨⟨⟨⟨w1, w2⟩, w3⟩, w4⟩, w5⟩, w6⟩, w7⟩, w8⟩, w9⟩ := h
  unfold PrintCodeAnnot
  by_cases h1 : GET_OPCODE i = OP_LOADK
  · rw [if_pos h1] at w1 ⊢
    obtain ⟨s, hs⟩ := PrintConstant_isSome E f (GETARG_Bx i)
      (by have := of_decide_eq_true w1; omega)
    exact ⟨_, by rw [hs]; rfl⟩
  rw [if_neg h1]
  by_cases h2 : GET_OPCODE i = OP_GETUPVAL ∨ GET_OPCODE i = OP_SETUPVAL
  · rw [if_pos h2] at w2 ⊢
    obtain ⟨s, hs⟩ := UPVALNAME_isSome f (GETARG_B i) (by have := of_decide_eq_true w2; omega)
    exact ⟨_, by rw [hs]; rfl⟩
  rw [if_neg h2]
  by_cases h3 : GET_OPCODE i = OP_GETTABUP
  · rw [if_pos h3] at w3 ⊢
    simp only [Bool.and_eq_true] at w3
    obtain ⟨s, hs⟩ := UPVALNAME_isSome f (GETARG_B i)
      (by have := of_decide_eq_true w3.1; omega)
    obtain ⟨t, ht⟩ := PrintKOpt_isSome E f (GETARG_C i) hk w3.2
    exact ⟨_, by rw [hs, ht]; rfl⟩
  rw [if_neg h3]
  by_cases h4 : GET_OPCODE i = OP_SETTABUP
  · rw [if_pos h4] at w4 ⊢
    simp only [Bool.and_eq_true] at w4
    obtain ⟨s, hs⟩ := UPVALNAME_isSome f (GETARG_A i)
      (by have := of_decide_eq_true w4.1.1; omega)
    obtain ⟨t, ht⟩ := PrintKOpt_isSome E f (GETARG_B i) hk w4.1.2
    obtain ⟨t2, ht2⟩ := PrintKOpt_isSome E f (GETARG_C i) hk w4.2
    exact ⟨_, by rw [hs, ht, ht2]; rfl⟩
  rw [if_neg h4]
  by_cases h5 : GET_OPCODE i = OP_GETTABLE ∨ GET_OPCODE i = OP_SELF
  · rw [if_pos h5] at w5 ⊢
    by_cases hx : ISK (GETARG_C i) ≠ 0
    · rw [if_pos hx]
      have : INDEXK (GETARG_C i) < f.k.length := by
        simp only [constantOperandInBounds, Bool.or_eq_true, decide_eq_true_eq] at w5
        rcases w5 with h | h
        · exact absurd h hx
        · omega
      obtain ⟨s, hs⟩ := PrintConstant_isSome E f _ this
      exact ⟨_, by rw [hs]; rfl⟩
    · rw [if_neg hx]
      exact ⟨_, rfl⟩
  rw [if_neg h5]
  by_cases h6 : GET_OPCODE i = OP_SETTABLE ∨ GET_OPCODE i = OP_ADD ∨ GET_OPCODE i = OP_SUB
      ∨ GET_OPCODE i = OP_MUL ∨ GET_OPCODE i = OP_MOD ∨ GET_OPCODE i = OP_POW
      ∨ GET_OPCODE i = OP_DIV ∨ GET_OPCODE i = OP_IDIV ∨ GET_OPCODE i = OP_BAND
      ∨ GET_OPCODE i = OP_BOR ∨ GET_OPCODE i = OP_BXOR ∨ GET_OPCODE i = OP_SHL
      ∨ GET_OPCODE i = OP_SHR ∨ GET_OPCODE i = OP_EQ ∨ GET_OPCODE i = OP_LT
      ∨ GET_OPCODE i = OP_LE
  · rw [if_pos h6]
    have hm : GET_OPCODE i ∈ [OP_SETTABLE, OP_ADD, OP_SUB, OP_MUL, OP_MOD, OP_POW, OP_DIV,
        OP_IDIV, OP_BAND, OP_BOR, OP_BXOR, OP_SHL, OP_SHR, OP_EQ, OP_LT, OP_LE] := by
      simpa only [List.mem_cons, List.mem_singleton, List.not_mem_nil, or_false] using h6
    rw [if_pos hm] at w6
    simp only [Bool.and_eq_true] at w6
    by_cases hx : ISK (GETARG_B i) ≠ 0 ∨ ISK (GETARG_C i) ≠ 0
    · rw [if_pos hx]
      obtain ⟨t, ht⟩ := PrintKOrDash_isSome E f (GETARG_B i) hk w6.1
      obtain ⟨t2, ht2⟩ := PrintKOrDash_isSome E f (GETARG_C i) hk w6.2
      exact ⟨_, by rw [ht, ht2]; rfl⟩
    · rw [if_neg hx]
      exact ⟨_, rfl⟩
  rw [if_neg h6]
  by_cases h7 : GET_OPCODE i = OP_JMP ∨ GET_OPCODE i = OP_FORLOOP ∨ GET_OPCODE i = OP_FORPREP
      ∨ GET_OPCODE i = OP_TFORLOOP
  · rw [if_pos h7]
    exact ⟨_, rfl⟩
  rw [if_neg h7]
  by_cases h8 : GET_OPCODE i = OP_CLOSURE
  · rw [if_pos h8] at w7 ⊢
    have hlt : GETARG_Bx i < f.p.length := by have := of_decide_eq_true w7; omega
    exact ⟨_, by rw [List.getElem?_eq_getElem hlt]; rfl⟩
  rw [if_neg h8]
  by_cases h9 : GET_OPCODE i = OP_SETLIST
  · rw [if_pos h9]
    by_cases hz : GETARG_C i = 0
    · rw [if_pos hz]
      rw [if_pos ⟨h9, hz⟩] at w8
      have hlt : pc + 1 < f.code.length := by have := of_decide_eq_true w8; omega
      exact ⟨_, by rw [List.getElem?_eq_getElem hlt]; rfl⟩
    · rw [if_neg hz]
      exact ⟨_, rfl⟩
  rw [if_neg h9]
  by_cases h10 : GET_OPCODE i = OP_EXTRAARG
  · rw [if_pos h10] at w9 ⊢
    obtain ⟨s, hs⟩ := PrintConstant_isSome E f (GETARG_Ax i)
      (by have := of_decide_eq_true w9; omega)
    exact ⟨_, by rw [hs]; rfl⟩
  rw [if_neg h10]
  exact ⟨_, rfl⟩
theorem PrintCodeReadsOk_of_operandsInBounds (E : CLib) (f : Proto)
    (hk : f.sizek = f.k.length) (hu : f.sizeupvalues = f.upvalues.length)
    (hp : f.sizep = f.p.length) (hc : f.sizecode = f.code.length) (fuel : Nat) :
    ∀ pc, f.sizecode - pc ≤ fuel →
      (∀ p ∈ PrintCodeCursor f fuel pc, (f.code[p]?).all (operandsInBounds f p) = true) →
      PrintCodeReadsOk E f fuel pc = true := by
  induction fuel with
  | zero =>
    intro pc hf _
    simp only [PrintCodeReadsOk, Bool.not_eq_true', decide_eq_false_iff_not]
    omega
  | succ fuel ih =>
    intro pc hf hwf
    unfold PrintCodeReadsOk
    by_cases hlt : pc < f.sizecode
    · rw [if_pos hlt]
      have hlt2 : pc < f.code.length := by omega
      have hi : f.code[pc]? = some f.code[pc] := List.getElem?_eq_getElem hlt2
      have hcur : PrintCodeCursor f (fuel + 1) pc
          = pc :: PrintCodeCursor f fuel (if isZeroSetlist f.code[pc] then pc + 2 else pc + 1) := by
        rw [PrintCodeCursor, if_pos hlt, hi]
      have hw : operandsInBounds f pc f.code[pc] = true := by
        have := hwf pc (by rw [hcur]; exact List.mem_cons_self _ _)
        rw [hi] at this
        exact this
      obtain ⟨⟨s, pc1⟩, hr⟩ := PrintCodeAnnot_isSome E f pc f.code[pc] hk hu hp hc hw
      have hpc := PrintCodeAnnot_pc E f pc _ _ _ _ _ _ _ s pc1 hr
      rw [hi]
      simp only [hr]
      have hge : pc ≤ pc1 := by
        rw [hpc]
        split <;> omega
      have hnext : pc1 + 1 = (if isZeroSetlist f.code[pc] then pc + 2 else pc + 1) := by
        by_cases hz : isZeroSetlist f.code[pc] = true
        · rw [if_pos hz]
          rw [if_pos ((isZeroSetlist_iff _).mp hz)] at hpc
          omega
        · rw [if_neg hz]
          rw [if_neg (fun hh => hz ((isZeroSetlist_iff _).mpr hh))] at hpc
          omega
      apply ih
      · omega
      · intro p hpm
        apply hwf
        rw [hcur, ← hnext]
        exact List.mem_cons_of_mem _ hpm
    · rw [if_neg hlt]

theorem PrintCodeHead_isSome (f : Proto) (pc : Nat) (i : Instruction)
    (h : headInBounds f pc i = true) : ∃ s, PrintCodeHead f pc (GET_OPCODE i) = some s := by
  simp only [headInBounds, Bool.and_eq_true, decide_eq_true_eq] at h
  obtain ⟨h1, h2⟩ := h
  have hn : GET_OPCODE i < luaP_opnames.length := by
    have : luaP_opnames.length = luaP_opmodes.length := by decide
    omega
  unfold PrintCodeHead
  cases hl : getfuncline f pc with
  | none => rw [hl] at h2; exact absurd h2 (by simp)
  | some line =>
    rw [List.getElem?_eq_getElem hn]
    exact ⟨_, rfl⟩

theorem PrintCodeArgs_isSome (i : Instruction) (f : Proto) (pc : Nat)
    (h : headInBounds f pc i = true) :
    ∃ s, PrintCodeArgs (GET_OPCODE i) (GETARG_A i) (GETARG_B i) (GETARG_C i) (GETARG_Ax i)
      (GETARG_Bx i) (GETARG_sBx i) = some s := by
  simp only [headInBounds, Bool.and_eq_true, decide_eq_true_eq] at h
  obtain ⟨h1, _⟩ := h
  unfold PrintCodeArgs getOpMode getBMode getCMode
  rw [List.getElem?_eq_getElem h1]
  simp only [Option.map_some', Option.bind_eq_bind, Option.some_bind]
  split_ifs <;> exact ⟨_, rfl⟩

theorem PrintCodeLoop_isSome (E : CLib) (f : Proto)
    (hk : f.sizek = f.k.length) (hu : f.sizeupvalues = f.upvalues.length)
    (hp : f.sizep = f.p.length) (hc : f.sizecode = f.code.length) (fuel : Nat) :
    ∀ pc, f.sizecode - pc ≤ fuel →
      (∀ p ∈ PrintCodeCursor f fuel pc, (f.code[p]?).all (operandsInBounds f p) = true) →
      (∀ p ∈ PrintCodeCursor f fuel pc, (f.code[p]?).all (headInBounds f p) = true) →
      ∃ s, PrintCodeLoop E f fuel pc = some s := by
  induction fuel with
  | zero =>
    intro pc hf _ _
    simp only [PrintCodeLoop]
    rw [if_neg (by omega)]
    exact ⟨_, rfl⟩
  | succ fuel ih =>
    intro pc hf hwf hhd
    unfold PrintCodeLoop
    by_cases hlt : pc < f.sizecode
    · rw [if_pos hlt]
      have hlt2 : pc < f.code.length := by omega
      have hi : f.code[pc]? = some f.code[pc] := List.getElem?_eq_getElem hlt2
      have hcur : PrintCodeCursor f (fuel + 1) pc
          = pc :: PrintCodeCursor f fuel (if isZeroSetlist f.code[pc] then pc + 2 else pc + 1) := by
        rw [PrintCodeCursor, if_pos hlt, hi]
      have hw : operandsInBounds f pc f.code[pc] = true := by
        have := hwf pc (by rw [hcur]; exact List.mem_cons_self _ _)
        rw [hi] at this
        exact this
      have hh : headInBounds f pc f.code[pc] = true := by
        have := hhd pc (by rw [hcur]; exact List.mem_cons_self _ _)
        rw [hi] at this
        exact this
      obtain ⟨⟨s, pc1⟩, hr⟩ := PrintCodeAnnot_isSome E f pc f.code[pc] hk hu hp hc hw
      obtain ⟨hd, hhd2⟩ := PrintCodeHead_isSome f pc f.code[pc] hh
      obtain ⟨ar, har⟩ := PrintCodeArgs_isSome f.code[pc] f pc hh
      have hpc := PrintCodeAnnot_pc E f pc _ _ _ _ _ _ _ s pc1 hr
      have hstep : PrintCodeStep E f pc = some (hd ++ ar ++ s ++ "\n", pc1) := by
        simp only [PrintCodeStep, hi, Option.bind_eq_bind, Option.some_bind, hhd2, har, hr]
      have hge : pc ≤ pc1 := by
        rw [hpc]
        split <;> omega
      have hnext : pc1 + 1 = (if isZeroSetlist f.code[pc] then pc + 2 else pc + 1) := by
        by_cases hz : isZeroSetlist f.code[pc] = true
        · rw [if_pos hz]
          rw [if_pos ((isZeroSetlist_iff _).mp hz)] at hpc
          omega
        · rw [if_neg hz]
          rw [if_neg (fun hh => hz ((isZeroSetlist_iff _).mpr hh))] at hpc
          omega
      obtain ⟨rest, hrest⟩ := ih (pc1 + 1) (by omega)
        (fun p hpm => hwf p (by rw [hcur, ← hnext]; exact List.mem_cons_of_mem _ hpm))
        (fun p hpm => hhd p (by rw [hcur, ← hnext]; exact List.mem_cons_of_mem _ hpm))
      rw [hstep]
      simp only [Option.bind_eq_bind, Option.some_bind, hrest]
      exact ⟨_, rfl⟩
    · rw [if_neg hlt]
      exact ⟨_, rfl⟩
/-- C19: for a prototype whose size fields are the sizes of its arrays, if every
instruction under the cursor of PrintCode is well-formed (constant indexes below the
constant-pool size, the Bx of OP_CLOSURE below the nested-prototype count, upvalue operands
below the upvalue count, a zero-count OP_SETLIST followed by another word), then PrintCode
reads the instruction array, the constant pool, the nested-prototype list and the upvalue
list within bounds and its loop ends within sizecode turns; if moreover every opcode is a
known one and the line map covers the code, PrintCode returns its listing, of at most
sizecode lines.  Without the last condition, when the final word is a zero-count
OP_SETLIST, the annotation reads code[sizecode], one past the end. -/
theorem PrintCode_reads_in_bounds (E : CLib) (f : Proto)
    (hk : f.sizek = f.k.length) (hu : f.sizeupvalues = f.upvalues.length)
    (hp : f.sizep = f.p.length) (hc : f.sizecode = f.code.length) :
    ((∀ p ∈ PrintCodeCursor f f.sizecode 0,
          (f.code[p]?).all (operandsInBounds f p) = true) →
        PrintCodeReadsOk E f f.sizecode 0 = true
          ∧ ((∀ p ∈ PrintCodeCursor f f.sizecode 0,
                (f.code[p]?).all (headInBounds f p) = true) →
              ∃ ls, PrintCodeLines E f = some ls ∧ ls.length ≤ f.sizecode
                ∧ PrintCode E f = some (concatLines ls)))
      ∧ (∀ i, 0 < f.sizecode → f.code[f.sizecode - 1]? = some i → isZeroSetlist i = true →
          operandsInBounds f (f.sizecode - 1) i = false
            ∧ PrintCodeAnnot E f (f.sizecode - 1) (GET_OPCODE i) (GETARG_A i) (GETARG_B i)
                (GETARG_C i) (GETARG_Ax i) (GETARG_Bx i) (GETARG_sBx i)
              = (f.code[f.sizecode]?).bind
                  (fun w => some ("\t; " ++ fmt_d (toInt32 w), f.sizecode))
            ∧ f.code[f.sizecode]? = none
            ∧ PrintCodeStep E f (f.sizecode - 1) = none) := by
  constructor
  · intro hwf
    refine ⟨PrintCodeReadsOk_of_operandsInBounds E f hk hu hp hc f.sizecode 0 (by omega) hwf,
      ?_⟩
    intro hhd
    obtain ⟨s, hs⟩ := PrintCodeLoop_isSome E f hk hu hp hc f.sizecode 0 (by omega) hwf hhd
    have hl := PrintCodeLoop_eq_lines E f f.sizecode 0
    rw [hs] at hl
    cases hls : PrintCodeLinesLoop E f f.sizecode 0 with
    | none => rw [hls] at hl; exact absurd hl (by simp)
    | some ls =>
      rw [hls] at hl
      simp only [Option.map_some', Option.some.injEq] at hl
      refine ⟨ls, hls, ?_, ?_⟩
      · have := PrintCodeLines_count E f hc.symm f.sizecode 0 ls (Nat.zero_le _) hls
        omega
      · unfold PrintCode
        rw [hs, hl]
  · intro i hpos hi hz
    obtain ⟨ho, hcz⟩ := (isZeroSetlist_iff i).mp hz
    have hnone : f.code[f.sizecode]? = none := List.getElem?_eq_none (by omega)
    have hidx : f.sizecode - 1 + 1 = f.sizecode := by omega
    have hannot : PrintCodeAnnot E f (f.sizecode - 1) (GET_OPCODE i) (GETARG_A i) (GETARG_B i)
        (GETARG_C i) (GETARG_Ax i) (GETARG_Bx i) (GETARG_sBx i)
        = (f.code[f.sizecode]?).bind
            (fun w => some ("\t; " ++ fmt_d (toInt32 w), f.sizecode)) := by
      rw [ho, PrintCodeAnnot_setlist, if_pos hcz, hidx]
    refine ⟨?_, hannot, hnone, ?_⟩
    · have h8 : (if GET_OPCODE i = OP_SETLIST ∧ GETARG_C i = 0 then
          decide (f.sizecode - 1 + 1 < f.sizecode) else true) = false := by
        rw [if_pos ⟨ho, hcz⟩]
        exact decide_eq_false (by omega)
      unfold operandsInBounds
      rw [h8]
      simp
    · cases hs : PrintCodeStep E f (f.sizecode - 1) with
      | none => rfl
      | some r =>
        obtain ⟨line, pc1⟩ := r
        obtain ⟨j, annot, hj, ha⟩ := PrintCodeStep_some E f _ line pc1 hs
        rw [hi] at hj
        simp only [Option.some.injEq] at hj
        subst hj
        rw [hannot, hnone] at ha
        exact absurd ha (by simp)

/-- Witness of C19: a well-formed listing with a zero-count OP_SETLIST in the middle, and a
prototype whose only word is a zero-count OP_SETLIST. -/
theorem PrintCode_reads_in_bounds_witness :
    (∀ p ∈ PrintCodeCursor
          (sampleProto [CREATE_ABx OP_LOADK 0 0, CREATE_ABC OP_SETLIST 0 3 0, 70000,
            CREATE_ABC OP_RETURN 0 1 0] [.numint 7])
          (sampleProto [CREATE_ABx OP_LOADK 0 0, CREATE_ABC OP_SETLIST 0 3 0, 70000,
            CREATE_ABC OP_RETURN 0 1 0] [.numint 7]).sizecode 0,
        ((sampleProto [CREATE_ABx OP_LOADK 0 0, CREATE_ABC OP_SETLIST 0 3 0, 70000,
            CREATE_ABC OP_RETURN 0 1 0] [.numint 7]).code[p]?).all
          (operandsInBounds
            (sampleProto [CREATE_ABx OP_LOADK 0 0, CREATE_ABC OP_SETLIST 0 3 0, 70000,
              CREATE_ABC OP_RETURN 0 1 0] [.numint 7]) p) = true)
      ∧ PrintCodeReadsOk sampleLib
          (sampleProto [CREATE_ABx OP_LOADK 0 0, CREATE_ABC OP_SETLIST 0 3 0, 70000,
            CREATE_ABC OP_RETURN 0 1 0] [.numint 7])
          (sampleProto [CREATE_ABx OP_LOADK 0 0, CREATE_ABC OP_SETLIST 0 3 0, 70000,
            CREATE_ABC OP_RETURN 0 1 0] [.numint 7]).sizecode 0 = true
      ∧ PrintCode sampleLib
          (sampleProto [CREATE_ABx OP_LOADK 0 0, CREATE_ABC OP_SETLIST 0 3 0, 70000,
            CREATE_ABC OP_RETURN 0 1 0] [.numint 7])
        = some ("\t1\t[-]\tLOADK    \t0 -1\t; 7\n\t2\t[-]\tSETLIST  \t0 3 0\t; 70000\n"
            ++ "\t4\t[-]\tRETURN   \t0 1\n")
      ∧ isZeroSetlist (CREATE_ABC OP_SETLIST 0 3 0) = true
      ∧ PrintCodeStep sampleLib (sampleProto [CREATE_ABC OP_SETLIST 0 3 0] [])
          ((sampleProto [CREATE_ABC OP_SETLIST 0 3 0] []).sizecode - 1) = none
      ∧ PrintCode sampleLib (sampleProto [CREATE_ABC OP_SETLIST 0 3 0] []) = none :=
  ⟨by decide,
    ((PrintCode_reads_in_bounds sampleLib
      (sampleProto [CREATE_ABx OP_LOADK 0 0, CREATE_ABC OP_SETLIST 0 3 0, 70000,
        CREATE_ABC OP_RETURN 0 1 0] [.numint 7]) rfl rfl rfl rfl).1 (by decide)).1,
    by decide, by decide,
    ((PrintCode_reads_in_bounds sampleLib (sampleProto [CREATE_ABC OP_SETLIST 0 3 0] [])
      rfl rfl rfl rfl).2 (CREATE_ABC OP_SETLIST 0 3 0) (by decide) rfl (by decide)).2.2.2,
    by decide⟩

/-! ### The lines of PrintCode and its cursor -/

theorem PrintCodeCursor_done (f : Proto) (fuel pc : Nat) (h : ¬ pc < f.sizecode) :
    PrintCodeCursor f fuel pc = [] := by
  cases fuel with
  | zero => rfl
  | succ fuel => rw [PrintCodeCursor, if_neg h]

theorem PrintCodeCursor_count (f : Proto) (hlen : f.sizecode ≤ f.code.length) (fuel : Nat) :
    ∀ pc, pc ≤ f.sizecode → f.sizecode - pc ≤ fuel →
      (PrintCodeCursor f fuel pc).length
          + ((PrintCodeCursor f fuel pc).filter (zeroSetlistAt f)).length
        = f.sizecode - pc
          + (if (PrintCodeCursor f fuel pc).any
                (fun p => zeroSetlistAt f p && decide (p + 1 = f.sizecode)) = true
              then 1 else 0) := by
  induction fuel with
  | zero =>
    intro pc hpc hf
    simp only [PrintCodeCursor, List.length_nil, List.filter_nil, List.any_nil]
    simp
    omega
  | succ fuel ih =>
    intro pc hpc hf
    by_cases hlt : pc < f.sizecode
    · obtain ⟨i, hi⟩ : ∃ i, f.code[pc]? = some i :=
        ⟨_, List.getElem?_eq_getElem (by omega)⟩
      rw [PrintCodeCursor, if_pos hlt, hi]
      simp only
      have hza : zeroSetlistAt f pc = isZeroSetlist i := by
        unfold zeroSetlistAt
        rw [hi]
      by_cases hz : isZeroSetlist i = true
      · simp only [if_pos hz]
        simp only [List.length_cons, List.filter_cons, List.any_cons, hza, hz, if_true,
          Bool.true_and]
        by_cases hlast : pc + 1 = f.sizecode
        · rw [PrintCodeCursor_done f fuel (pc + 2) (by omega)]
          simp [hlast]
          omega
        · have := ih (pc + 2) (by omega) (by omega)
          simp only [hlast, decide_False, Bool.false_or]
          omega
      · simp only [if_neg hz]
        have hzf : isZeroSetlist i = false := by
          cases h : isZeroSetlist i with
          | true => exact absurd h hz
          | false => rfl
        have := ih (pc + 1) (by omega) (by omega)
        simp only [List.length_cons, List.filter_cons, List.any_cons, hza, hzf,
          Bool.false_and, Bool.false_or]
        simp only [Bool.false_eq_true, if_false]
        omega
    · rw [PrintCodeCursor_done f _ pc hlt]
      simp
      omega

theorem toInt32_small (w : Nat) (h : w < 2 ^ 31) : toInt32 w = (w : Int) := by
  unfold toInt32
  have h1 : w % 2 ^ 32 = w := Nat.mod_eq_of_lt (by omega)
  rw [h1, if_pos h]

theorem toInt32_large (w : Nat) (h1 : 2 ^ 31 ≤ w) (h2 : w < 2 ^ 32) :
    toInt32 w = (w : Int) - 2 ^ 32 := by
  unfold toInt32
  have h3 : w % 2 ^ 32 = w := Nat.mod_eq_of_lt h2
  rw [h3, if_neg (Nat.not_lt.mpr h1)]

theorem operandsInBounds_setlist (f : Proto) (pc : Nat) (i : Instruction)
    (h : operandsInBounds f pc i = true) (hz : isZeroSetlist i = true) :
    pc + 1 < f.sizecode := by
  have hc := (isZeroSetlist_iff i).mp hz
  unfold operandsInBounds at h
  simp only [Bool.and_eq_true] at h
  have h8 := h.1.2
  rw [if_pos hc] at h8
  exact of_decide_eq_true h8

/-- C17, as stated, fails in its last sentence when the last instruction is an OP_SETLIST
with C = 0.  The loop of PrintCode runs its body at position 0 of a prototype of one
instruction: it prints the index, the opcode name and the operands, and then reads the
count at code[1], one past the instruction count.  With the word 0xFFFFFFFF lying there, the
listing has one line, annotated with -1, while the instruction count minus the number of
zero-count OP_SETLIST instructions reached is 1 - 1 = 0. -/
theorem PrintCode_setlist_last_line :
    sampleSetlistLast.sizecode = 1
      ∧ PrintCodeCursor sampleSetlistLast sampleSetlistLast.sizecode 0 = [0]
      ∧ zeroSetlistAt sampleSetlistLast 0 = true
      ∧ PrintCodeHead sampleSetlistLast 0 (GET_OPCODE (CREATE_ABC OP_SETLIST 0 3 0))
          = some "\t1\t[-]\tSETLIST  \t"
      ∧ PrintCodeLines sampleLib sampleSetlistLast
          = some [(0, "\t1\t[-]\tSETLIST  \t0 3 0\t; -1\n")]
      ∧ PrintCode sampleLib sampleSetlistLast = some "\t1\t[-]\tSETLIST  \t0 3 0\t; -1\n"
      ∧ [((0 : Nat), "\t1\t[-]\tSETLIST  \t0 3 0\t; -1\n")].length
          ≠ sampleSetlistLast.sizecode
              - ((PrintCodeCursor sampleSetlistLast sampleSetlistLast.sizecode 0).filter
                  (zeroSetlistAt sampleSetlistLast)).length := by
  decide

/-- C17, amended: an OP_SETLIST at position pc with C non-zero is annotated with C and leaves
the cursor at pc (the next line is for pc + 1); with C = 0 it is annotated with the whole
next word code[pc+1] converted to int (the word itself below 2^31, the word minus 2^32 from
2^31 on) and moves the cursor to pc + 1, so that no line is printed for pc + 1 and the next
line is for pc + 2.  The lines of a listing are printed at exactly the positions of the
cursor.  When every zero-count OP_SETLIST reached by the cursor is followed by another
instruction word (pc + 1 < sizecode), the number of cursor positions is the instruction
count minus the number of zero-count OP_SETLIST instructions reached, and for a well-formed
prototype the listing is printed and has that many lines; when the cursor reaches a
zero-count OP_SETLIST that is the last instruction, there is one position more. -/
theorem PrintCode_setlist_cursor (E : CLib) (f : Proto) (hlen : f.sizecode ≤ f.code.length) :
    (∀ (pc a b c ax bx : Nat) (sbx : Int),
        PrintCodeAnnot E f pc OP_SETLIST a b c ax bx sbx
          = if c = 0 then
              (f.code[pc + 1]?).bind (fun w => some ("\t; " ++ fmt_d (toInt32 w), pc + 1))
            else some ("\t; " ++ fmt_d c, pc))
      ∧ (∀ w : Nat, w < 2 ^ 31 → toInt32 w = (w : Int))
      ∧ (∀ w : Nat, 2 ^ 31 ≤ w → w < 2 ^ 32 → toInt32 w = (w : Int) - 2 ^ 32)
      ∧ PrintCode E f = (PrintCodeLines E f).map concatLines
      ∧ (∀ ls, PrintCodeLines E f = some ls →
          ls.map Prod.fst = PrintCodeCursor f f.sizecode 0
            ∧ ls.length = (PrintCodeCursor f f.sizecode 0).length)
      ∧ (∀ (fuel pc : Nat) (i : Instruction), pc < f.sizecode → f.code[pc]? = some i →
          PrintCodeCursor f (fuel + 1) pc
            = pc :: PrintCodeCursor f fuel (if isZeroSetlist i = true then pc + 2 else pc + 1))
      ∧ ((∀ p ∈ PrintCodeCursor f f.sizecode 0, zeroSetlistAt f p = true → p + 1 < f.sizecode) →
          (PrintCodeCursor f f.sizecode 0).length
              + ((PrintCodeCursor f f.sizecode 0).filter (zeroSetlistAt f)).length
            = f.sizecode)
      ∧ ((∃ p ∈ PrintCodeCursor f f.sizecode 0, zeroSetlistAt f p = true ∧ p + 1 = f.sizecode) →
          (PrintCodeCursor f f.sizecode 0).length
              + ((PrintCodeCursor f f.sizecode 0).filter (zeroSetlistAt f)).length
            = f.sizecode + 1)
      ∧ (f.sizek = f.k.length → f.sizeupvalues = f.upvalues.length → f.sizep = f.p.length →
          f.sizecode = f.code.length →
          (∀ p ∈ PrintCodeCursor f f.sizecode 0,
            (f.code[p]?).all (operandsInBounds f p) = true) →
          (∀ p ∈ PrintCodeCursor f f.sizecode 0, (f.code[p]?).all (headInBounds f p) = true) →
          ∃ ls, PrintCodeLines E f = some ls
            ∧ ls.length + ((ls.map Prod.fst).filter (zeroSetlistAt f)).length = f.sizecode) := by
  have hcount := PrintCodeCursor_count f hlen f.sizecode 0 (Nat.zero_le _) (by omega)
  have hlines : ∀ ls, PrintCodeLines E f = some ls →
      ls.map Prod.fst = PrintCodeCursor f f.sizecode 0
        ∧ ls.length = (PrintCodeCursor f f.sizecode 0).length := by
    intro ls h
    have h1 := PrintCodeLines_cursor E f f.sizecode 0 ls h
    refine ⟨h1, ?_⟩
    rw [← h1, List.length_map]
  have hgood : (∀ p ∈ PrintCodeCursor f f.sizecode 0,
        zeroSetlistAt f p = true → p + 1 < f.sizecode) →
      (PrintCodeCursor f f.sizecode 0).length
          + ((PrintCodeCursor f f.sizecode 0).filter (zeroSetlistAt f)).length
        = f.sizecode := by
    intro h
    have hany : ¬ ((PrintCodeCursor f f.sizecode 0).any
        (fun p => zeroSetlistAt f p && decide (p + 1 = f.sizecode)) = true) := by
      intro ha
      obtain ⟨p, hp, hq⟩ := List.any_eq_true.mp ha
      simp only [Bool.and_eq_true, decide_eq_true_eq] at hq
      have := h p hp hq.1
      omega
    rw [if_neg hany] at hcount
    omega
  refine ⟨fun pc a b c ax bx sbx => PrintCodeAnnot_setlist E f pc a b c ax bx sbx,
    toInt32_small, toInt32_large, PrintCodeLoop_eq_lines E f f.sizecode 0, hlines, ?_,
    hgood, ?_, ?_⟩
  · intro fuel pc i hlt hi
    rw [PrintCodeCursor, if_pos hlt, hi]
  · rintro ⟨p, hp, hz, hl⟩
    have hany : (PrintCodeCursor f f.sizecode 0).any
        (fun p => zeroSetlistAt f p && decide (p + 1 = f.sizecode)) = true :=
      List.any_eq_true.mpr ⟨p, hp, by simp [hz, hl]⟩
    rw [if_pos hany] at hcount
    omega
  · intro hk hu hp hc hwf hhd
    obtain ⟨s, hs⟩ := PrintCodeLoop_isSome E f hk hu hp hc f.sizecode 0 (by omega) hwf hhd
    have hl := PrintCodeLoop_eq_lines E f f.sizecode 0
    rw [hs] at hl
    cases hls : PrintCodeLinesLoop E f f.sizecode 0 with
    | none => rw [hls] at hl; exact absurd hl (by simp)
    | some ls =>
      refine ⟨ls, hls, ?_⟩
      obtain ⟨h1, h2⟩ := hlines ls hls
      rw [h1, h2]
      apply hgood
      intro p hp hz
      have hw := hwf p hp
      unfold zeroSetlistAt at hz
      cases hi : f.code[p]? with
      | none => rw [hi] at hz; exact absurd hz (by simp)
      | some i =>
        rw [hi] at hz hw
        exact operandsInBounds_setlist f p i hw hz

/-- Witness of C17, amended: a zero-count OP_SETLIST followed by its count word 0xFFFFFFFF,
printed as -1, then an OP_SETLIST with C = 2 and a return: three lines for four words; and
the prototype whose only instruction is a zero-count OP_SETLIST, with one position for one
word. -/
theorem PrintCode_setlist_cursor_witness :
    sampleSetlists.sizecode ≤ sampleSetlists.code.length
      ∧ (2 : Nat) ^ 31 ≤ 0xFFFFFFFF ∧ 0xFFFFFFFF < (2 : Nat) ^ 32
      ∧ toInt32 0xFFFFFFFF = ((0xFFFFFFFF : Nat) : Int) - 2 ^ 32
      ∧ fmt_d (toInt32 0xFFFFFFFF) = "-1"
      ∧ PrintCodeLines sampleLib sampleSetlists
        = some [(0, "\t1\t[-]\tSETLIST  \t0 3 0\t; -1\n"),
                (2, "\t3\t[-]\tSETLIST  \t0 3 2\t; 2\n"),
                (3, "\t4\t[-]\tRETURN   \t0 1\n")]
      ∧ PrintCode sampleLib sampleSetlists
        = some ("\t1\t[-]\tSETLIST  \t0 3 0\t; -1\n\t3\t[-]\tSETLIST  \t0 3 2\t; 2\n"
            ++ "\t4\t[-]\tRETURN   \t0 1\n")
      ∧ PrintCodeCursor sampleSetlists sampleSetlists.sizecode 0 = [0, 2, 3]
      ∧ (PrintCodeCursor sampleSetlists sampleSetlists.sizecode 0).length
          + ((PrintCodeCursor sampleSetlists sampleSetlists.sizecode 0).filter
              (zeroSetlistAt sampleSetlists)).length
        = sampleSetlists.sizecode
      ∧ (∃ ls, PrintCodeLines sampleLib sampleSetlists = some ls
          ∧ ls.length + ((ls.map Prod.fst).filter (zeroSetlistAt sampleSetlists)).length
            = sampleSetlists.sizecode)
      ∧ sampleSetlistLast.sizecode ≤ sampleSetlistLast.code.length
      ∧ (PrintCodeCursor sampleSetlistLast sampleSetlistLast.sizecode 0).length
          + ((PrintCodeCursor sampleSetlistLast sampleSetlistLast.sizecode 0).filter
              (zeroSetlistAt sampleSetlistLast)).length
        = sampleSetlistLast.sizecode + 1 :=
  have h := PrintCode_setlist_cursor sampleLib sampleSetlists (by decide)
  have h2 := PrintCode_setlist_cursor sampleLib sampleSetlistLast (by decide)
  ⟨by decide, by decide, by decide, h.2.2.1 0xFFFFFFFF (by decide) (by decide), by decide,
    by decide, by decide, by decide, h.2.2.2.2.2.2.1 (by decide),
    h.2.2.2.2.2.2.2.2 rfl rfl rfl rfl (by decide) (by decide), by decide,
    h2.2.2.2.2.2.2.2.1 ⟨0, by decide, by decide, by decide⟩⟩

/-! ### The text of PrintString -/

theorem wellEscaped_PrintStringChar (c : Nat) (hc : c < 256) (rest : List Char) :
    wellEscaped true .plain ((PrintStringChar c).data ++ rest) = wellEscaped true .plain rest := by
  interval_cases c <;> rfl

theorem PrintStringChar_printable (c : Nat) (hc : c < 256) :
    ∀ ch ∈ (PrintStringChar c).data, isprint ch.toNat = true := by
  interval_cases c <;> decide

theorem PrintStringChar_length (c : Nat) (hc : c < 256) :
    1 ≤ (PrintStringChar c).data.length ∧ (PrintStringChar c).data.length ≤ 4 := by
  interval_cases c <;> decide

theorem PrintStringLoop_structure (s : List Nat) :
    wellEscaped true .plain (PrintStringLoop s).data = true
      ∧ (∀ ch ∈ (PrintStringLoop s).data, isprint ch.toNat = true)
      ∧ s.length ≤ (PrintStringLoop s).data.length
      ∧ (PrintStringLoop s).data.length ≤ 4 * s.length := by
  induction s with
  | nil => exact ⟨rfl, by simp [PrintStringLoop], by simp, by simp [PrintStringLoop]⟩
  | cons c rest ih =>
    have hc : c % 256 < 256 := Nat.mod_lt _ (by decide)
    obtain ⟨h1, h2, h3, h4⟩ := ih
    have hl := PrintStringChar_length (c % 256) hc
    simp only [PrintStringLoop, String.data_append, List.length_append, List.length_cons]
    refine ⟨?_, ?_, by omega, by omega⟩
    · rw [wellEscaped_PrintStringChar _ hc, h1]
    · intro ch hch
      rcases List.mem_append.mp hch with h | h
      · exact PrintStringChar_printable _ hc ch h
      · exact h2 ch h

/-- C20, as stated, fails: for the byte 0 the text is the quote, then the four characters
backslash 0 0 0, then the quote; that backslash starts a four-character decimal escape and
is not part of any two-character backslash escape. -/
theorem PrintString_decimal_escape :
    PrintString [0] = "\"\\000\""
      ∧ (PrintStringLoop [0]).data = [Char.ofNat 92, Char.ofNat 48, Char.ofNat 48, Char.ofNat 48]
      ∧ unescapeMnemonic 48 = none
      ∧ wellEscaped false .plain (PrintStringLoop [0]).data = false := by
  decide

/-- C20, amended: for every byte sequence `s` of length n, the text of PrintString(s) is a
double quote, a body and a double quote; every character of the body is printable; the
body is a sequence of items, each a printable character other than quote and backslash, a
two-character backslash escape, or a four-character decimal escape (backslash and three
digits), so that every double quote of the body is the second character of a two-character
escape and every backslash belongs to a two-character escape or starts a four-character
one; the total length is at least n + 2 and at most 4n + 2. -/
theorem PrintString_structure (s : TString) :
    (PrintString s).data = Char.ofNat 34 :: ((PrintStringLoop s).data ++ [Char.ofNat 34])
      ∧ wellEscaped true .plain (PrintStringLoop s).data = true
      ∧ (∀ ch ∈ (PrintStringLoop s).data, isprint ch.toNat = true)
      ∧ s.length + 2 ≤ (PrintString s).length
      ∧ (PrintString s).length ≤ 4 * s.length + 2 := by
  have hd : (PrintString s).data
      = Char.ofNat 34 :: ((PrintStringLoop s).data ++ [Char.ofNat 34]) := by
    simp [PrintString, String.singleton]
  obtain ⟨h1, h2, h3, h4⟩ := PrintStringLoop_structure s
  refine ⟨hd, h1, h2, ?_, ?_⟩
  · show s.length + 2 ≤ (PrintString s).data.length
    rw [hd]
    simp only [List.length_cons, List.length_append, List.length_nil]
    omega
  · show (PrintString s).data.length ≤ 4 * s.length + 2
    rw [hd]
    simp only [List.length_cons, List.length_append, List.length_nil]
    omega

/-! ### Re-parsing the text of a float -/

theorem dropWhile_head_false {α : Type} (p : α → Bool) :
    ∀ (l : List α) (c : α) (r : List α), l.dropWhile p = c :: r → p c = false := by
  intro l
  induction l with
  | nil => intro c r h; exact absurd h (by simp)
  | cons a l ih =>
    intro c r h
    by_cases ha : p a = true
    · rw [List.dropWhile_cons_of_pos ha] at h
      exact ih c r h
    · rw [List.dropWhile_cons_of_neg ha] at h
      simp only [List.cons.injEq] at h
      rw [← h.1]
      simpa using ha

theorem not_digit_of_charset (c : Char) (hc : c ∈ "-0123456789".data)
    (hd : isDigitChar c = false) : c = '-' := by
  simp only [String.data, List.mem_cons, List.mem_singleton, List.not_mem_nil, or_false] at hc
  rcases hc with h | h | h | h | h | h | h | h | h | h | h
  · exact h
  all_goals (subst h; exact absurd hd (by decide))

theorem decimalPartsBody_looksLikeInt (neg : Bool) (body : List Char)
    (hbody : ∀ ch ∈ body, ch ∈ "-0123456789".data)
    (d : Bool × List Char × List Char × Int) (h : decimalPartsBody neg body = some d) :
    d.2.2.1 = [] ∧ d.2.2.2 = 0
      ∧ decimalPartsBody neg (body ++ ['.', '0']) = some (d.1, d.2.1, ['0'], 0) := by
  unfold decimalPartsBody at h ⊢
  have hall : body.dropWhile isDigitChar = [] := by
    cases hr : body.dropWhile isDigitChar with
    | nil => rfl
    | cons c r =>
      have hc1 : isDigitChar c = false := dropWhile_head_false _ body c r hr
      have hc2 : c ∈ body := (List.dropWhile_sublist isDigitChar).mem
        (by rw [hr]; exact List.mem_cons_self _ _)
      have hc3 : c = '-' := not_digit_of_charset c (hbody c hc2) hc1
      subst hc3
      rw [hr] at h
      by_cases hip : body.takeWhile isDigitChar = []
      · rw [if_pos hip] at h
        exact absurd h (by simp)
      · rw [if_neg hip] at h
        exact absurd h (by simp [parseExponent])
  have hdig : ∀ ch ∈ body, isDigitChar ch = true := List.dropWhile_eq_nil_iff.mp hall
  have htake : body.takeWhile isDigitChar = body := List.takeWhile_eq_self_iff.mpr hdig
  rw [hall, htake] at h
  rw [List.takeWhile_append_of_pos hdig, List.dropWhile_append_of_pos hdig]
  have h1 : List.takeWhile isDigitChar ['.', '0'] = [] := by decide
  have h2 : List.dropWhile isDigitChar ['.', '0'] = ['.', '0'] := by decide
  rw [h1, h2, List.append_nil]
  by_cases hb : body = []
  · rw [if_pos hb] at h
    exact absurd h (by simp)
  · rw [if_neg hb] at h ⊢
    have hnp : ¬ ((none : Option Char) = some '.') := by simp
    rw [List.head?_nil, if_neg hnp, if_neg hnp] at h
    have hex : parseExponent [] = some 0 := rfl
    rw [hex] at h
    simp only [Option.map_some', Option.some.injEq] at h
    subst h
    refine ⟨rfl, rfl, ?_⟩
    have h3 : (['.', '0'] : List Char).head? = some '.' := rfl
    have h4 : List.dropWhile isDigitChar (List.drop 1 ['.', '0']) = [] := by decide
    have h5 : List.takeWhile isDigitChar (List.drop 1 ['.', '0']) = ['0'] := by decide
    rw [if_pos h3, if_pos h3, h4, h5]
    rfl

theorem decimalParts_looksLikeInt (s : List Char)
    (hs : ∀ ch ∈ s, ch ∈ "-0123456789".data)
    (d : Bool × List Char × List Char × Int) (h : decimalParts s = some d) :
    d.2.2.1 = [] ∧ d.2.2.2 = 0
      ∧ decimalParts (s ++ ['.', '0']) = some (d.1, d.2.1, ['0'], 0) := by
  cases s with
  | nil => exact absurd h (by simp [decimalParts, decimalPartsBody])
  | cons c0 s0 =>
    unfold decimalParts at h ⊢
    have hbody : ∀ ch ∈ (if (c0 :: s0).head? = some '-' then (c0 :: s0).drop 1
        else c0 :: s0), ch ∈ "-0123456789".data := by
      intro ch hch
      split at hch
      · exact hs ch (List.mem_cons_of_mem _ (by simpa using hch))
      · exact hs ch hch
    have hbody2 : (if ((c0 :: s0) ++ ['.', '0']).head? = some '-'
        then ((c0 :: s0) ++ ['.', '0']).drop 1 else (c0 :: s0) ++ ['.', '0'])
        = (if (c0 :: s0).head? = some '-' then (c0 :: s0).drop 1
            else c0 :: s0) ++ ['.', '0'] := by
      simp only [List.cons_append, List.head?_cons, List.drop_succ_cons, List.drop_zero]
      split <;> rfl
    have hneg : decide (((c0 :: s0) ++ ['.', '0']).head? = some '-')
        = decide ((c0 :: s0).head? = some '-') := by
      simp only [List.cons_append, List.head?_cons]
    rw [hbody2, hneg]
    exact decimalPartsBody_looksLikeInt _ _ hbody d h
theorem parseDecimal_PrintFloat (t : String) (v : ℚ) (h : parseDecimal t.data = some v) :
    parseDecimal (PrintFloat t).data = some v := by
  unfold PrintFloat
  cases hl : looksLikeInt t with
  | false => simpa using h
  | true =>
    have hs : ∀ ch ∈ t.data, ch ∈ "-0123456789".data := by
      intro ch hch
      have := (List.all_eq_true.mp hl) ch hch
      exact List.elem_iff.mp this
    unfold parseDecimal at h ⊢
    cases hd : decimalParts t.data with
    | none => rw [hd] at h; exact absurd h (by simp)
    | some d =>
      rw [hd] at h
      simp only [Option.map_some', Option.some.injEq] at h
      obtain ⟨h1, h2, h3⟩ := decimalParts_looksLikeInt t.data hs d hd
      have hdata : (t ++ ".0").data = t.data ++ ['.', '0'] := by
        rw [String.data_append]
      simp only [if_true, hdata, h3, Option.map_some', Option.some.injEq]
      rw [← h]
      unfold partsValue
      simp only [h1, h2]
      rw [show digitsValue ['0'] = 0 from by decide, show digitsValue [] = 0 from rfl]
      simp

theorem reparsesTo_three : reparsesTo "3" { bits := 0x4008000000000000 } := by
  have hp : decimalParts "3".data = some (false, ['3'], [], 0) := by decide
  have hd : doubleParts { bits := 0x4008000000000000 }
      = some (false, 6755399441055744, -51) := by decide
  refine ⟨3, 3, ?_, ?_, ?_⟩
  · unfold parseDecimal
    rw [hp]
    simp only [Option.map_some', partsValue]
    rw [show digitsValue ['3'] = 3 from by decide, show digitsValue [] = 0 from rfl]
    norm_num
  · simp only [doubleValue, hd, Option.map_some']
    norm_num
  · intro y vy _
    simp

theorem shortestReparse_three : shortestReparse "3" { bits := 0x4008000000000000 } := by
  refine ⟨reparsesTo_three, ?_⟩
  rintro t2 ⟨v, vx, hv, _, _⟩
  cases ht : t2.data with
  | nil =>
    rw [ht] at hv
    exact absurd hv (by simp [parseDecimal, decimalParts, decimalPartsBody])
  | cons c r =>
    have : t2.length = (c :: r).length := by rw [← ht]; rfl
    rw [this]
    simp [String.length]

theorem PrintFloat_length (t : String) (h : looksLikeInt t = true) :
    (PrintFloat t).length = t.length + 2 := by
  unfold PrintFloat
  rw [h, if_pos rfl, String.length_append]
  rfl

theorem PrintFloat_plain (t : String) (h : looksLikeInt t = false) : PrintFloat t = t := by
  unfold PrintFloat
  rw [h]
  simp

theorem isDigitChar_charset (c : Char) (h : isDigitChar c = true) :
    c ∈ "-0123456789".data := by
  have h1 : 48 ≤ c.toNat ∧ c.toNat ≤ 57 := by
    simpa [isDigitChar, isDecDigit] using h
  have h2 : c = Char.ofNat c.toNat := (Char.ofNat_toNat c).symm
  obtain ⟨ha, hb⟩ := h1
  generalize c.toNat = n at h2 ha hb
  subst h2
  interval_cases n <;> decide

theorem looksLikeInt_of_one_char (t : String) (v : ℚ)
    (hp : parseDecimal t.data = some v) (hl : t.length ≤ 1) : looksLikeInt t = true := by
  unfold looksLikeInt
  cases ht : t.data with
  | nil =>
    rw [ht] at hp
    exact absurd hp (by simp [parseDecimal, decimalParts, decimalPartsBody])
  | cons c r =>
    have hlen : t.length = (c :: r).length := by rw [← ht]; rfl
    have hr : r = [] := by
      cases r with
      | nil => rfl
      | cons d r2 =>
        rw [hlen] at hl
        simp only [List.length_cons] at hl
        omega
    subst hr
    rw [ht] at hp
    have hd : isDigitChar c = true := by
      by_contra hn
      have hf : isDigitChar c = false := by
        cases h : isDigitChar c with
        | true => exact absurd h hn
        | false => rfl
      by_cases hm : c = '-'
      · subst hm
        exact absurd hp (by simp [parseDecimal, decimalParts, decimalPartsBody])
      · have : decimalParts [c] = none := by
          unfold decimalParts decimalPartsBody
          simp [hm, List.takeWhile, hf]
        unfold parseDecimal at hp
        rw [this] at hp
        exact absurd hp (by simp)
    simp only [List.all_cons, List.all_nil, Bool.and_true]
    exact List.elem_iff.mpr (isDigitChar_charset c hd)

/-- C11, as stated, fails in its second half.  For the double 3.0 the text written under
LUA_NUMBER_FMT is "3", the shortest text that re-parses to 3.0, as the specification says of
that format; it consists of digits only, so PrintConstant appends ".0" and emits "3.0".  This
text re-parses to 3.0 too, but it is not the shortest text that does: "3" has one character
and "3.0" has three.  The same holds with any C library whose text for 3.0 is a shortest
text that re-parses to 3.0. -/
theorem PrintConstant_float_not_shortest :
    sampleLib.number_fmt { bits := 0x4008000000000000 } = "3"
      ∧ shortestReparse "3" { bits := 0x4008000000000000 }
      ∧ looksLikeInt "3" = true
      ∧ PrintTValue sampleLib (.numflt { bits := 0x4008000000000000 }) = "3.0"
      ∧ reparsesTo "3.0" { bits := 0x4008000000000000 }
      ∧ "3".length < "3.0".length
      ∧ ¬ shortestReparse (PrintTValue sampleLib (.numflt { bits := 0x4008000000000000 }))
            { bits := 0x4008000000000000 }
      ∧ (∀ E : CLib,
          shortestReparse (E.number_fmt { bits := 0x4008000000000000 })
              { bits := 0x4008000000000000 } →
            PrintTValue E (.numflt { bits := 0x4008000000000000 })
                = E.number_fmt { bits := 0x4008000000000000 } ++ ".0"
              ∧ ¬ shortestReparse (PrintTValue E (.numflt { bits := 0x4008000000000000 }))
                    { bits := 0x4008000000000000 }) := by
  have ht : PrintTValue sampleLib (.numflt { bits := 0x4008000000000000 }) = "3.0" := by decide
  have hr : reparsesTo "3.0" { bits := 0x4008000000000000 } := by
    obtain ⟨v, vx, hv, hx, hmin⟩ := reparsesTo_three
    exact ⟨v, vx, parseDecimal_PrintFloat "3" v hv, hx, hmin⟩
  refine ⟨by decide, shortestReparse_three, by decide, ht, hr, by decide, ?_, ?_⟩
  · rw [ht]
    rintro ⟨_, hmin⟩
    exact absurd (hmin "3" reparsesTo_three) (by decide)
  · intro E hs
    have hl : (E.number_fmt { bits := 0x4008000000000000 }).length ≤ 1 :=
      hs.2 "3" reparsesTo_three
    obtain ⟨v, _, hv, _, _⟩ := hs.1
    have hli := looksLikeInt_of_one_char _ v hv hl
    have hT : PrintTValue E (.numflt { bits := 0x4008000000000000 })
        = PrintFloat (E.number_fmt { bits := 0x4008000000000000 }) := rfl
    rw [hT]
    constructor
    · unfold PrintFloat
      rw [hli, if_pos rfl]
    · intro h2
      have h3 := h2.2 _ hs.1
      rw [PrintFloat_length _ hli] at h3
      omega

/-- C11, amended: for every float constant x, the text PrintConstant emits is the text
written under LUA_NUMBER_FMT, followed by ".0" when that text consists only of characters of
"-0123456789".  It denotes the same number as the LUA_NUMBER_FMT text, so it re-parses to x
whenever that text does.  When the LUA_NUMBER_FMT text is a shortest text that re-parses to
x, the emitted text is one too exactly when nothing is appended; otherwise it is two
characters longer than the LUA_NUMBER_FMT text, which re-parses to x as well. -/
theorem PrintConstant_float_reparse (E : CLib) (x : lua_Number) :
    PrintTValue E (.numflt x)
        = E.number_fmt x ++ (if looksLikeInt (E.number_fmt x) = true then ".0" else "")
      ∧ (∀ v, parseDecimal (E.number_fmt x).data = some v →
          parseDecimal (PrintTValue E (.numflt x)).data = some v)
      ∧ (reparsesTo (E.number_fmt x) x → reparsesTo (PrintTValue E (.numflt x)) x)
      ∧ (shortestReparse (E.number_fmt x) x →
          (shortestReparse (PrintTValue E (.numflt x)) x
            ↔ looksLikeInt (E.number_fmt x) = false))
      ∧ (looksLikeInt (E.number_fmt x) = true →
          (PrintTValue E (.numflt x)).length = (E.number_fmt x).length + 2) := by
  refine ⟨rfl, fun v h => parseDecimal_PrintFloat _ v h, ?_, ?_, ?_⟩
  · rintro ⟨v, vx, hv, hx, hmin⟩
    exact ⟨v, vx, parseDecimal_PrintFloat _ v hv, hx, hmin⟩
  · intro hs
    have hT : PrintTValue E (.numflt x) = PrintFloat (E.number_fmt x) := rfl
    rw [hT]
    constructor
    · intro hs2
      cases hl : looksLikeInt (E.number_fmt x) with
      | false => rfl
      | true =>
        have h1 := hs2.2 _ hs.1
        rw [PrintFloat_length _ hl] at h1
        omega
    · intro hl
      rw [PrintFloat_plain _ hl]
      exact hs
  · intro hl
    exact PrintFloat_length _ hl

/-- Witness of C11, amended: the double 3.0, for which the number format writes "3", a
shortest text that re-parses to 3.0; PrintConstant emits "3.0", which re-parses to 3.0 as
well and is two characters longer. -/
theorem PrintConstant_float_reparse_witness :
    reparsesTo (sampleLib.number_fmt { bits := 0x4008000000000000 })
        { bits := 0x4008000000000000 }
      ∧ shortestReparse (sampleLib.number_fmt { bits := 0x4008000000000000 })
          { bits := 0x4008000000000000 }
      ∧ looksLikeInt (sampleLib.number_fmt { bits := 0x4008000000000000 }) = true
      ∧ PrintTValue sampleLib (.numflt { bits := 0x4008000000000000 }) = "3.0"
      ∧ reparsesTo (PrintTValue sampleLib (.numflt { bits := 0x4008000000000000 }))
          { bits := 0x4008000000000000 }
      ∧ (shortestReparse (PrintTValue sampleLib (.numflt { bits := 0x4008000000000000 }))
            { bits := 0x4008000000000000 }
          ↔ looksLikeInt (sampleLib.number_fmt { bits := 0x4008000000000000 }) = false)
      ∧ (PrintTValue sampleLib (.numflt { bits := 0x4008000000000000 })).length
          = (sampleLib.number_fmt { bits := 0x4008000000000000 }).length + 2 :=
  have h := PrintConstant_float_reparse sampleLib { bits := 0x4008000000000000 }
  ⟨reparsesTo_three, shortestReparse_three, by decide, by decide,
    h.2.2.1 reparsesTo_three, h.2.2.2.1 shortestReparse_three, h.2.2.2.2 (by decide)⟩

end Luac
